import Mathlib

/-! OpenTelekomCloud Terraform provider: handlers and request builders

A shallow embedding of the resource and data-source handlers of the provider
and of the RDS v3 request builders, together with the properties they are
meant to have.

Conventions of the embedding

* A Go `error` value is a `GoErr`: the handlers only ever tell errors apart by
  their dynamic type (an `awserr.Error` with a code, a
  `golangsdk.ErrDefault404`, anything else) and by the text of `Error()`.
* A call into the cloud SDK is a parameter of the handler: a function from the
  arguments of the call to its outcome.
* `*schema.ResourceData` is a record with the resource ID and the attributes of
  the schema of the resource; a handler returns the record it leaves behind
  together with its diagnostics (`none` for `nil`).
* `interface{}` values taken from configuration or from a JSON body are
  `Value`s; a failed type assertion or an index out of range is a `panic`.
-/

namespace OTC

/-! ## Errors -/

/-- A Go `error` value: an `awserr.Error` (with its code), a
`golangsdk.ErrDefault404`, or an error of any other type.  `text` is what
`Error()` prints. -/
inductive GoErr where
  | aws (code : String) (text : String)
  | default404 (text : String)
  | plain (text : String)
  deriving DecidableEq, Repr

/-- The method `Error()` of a Go error. -/
def GoErr.Error : GoErr → String
  | .aws _ text => text
  | .default404 text => text
  | .plain text => text

/-- The value a `resource.Retry` callback hands back when it does not return
`nil`: `resource.RetryableError(err)` or `resource.NonRetryableError(err)`. -/
inductive RetryError where
  | retryable (err : GoErr)
  | nonRetryable (err : GoErr)
  deriving DecidableEq, Repr

/-- Whether the callback asked for another attempt. -/
def RetryError.isRetryable : RetryError → Bool
  | .retryable _ => true
  | .nonRetryable _ => false

/-! ## S3 bucket policy -/

/-- State of an `opentelekomcloud_s3_bucket_policy` resource. -/
structure S3BucketPolicyData where
  id : String
  bucket : String
  policy : String
  deriving DecidableEq, Repr

/-- The function literal passed to `resource.Retry` in
`resourceS3BucketPolicyPut`, as a function of the outcome of the
`PutBucketPolicy` call it makes (`none` when the call returned no error). -/
def resourceS3BucketPolicyPut.retryFunc (putBucketPolicy : Option GoErr) : Option RetryError :=
  match putBucketPolicy with
  | some err =>
    match err with
    | .aws code _ =>
      if code = "MalformedPolicy" then some (.retryable err)
      else some (.nonRetryable err)
    | _ => some (.nonRetryable err)
  | none => none

/-- Handler `resourceS3BucketPolicyDelete`: `s3Client` is the outcome of
`config.S3Client`, `deleteBucketPolicy` the SDK call on a bucket name. -/
def resourceS3BucketPolicyDelete (s3Client : Except GoErr Unit)
    (deleteBucketPolicy : String → Option GoErr) (d : S3BucketPolicyData) : Option String :=
  match s3Client with
  | .error err => some ("Error creating OpenTelekomCloud s3 client: " ++ err.Error)
  | .ok _ =>
    let bucket := d.bucket
    match deleteBucketPolicy bucket with
    | some err =>
      match err with
      | .aws code _ =>
        if code = "NoSuchBucket" then none
        else some ("Error deleting S3 policy: " ++ err.Error)
      | _ => some ("Error deleting S3 policy: " ++ err.Error)
    | none => none

/-! ## WAF rules -/

/-- A `whiteblackip_rules.WhiteBlackIP` as returned by the SDK. -/
structure WhiteBlackIP where
  Id : String
  PolicyID : String
  Addr : String
  White : Int
  deriving DecidableEq, Repr

/-- State of an `opentelekomcloud_waf_whiteblackip_rule_v1` resource. -/
structure WafWhiteBlackIpData where
  id : String
  policy_id : String
  addr : String
  white : Int
  deriving DecidableEq, Repr

/-- Handler `resourceWafWhiteBlackIpRuleV1Read`; `get policy_id id` is
`whiteblackip_rules.Get(...).Extract()`. -/
def resourceWafWhiteBlackIpRuleV1Read (wafClient : Except GoErr Unit)
    (get : String → String → Except GoErr WhiteBlackIP) (d : WafWhiteBlackIpData) :
    WafWhiteBlackIpData × Option String :=
  match wafClient with
  | .error err => (d, some ("Error creating OpenTelekomCloud WAF client: " ++ err.Error))
  | .ok _ =>
    let policy_id := d.policy_id
    match get policy_id d.id with
    | .error err =>
      match err with
      | .default404 _ => ({ d with id := "" }, none)
      | _ => (d, some ("Error retrieving OpenTelekomCloud Waf WhiteBlackIP Rule: " ++ err.Error))
    | .ok n =>
      ({ id := n.Id, addr := n.Addr, white := n.White, policy_id := n.PolicyID }, none)

/-- Handler `resourceWafWhiteBlackIpRuleV1Delete`; `delete policy_id id` is
`whiteblackip_rules.Delete(...).ExtractErr()`. -/
def resourceWafWhiteBlackIpRuleV1Delete (wafClient : Except GoErr Unit)
    (delete : String → String → Option GoErr) (d : WafWhiteBlackIpData) :
    WafWhiteBlackIpData × Option String :=
  match wafClient with
  | .error err => (d, some ("Error creating OpenTelekomCloud WAF client: " ++ err.Error))
  | .ok _ =>
    let policy_id := d.policy_id
    match delete policy_id d.id with
    | some err => (d, some ("Error deleting OpenTelekomCloud WAF WhiteBlackIP Rule: " ++ err.Error))
    | none => ({ d with id := "" }, none)

/-- A `webtamperprotection_rules.WebTamper` as returned by the SDK. -/
structure WebTamper where
  Id : String
  PolicyID : String
  Hostname : String
  Url : String
  deriving DecidableEq, Repr

/-- State of an `opentelekomcloud_waf_webtamperprotection_rule_v1` resource. -/
structure WafWebTamperData where
  id : String
  policy_id : String
  hostname : String
  url : String
  deriving DecidableEq, Repr

/-- Handler `resourceWafWebTamperProtectionRuleV1Read`; `get policy_id id` is
`webtamperprotection_rules.Get(...).Extract()`. -/
def resourceWafWebTamperProtectionRuleV1Read (wafClient : Except GoErr Unit)
    (get : String → String → Except GoErr WebTamper) (d : WafWebTamperData) :
    WafWebTamperData × Option String :=
  match wafClient with
  | .error err => (d, some ("Error creating OpenTelekomCloud WAF client: " ++ err.Error))
  | .ok _ =>
    let policy_id := d.policy_id
    match get policy_id d.id with
    | .error err =>
      match err with
      | .default404 _ => ({ d with id := "" }, none)
      | _ =>
        (d, some ("Error retrieving OpenTelekomCloud Waf Web Tamper Protection Rule: "
          ++ err.Error))
    | .ok n =>
      ({ id := n.Id, hostname := n.Hostname, url := n.Url, policy_id := n.PolicyID }, none)

/-- Handler `resourceWafWebTamperProtectionRuleV1Delete`; `delete policy_id id` is
`webtamperprotection_rules.Delete(...).ExtractErr()`. -/
def resourceWafWebTamperProtectionRuleV1Delete (wafClient : Except GoErr Unit)
    (delete : String → String → Option GoErr) (d : WafWebTamperData) :
    WafWebTamperData × Option String :=
  match wafClient with
  | .error err => (d, some ("Error creating OpenTelekomCloud WAF client: " ++ err.Error))
  | .ok _ =>
    let policy_id := d.policy_id
    match delete policy_id d.id with
    | some err =>
      (d, some ("Error deleting OpenTelekomCloud WAF Web Tamper Protection Rule: "
        ++ err.Error))
    | none => ({ d with id := "" }, none)

/-! ## RDS v3 datastore versions (data source) -/

/-- A `datastores.DataStore`; only `Name` is read. -/
structure DataStore where
  ID : String
  Name : String
  deriving DecidableEq, Repr

/-- State of an `opentelekomcloud_rds_versions_v3` data source. -/
structure RdsVersionsData where
  id : String
  database_name : String
  versions : List String
  deriving DecidableEq, Repr

/-- Function `getRdsV3VersionList`.  `allPages dbName` is `datastores.List(...).AllPages()`,
`extractDataStores` is `datastores.ExtractDataStores`, and `sortVersions` is
`common.SortVersions`, which lives outside the files at hand. -/
def getRdsV3VersionList {Page : Type} (allPages : String → Except GoErr Page)
    (extractDataStores : Page → Except GoErr (List DataStore))
    (sortVersions : List String → List String) (dbName : String) :
    Except String (List String) :=
  match allPages dbName with
  | .error err => .error ("error listing RDSv3 versions: " ++ err.Error)
  | .ok pages =>
    match extractDataStores pages with
    | .error err => .error ("error extracting RDSv3 versions: " ++ err.Error)
    | .ok stores =>
      let result := stores.map (fun store => store.Name)
      let resultSorted := sortVersions result
      .ok resultSorted

/-- Handler `dataSourceRdsVersionsV3Read`.  `setVersions` is the outcome of
`d.Set("versions", stores)` for the list handed to it.  The error returned by
`getRdsV3VersionList` is bound to `err` and never looked at: the next statement
declares a new `err` for the outcome of `d.Set`. -/
def dataSourceRdsVersionsV3Read {Page : Type} (rdsClient : Except GoErr Unit)
    (allPages : String → Except GoErr Page)
    (extractDataStores : Page → Except GoErr (List DataStore))
    (sortVersions : List String → List String)
    (setVersions : List String → Option GoErr) (d : RdsVersionsData) :
    RdsVersionsData × Option String :=
  match rdsClient with
  | .error err => (d, some ("error creating RDSv3 client: " ++ err.Error))
  | .ok _ =>
    let name := d.database_name
    let stores : List String :=
      match getRdsV3VersionList allPages extractDataStores sortVersions name with
      | .ok stores => stores
      | .error _ => []
    match setVersions stores with
    | some err => (d, some ("error setting version list: " ++ err.Error))
    | none => ({ d with versions := stores, id := name ++ "_versions" }, none)

/-! ## Shared bandwidth (data source) -/

/-- A `bandwidths.BandWidth`, with the fields the data source reads. -/
structure BandWidth where
  ID : String
  Name : String
  Size : Int
  ShareType : String
  BandwidthType : String
  ChargeMode : String
  Status : String
  deriving DecidableEq, Repr

/-- State of an `opentelekomcloud_vpc_bandwidth` data source.  `size` is `0`
when the configuration does not set it. -/
structure BandWidthData where
  id : String
  name : String
  size : Int
  share_type : String
  bandwidth_type : String
  charge_mode : String
  status : String
  deriving DecidableEq, Repr

/-- Accessor `d.GetOk("size")`: the value, and whether it is set to a non-zero value. -/
def BandWidthData.getOkSize (d : BandWidthData) : Int × Bool :=
  (d.size, decide (d.size ≠ 0))

/-- The loop `for _, band := range bandList` that looks for the first bandwidth
of size `v`: it yields `(found, result)`, starting from `result`. -/
def dataSourceBandWidthRead.bySize (v : Int) (result : BandWidth) :
    List BandWidth → Bool × BandWidth
  | [] => (false, result)
  | band :: rest =>
    if v = band.Size then (true, band) else dataSourceBandWidthRead.bySize v result rest

/-- Handler `dataSourceBandWidthRead`.  `list shareType` is
`bandwidths.List(vpcClient, listOpts).Extract()`.  The six `d.Set` calls write
attributes of the schema with values of their declared types. -/
def dataSourceBandWidthRead (vpcClient : Except GoErr Unit)
    (list : String → Except GoErr (List BandWidth)) (d : BandWidthData) :
    BandWidthData × Option String :=
  match vpcClient with
  | .error err => (d, some ("error creating OpenTelekomCloud vpc client: " ++ err.Error))
  | .ok _ =>
    match list "WHOLE" with
    | .error err => (d, some ("unable to list OpenTelekomCloud bandwidths: " ++ err.Error))
    | .ok allBWs =>
      if allBWs.length = 0 then
        (d, some "no OpenTelekomCloud bandwidth was found")
      else
        let name := d.name
        let bandList := allBWs.filter (fun band => decide (name = band.Name))
        match bandList with
        | [] => (d, some ("no OpenTelekomCloud bandwidth was found by name: " ++ name))
        | first :: _ =>
          let (v, ok) := d.getOkSize
          let sel : Bool × BandWidth :=
            if ok then dataSourceBandWidthRead.bySize v first bandList else (true, first)
          if !sel.1 then
            (d, some ("no OpenTelekomCloud bandwidth was found by size: " ++ toString v))
          else
            let result := sel.2
            ({ id := result.ID, name := result.Name, size := result.Size,
               share_type := result.ShareType, bandwidth_type := result.BandwidthType,
               charge_mode := result.ChargeMode, status := result.Status }, none)

/-! ## Untyped values and the RDS v3 instance resource -/

/-- An `interface{}` value as it comes out of `d.Get` or out of a decoded JSON
body: `nil`, a bool, an int, a string, `[]interface{}` or
`map[string]interface{}`.  A map is an association list read with
`List.lookup` and written with `mapSet`, so a key has at most one live entry. -/
inductive Value where
  | null
  | bool (b : Bool)
  | int (i : Int)
  | str (s : String)
  | list (xs : List Value)
  | obj (kvs : List (String × Value))
  deriving Repr, Inhabited

/-- How a Go call ends when it does not return a value: a returned `error`
(with the text of `Error()`) or a run-time panic. -/
inductive Fault where
  | err (text : String)
  | panic (what : String)
  deriving DecidableEq, Repr

/-- Outcome of a Go function returning `(T, error)`. -/
abbrev Go (α : Type) := Except Fault α

/-- Assignment `m[key] = v` on a map. -/
def mapSet (m : List (String × Value)) (key : String) (v : Value) : List (String × Value) :=
  match m with
  | [] => [(key, v)]
  | (k, w) :: rest => if k = key then (key, v) :: rest else (k, w) :: mapSet rest key v

/-- Type assertion `v.(string)`. -/
def Value.assertString : Value → Go String
  | .str s => .ok s
  | _ => .error (.panic "interface conversion: interface {} is not string")

/-- Type assertion `v.([]interface{})`. -/
def Value.assertList : Value → Go (List Value)
  | .list xs => .ok xs
  | _ => .error (.panic "interface conversion: interface {} is not []interface {}")

/-- Type assertion `v.(map[string]interface{})`. -/
def Value.assertMap : Value → Go (List (String × Value))
  | .obj kvs => .ok kvs
  | _ => .error (.panic "interface conversion: interface {} is not map[string]interface {}")

/-- Index expression `xs[i]` on a slice. -/
def sliceIndex (xs : List Value) (i : Nat) : Go Value :=
  match xs[i]? with
  | some x => .ok x
  | none => .error (.panic "index out of range")

/-- Comparison `a == b` of two `interface{}` values: values of different
dynamic types differ, and comparing two slices or two maps panics. -/
def ifaceEq : Value → Value → Go Bool
  | .null, .null => .ok true
  | .bool a, .bool b => .ok (decide (a = b))
  | .int a, .int b => .ok (decide (a = b))
  | .str a, .str b => .ok (decide (a = b))
  | .list _, .list _ => .error (.panic "comparing uncomparable type []interface {}")
  | .obj _, .obj _ => .error (.panic "comparing uncomparable type map[string]interface {}")
  | _, _ => .ok false

/-- Go `strings.HasSuffix`. -/
def hasSuffix (s suffix : String) : Bool := suffix.data.isSuffixOf s.data

/-- Go `strings.Index(s, substr) != -1`. -/
def strContains (s substr : String) : Bool := decide (substr.data <:+: s.data)

/-- Go `strings.Join(elems, ".")`. -/
def joinDots (elems : List String) : String := ".".intercalate elems

/-- Modelled from the spec: `navigateValue` is declared outside the files at
hand.  It "walks nested maps by string path" with "array-index-aware path
resolution": for each element of `index` the current value has to be a map
holding that key, and when `arrayIndex` has an entry for the dotted path walked
so far the value found has to be a list, of which the indexed element is taken.
A `nil` value met on the way, and an empty list where an element is asked for,
make the walk stop with `nil` and no error.  `walked` is the part of `index` already
consumed. -/
def navigateValue.walk (arrayIndex : List (String × Nat)) :
    Value → List String → List String → Go Value
  | d, _, [] => .ok d
  | d, walked, i :: rest =>
    match d with
    | .null => .ok .null
    | .obj d1 =>
      match d1.lookup i with
      | none => .error (.err ("navigate value: '" ++ i ++ "' may not exist"))
      | some d =>
        match arrayIndex.lookup (joinDots (walked ++ [i])) with
        | some j =>
          match d with
          | .null => .ok .null
          | .list d2 =>
            if d2.length = 0 then .ok .null
            else
              match d2[j]? with
              | none => .error (.err "navigate value: The index is out of array")
              | some d => navigateValue.walk arrayIndex d (walked ++ [i]) rest
          | _ => .error (.err ("navigate value: Can not convert to array, index=" ++ i))
        | none => navigateValue.walk arrayIndex d (walked ++ [i]) rest
    | _ => .error (.err "navigate value: Can not convert to map")

/-- Modelled from the spec: `navigateValue(d, index, arrayIndex)`, see
`navigateValue.walk`; a `nil` `arrayIndex` is the empty list. -/
def navigateValue (d : Value) (index : List String) (arrayIndex : List (String × Nat)) :
    Go Value :=
  navigateValue.walk arrayIndex d [] index

/-- Modelled from the spec: `isEmptyValue(reflect.ValueOf(v))` is declared
outside the files at hand.  It tells whether `v` is an "empty value": `nil`,
`false`, `0`, the empty string, an empty slice or an empty map. -/
def isEmptyValue : Value → Go Bool
  | .null => .ok true
  | .bool b => .ok (!b)
  | .int i => .ok (decide (i = 0))
  | .str s => .ok (decide (s.length = 0))
  | .list xs => .ok (decide (xs.length = 0))
  | .obj kvs => .ok (decide (kvs.length = 0))

/-- The block the request builders repeat for every key of the map `m` they
fill, with `source` the outcome of the expression computing `v`:

    v, err := source
    if err != nil then return nil, err
    if e, err := isEmptyValue(reflect.ValueOf(v)); err != nil then return nil, err
    else if !e then m[key] = v
-/
def putUnlessEmpty (m : List (String × Value)) (key : String) (source : Go Value) :
    Go (List (String × Value)) := do
  let v ← source
  let e ← isEmptyValue v
  if !e then pure (mapSet m key v) else pure m

/-- The `arrayIndex` that `resourceRdsInstanceV3Create` passes to the builder. -/
def createArrayIndex : List (String × Nat) :=
  [("backup_strategy", 0), ("db", 0), ("volume", 0)]

/-- Function `expandRdsInstanceV3CreateAvailabilityZone`. -/
def expandRdsInstanceV3CreateAvailabilityZone (d : Value) (arrayIndex : List (String × Nat)) :
    Go Value := do
  let v ← navigateValue d ["availability_zone"] arrayIndex
  let flavor ← navigateValue d ["flavor"] arrayIndex
  match v with
  | .list v1 =>
    let flavorStr ← flavor.assertString
    if hasSuffix flavorStr ".ha" then
      if v1.length ≠ 2 then
        throw (.err "must input two available zones for primary/standby instance")
      else
        let z0 ← sliceIndex v1 0
        let s0 ← z0.assertString
        let z1 ← sliceIndex v1 1
        let s1 ← z1.assertString
        pure (.str (s0 ++ "," ++ s1))
    else if v1.length ≠ 1 then
      throw (.err "must input only one available zone for single instance")
    else
      let z0 ← sliceIndex v1 0
      let s0 ← z0.assertString
      pure (.str s0)
  | _ => throw (.err "can not convert to array")

/-- Function `expandRdsInstanceV3CreateBackupStrategy`. -/
def expandRdsInstanceV3CreateBackupStrategy (d : Value) (arrayIndex : List (String × Nat)) :
    Go Value := do
  let req : List (String × Value) := []
  let req ← putUnlessEmpty req "keep_days"
    (navigateValue d ["backup_strategy", "keep_days"] arrayIndex)
  let req ← putUnlessEmpty req "start_time"
    (navigateValue d ["backup_strategy", "start_time"] arrayIndex)
  pure (.obj req)

/-- Function `expandRdsInstanceV3CreateDatastore`. -/
def expandRdsInstanceV3CreateDatastore (d : Value) (arrayIndex : List (String × Nat)) :
    Go Value := do
  let req : List (String × Value) := []
  let req ← putUnlessEmpty req "type" (navigateValue d ["db", "type"] arrayIndex)
  let req ← putUnlessEmpty req "version" (navigateValue d ["db", "version"] arrayIndex)
  pure (.obj req)

/-- Function `expandRdsInstanceV3CreateHaMode`. -/
def expandRdsInstanceV3CreateHaMode (d : Value) (arrayIndex : List (String × Nat)) :
    Go Value := do
  let v ← navigateValue d ["ha_replication_mode"] arrayIndex
  match v with
  | .str v1 => if v1 ≠ "" then pure (.str "ha") else pure (.str "")
  | _ => pure (.str "")

/-- Function `expandRdsInstanceV3CreateHa`. -/
def expandRdsInstanceV3CreateHa (d : Value) (arrayIndex : List (String × Nat)) :
    Go Value := do
  let req : List (String × Value) := []
  let req ← putUnlessEmpty req "mode" (expandRdsInstanceV3CreateHaMode d arrayIndex)
  let req ← putUnlessEmpty req "replication_mode"
    (navigateValue d ["ha_replication_mode"] arrayIndex)
  pure (.obj req)

/-- Function `expandRdsInstanceV3CreateVolume`. -/
def expandRdsInstanceV3CreateVolume (d : Value) (arrayIndex : List (String × Nat)) :
    Go Value := do
  let req : List (String × Value) := []
  let req ← putUnlessEmpty req "size" (navigateValue d ["volume", "size"] arrayIndex)
  let req ← putUnlessEmpty req "type" (navigateValue d ["volume", "type"] arrayIndex)
  pure (.obj req)

/-- Function `buildRdsInstanceV3CreateParameters`.  `expandRegion` stands for
`expandRdsInstanceV3CreateRegion`, which is declared outside the files at
hand. -/
def buildRdsInstanceV3CreateParameters
    (expandRegion : Value → List (String × Nat) → Go Value)
    (opts : List (String × Value)) (arrayIndex : List (String × Nat)) : Go Value := do
  let params : List (String × Value) := []
  let params ← putUnlessEmpty params "availability_zone"
    (expandRdsInstanceV3CreateAvailabilityZone (.obj opts) arrayIndex)
  let params ← putUnlessEmpty params "backup_strategy"
    (expandRdsInstanceV3CreateBackupStrategy (.obj opts) arrayIndex)
  let params ← putUnlessEmpty params "configuration_id"
    (navigateValue (.obj opts) ["param_group_id"] arrayIndex)
  let params ← putUnlessEmpty params "datastore"
    (expandRdsInstanceV3CreateDatastore (.obj opts) arrayIndex)
  let params ← putUnlessEmpty params "disk_encryption_id"
    (navigateValue (.obj opts) ["volume", "disk_encryption_id"] arrayIndex)
  let params ← putUnlessEmpty params "flavor_ref"
    (navigateValue (.obj opts) ["flavor"] arrayIndex)
  let params ← putUnlessEmpty params "ha"
    (expandRdsInstanceV3CreateHa (.obj opts) arrayIndex)
  let params ← putUnlessEmpty params "name"
    (navigateValue (.obj opts) ["name"] arrayIndex)
  let params ← putUnlessEmpty params "password"
    (navigateValue (.obj opts) ["db", "password"] arrayIndex)
  let params ← putUnlessEmpty params "port"
    (navigateValue (.obj opts) ["db", "port"] arrayIndex)
  let params ← putUnlessEmpty params "region"
    (expandRegion (.obj opts) arrayIndex)
  let params ← putUnlessEmpty params "security_group_id"
    (navigateValue (.obj opts) ["security_group_id"] arrayIndex)
  let params ← putUnlessEmpty params "subnet_id"
    (navigateValue (.obj opts) ["subnet_id"] arrayIndex)
  let params ← putUnlessEmpty params "volume"
    (expandRdsInstanceV3CreateVolume (.obj opts) arrayIndex)
  let params ← putUnlessEmpty params "vpc_id"
    (navigateValue (.obj opts) ["vpc_id"] arrayIndex)
  pure (.obj params)

/-- A `*golangsdk.ServiceClient`, as used by the RDS v3 resource: `ServiceURL`
and the outcome of a `GET` on a URL (the decoded JSON body, or the error). -/
structure ServiceClient where
  ServiceURL : String → String
  Get : String → Except GoErr Value

/-- State of an `opentelekomcloud_rds_instance_v3` resource: the resource ID
and the attributes by name. -/
structure RdsInstanceData where
  id : String
  attrs : List (String × Value)

/-- Function `sendRdsInstanceV3ListRequest`. -/
def sendRdsInstanceV3ListRequest (client : ServiceClient) (url : String) : Go Value :=
  match client.Get url with
  | .error err =>
    .error (.err ("Error running api(list) for resource(RdsInstanceV3), err=" ++ err.Error))
  | .ok body => navigateValue body ["instances"] []

/-- The inner loop `for k, v := range identity` of `findRdsInstanceV3ByList`:
the value of `bingo` for the item `val`. -/
def findRdsInstanceV3ByList.bingo (val : List (String × Value)) :
    List (String × Value) → Go Bool
  | [] => .ok true
  | (k, v) :: rest => do
    let same ← ifaceEq ((val.lookup k).getD .null) v
    if !same then pure false else findRdsInstanceV3ByList.bingo val rest

/-- The outer loop `for _, item := range r.([]interface{})` of
`findRdsInstanceV3ByList`, with the `return` that follows it. -/
def findRdsInstanceV3ByList.loop (identity : List (String × Value)) : List Value → Go Value
  | [] => .error (.err "Error finding the resource by list api")
  | item :: rest => do
    let val ← item.assertMap
    let bingo ← findRdsInstanceV3ByList.bingo val identity
    if bingo then pure item else findRdsInstanceV3ByList.loop identity rest

/-- Function `findRdsInstanceV3ByList`. -/
def findRdsInstanceV3ByList (client : ServiceClient) (link : String)
    (identity : List (String × Value)) : Go Value := do
  let r ← sendRdsInstanceV3ListRequest client link
  let items ← r.assertList
  findRdsInstanceV3ByList.loop identity items

/-- Function `fetchRdsInstanceV3ByList`. -/
def fetchRdsInstanceV3ByList (d : RdsInstanceData) (client : ServiceClient) : Go Value :=
  let identity : List (String × Value) := [("id", .str d.id)]
  let queryLink := "?id=" ++ d.id
  let link := client.ServiceURL "instances" ++ queryLink
  findRdsInstanceV3ByList client link identity

/-- Handler `resourceRdsInstanceV3Read`.  `rdsV3Client` is the outcome of
`config.rdsV3Client`; `setProperties v d` is everything the handler does once
the instance `v` has been found (`setRdsInstanceV3Properties` and the tags).
The result is the state left behind and the returned error, `none` for `nil`. -/
def resourceRdsInstanceV3Read (rdsV3Client : Except GoErr ServiceClient)
    (setProperties : Value → RdsInstanceData → RdsInstanceData × Option Fault)
    (d : RdsInstanceData) : RdsInstanceData × Option Fault :=
  match rdsV3Client with
  | .error err => (d, some (.err ("Error creating sdk client, err=" ++ err.Error)))
  | .ok client =>
    match fetchRdsInstanceV3ByList d client with
    | .error (.err text) =>
      if strContains text "Error finding the resource by list api" then
        ({ d with id := "" }, none)
      else (d, some (.err text))
    | .error (.panic what) => (d, some (.panic what))
    | .ok v => setProperties v d

/-- Wrapping `fmt.Errorf(label + "%s", err)` of a returned error; a value and a
panic pass through. -/
def errorf {α : Type} (label : String) : Go α → Go α
  | .error (.err text) => .error (.err (label ++ text))
  | r => r

/-- Function `flattenRdsInstanceV3AvailabilityZone`. -/
def flattenRdsInstanceV3AvailabilityZone (d : Value) : Go (List String) := do
  let arrayIndex : List (String × Nat) := [("list.nodes", 0)]
  let v ← errorf "Error reading Instance:availability_zone, err: "
    (navigateValue d ["list", "nodes", "availability_zone"] arrayIndex)
  let az1 ← v.assertString
  let v ← errorf "Error reading Instance:flavor, err: "
    (navigateValue d ["list", "flavor_ref"] [])
  let flavor ← v.assertString
  if hasSuffix flavor ".ha" then
    let arrayIndex : List (String × Nat) := [("list.nodes", 1)]
    let v ← errorf "Error reading Instance:availability_zone, err: "
      (navigateValue d ["list", "nodes", "availability_zone"] arrayIndex)
    let az2 ← v.assertString
    let v ← errorf "Error reading Instance:role, err: "
      (navigateValue d ["list", "nodes", "role"] arrayIndex)
    let role ← v.assertString
    if role = "master" then pure [az2, az1] else pure [az1, az2]
  else pure [az1]

/-! ## Public IP of an RDS v3 instance -/

/-- A `ports.IP`: one fixed IP of a port. -/
structure FixedIP where
  SubnetID : String
  IPAddress : String
  deriving DecidableEq, Repr

/-- A `ports.Port`, with the fields `findPort` reads. -/
structure Port where
  ID : String
  FixedIPs : List FixedIP
  deriving DecidableEq, Repr

set_option linter.dupNamespace false

/-- A `floatingips.FloatingIP`, with the fields `findFloatingIP` reads. -/
structure FloatingIP where
  ID : String
  FloatingIP : String
  PortID : String
  deriving DecidableEq, Repr

/-- The fields of `floatingips.ListOpts` that `findFloatingIP` sets. -/
structure FloatingIPListOpts where
  FloatingIP : String
  PortID : String
  deriving DecidableEq, Repr

/-- The networking v2 client, as the RDS v3 resource uses it.  `listPorts` is
the outcome of `ports.List(client, nil).AllPages()` followed by
`ports.ExtractPorts`: the ports, or the error of whichever of the two fails;
`listFloatingIPs opts` is the same for `floatingips.List(client, opts)` and
`floatingips.ExtractFloatingIPs`; `updateFloatingIP id portID` is
`floatingips.Update(client, id, UpdateOpts(PortID: portID)).Err`. -/
structure NetworkClient where
  listPorts : Except GoErr (List Port)
  listFloatingIPs : FloatingIPListOpts → Except GoErr (List FloatingIP)
  updateFloatingIP : String → Option String → Option GoErr

/-- The loop `for _, ip := range floatingIPs` of `findFloatingIP`, with the
`return` that follows it; `floatingIPs` is the whole list, of which the loop
returns the ID of element 0. -/
def findFloatingIP.loop (floatingIPs : List FloatingIP) (address portID : String) :
    List FloatingIP → Go String
  | [] => .ok ""
  | ip :: rest =>
    if portID ≠ "" ∧ portID ≠ ip.PortID then
      findFloatingIP.loop floatingIPs address portID rest
    else if address ≠ "" ∧ address ≠ ip.FloatingIP then
      findFloatingIP.loop floatingIPs address portID rest
    else
      match floatingIPs[0]? with
      | some first => .ok first.ID
      | none => .error (.panic "index out of range [0] with length 0")

/-- Function `findFloatingIP`. -/
def findFloatingIP (client : NetworkClient) (address portID : String) : Go String :=
  let opts : FloatingIPListOpts :=
    if address ≠ "" then { FloatingIP := address, PortID := "" }
    else { FloatingIP := "", PortID := portID }
  match client.listFloatingIPs opts with
  | .error err => .error (.err err.Error)
  | .ok floatingIPs =>
    if floatingIPs.length = 0 then .ok ""
    else findFloatingIP.loop floatingIPs address portID floatingIPs

/-- The loop `for _, port := range portList` of `findPort`, with the `return`
that follows it. -/
def findPort.loop (privateIP subnetID : String) : List Port → Go String
  | [] => .ok ""
  | port :: rest =>
    match port.FixedIPs[0]? with
    | none => .error (.panic "index out of range [0] with length 0")
    | some address =>
      if address.IPAddress = privateIP ∧ address.SubnetID = subnetID then .ok port.ID
      else findPort.loop privateIP subnetID rest

/-- Function `findPort`. -/
def findPort (client : NetworkClient) (privateIP subnetID : String) : Go String :=
  match client.listPorts with
  | .error err => .error (.err err.Error)
  | .ok portList => findPort.loop privateIP subnetID portList

/-- Function `assignEipToInstance`: the returned error, `none` for `nil`. -/
def assignEipToInstance (client : NetworkClient) (publicIP privateIP subnetID : String) :
    Option Fault :=
  match findPort client privateIP subnetID with
  | .error e => some e
  | .ok portID =>
    match findFloatingIP client publicIP "" with
    | .error e => some e
    | .ok ipID => (client.updateFloatingIP ipID (some portID)).map (fun err => .err err.Error)

/-- Function `unassignEipFromInstance`: the returned error, `none` for `nil`. -/
def unassignEipFromInstance (client : NetworkClient) (oldPublicIP : String) : Option Fault :=
  match findFloatingIP client oldPublicIP "" with
  | .error e => some e
  | .ok ipID => (client.updateFloatingIP ipID none).map (fun err => .err err.Error)

/-- Accessor `d.Get(key)` on the state of the instance. -/
def RdsInstanceData.get (d : RdsInstanceData) (key : String) : Value :=
  (d.attrs.lookup key).getD .null

/-- Function `getPrivateIP`. -/
def getPrivateIP (d : RdsInstanceData) : Go String := do
  let ips ← (d.get "private_ips").assertList
  let ip ← sliceIndex ips 0
  ip.assertString

/-- Function `getSubnetSubnetID`.  `subnetClient` is the outcome of
`config.networkingV1Client`, holding `subnets.Get(client, id).Extract()` as a
function from the ID to the `SubnetId` of the subnet found. -/
def getSubnetSubnetID (subnetClient : Except GoErr (String → Except GoErr String))
    (d : RdsInstanceData) : Go String :=
  match subnetClient with
  | .error _ => .error (.err "[WARN] Failed to create VPC client")
  | .ok get => do
    let id ← (d.get "subnet_id").assertString
    match get id with
    | .error err => .error (.err err.Error)
    | .ok sn => pure sn

/-- A call that the end of `resourceRdsInstanceV3Update` makes, with its
arguments: `unassignEipFromInstance(nw, oldPublicIP)`,
`assignEipToInstance(nw, publicIP, privateIP, subnetID)` or the final
`resourceRdsInstanceV3Read(d, meta)`. -/
inductive UpdateCall where
  | unassignEip (oldPublicIP : String)
  | assignEip (publicIP privateIP subnetID : String)
  | read
  deriving DecidableEq, Repr

/-- The end of `resourceRdsInstanceV3Update`, from `if d.HasChange("public_ips")`
to the final `return resourceRdsInstanceV3Read(d, meta)`; it is reached when no
earlier section of the handler has returned.  `oldIPs` and `newIPs` are the
two lists of `d.GetChange("public_ips")`, lists of strings by the schema, and
`d.HasChange` holds when they differ.  `nw` is the networking client: the
handler does not look at the error of `config.networkingV2Client`, and this
covers the runs in which the client was created.  An error assigned to `err`
and not looked at again has no effect; a panic ends the handler.  The result is
the list of the calls made, in the order in which they are made, then the state
left behind and the returned error. -/
def resourceRdsInstanceV3Update.publicIPsTraced (nw : NetworkClient)
    (subnetClient : Except GoErr (String → Except GoErr String))
    (rdsV3Client : Except GoErr ServiceClient)
    (setProperties : Value → RdsInstanceData → RdsInstanceData × Option Fault)
    (oldIPs newIPs : List String) (d : RdsInstanceData) :
    List UpdateCall × (RdsInstanceData × Option Fault) :=
  if oldIPs ≠ newIPs then
    match newIPs.length with
    | 0 =>
      match oldIPs[0]? with
      | none => ([], (d, some (.panic "index out of range [0] with length 0")))
      | some oldIP =>
        match unassignEipFromInstance nw oldIP with
        | some (.panic what) => ([.unassignEip oldIP], (d, some (.panic what)))
        | _ =>
          ([.unassignEip oldIP, .read],
            resourceRdsInstanceV3Read rdsV3Client setProperties d)
    | 1 =>
      let unassigned : List UpdateCall × Option Fault :=
        if oldIPs.length > 0 then
          match oldIPs[0]? with
          | none => ([], some (.panic "index out of range [0] with length 0"))
          | some oldIP => ([.unassignEip oldIP], unassignEipFromInstance nw oldIP)
        else ([], none)
      match unassigned.2 with
      | some err => (unassigned.1, (d, some err))
      | none =>
        match getPrivateIP d with
        | .error e => (unassigned.1, (d, some e))
        | .ok privateIP =>
          match getSubnetSubnetID subnetClient d with
          | .error e => (unassigned.1, (d, some e))
          | .ok subnetID =>
            match newIPs[0]? with
            | none =>
              (unassigned.1, (d, some (.panic "index out of range [0] with length 0")))
            | some newIP =>
              match assignEipToInstance nw newIP privateIP subnetID with
              | some (.panic what) =>
                (unassigned.1 ++ [.assignEip newIP privateIP subnetID],
                  (d, some (.panic what)))
              | _ =>
                (unassigned.1 ++ [.assignEip newIP privateIP subnetID, .read],
                  resourceRdsInstanceV3Read rdsV3Client setProperties d)
    | _ => ([], (d, some (.err "RDS instance can't have more than one public IP")))
  else ([.read], resourceRdsInstanceV3Read rdsV3Client setProperties d)

/-- The state that the end of `resourceRdsInstanceV3Update` leaves behind and
the error it returns: the result of `publicIPsTraced` without the calls. -/
def resourceRdsInstanceV3Update.publicIPs (nw : NetworkClient)
    (subnetClient : Except GoErr (String → Except GoErr String))
    (rdsV3Client : Except GoErr ServiceClient)
    (setProperties : Value → RdsInstanceData → RdsInstanceData × Option Fault)
    (oldIPs newIPs : List String) (d : RdsInstanceData) : RdsInstanceData × Option Fault :=
  (resourceRdsInstanceV3Update.publicIPsTraced nw subnetClient rdsV3Client setProperties
    oldIPs newIPs d).2

/-- The status function that `resourceRdsInstanceV3Delete` hands to
`waitToFinish`: the three values it returns (the object, the state and the
error, `none` for `nil`), or the panic of the lookup. -/
def resourceRdsInstanceV3Delete.statusFunc (d : RdsInstanceData) (client : ServiceClient) :
    Go (Value × String × Option Fault) :=
  match fetchRdsInstanceV3ByList d client with
  | .error (.err text) =>
    if strContains text "Error finding the resource by list api" then
      .ok (.bool true, "Done", none)
    else .ok (.null, "", none)
  | .error (.panic what) => .error (.panic what)
  | .ok _ => .ok (.bool true, "Pending", none)

/-! ## Reference mappings

The definitions below say what a request body is meant to hold, in the words
of the description of the builder; they do not call the builder or
`navigateValue`. -/

/-- Entry `v[key]` of a map; `nil` when `v` is not a map or has no such key. -/
def Value.field (v : Value) (key : String) : Value :=
  match v with
  | .obj kvs => (kvs.lookup key).getD .null
  | _ => .null

/-- Element `v[0]` of a list; `nil` when `v` is not a list or is empty. -/
def Value.first (v : Value) : Value :=
  match v with
  | .list (x :: _) => x
  | _ => .null

/-- Element `v[i]` of a list; `nil` when `v` is not a list or is too short. -/
def Value.elem (v : Value) (i : Nat) : Value :=
  match v with
  | .list xs => xs.getD i .null
  | _ => .null

/-- Whether a value is empty: `nil`, `false`, `0`, `""`, `[]` or an empty map. -/
def Value.isEmpty : Value → Bool
  | .null => true
  | .bool b => !b
  | .int i => decide (i = 0)
  | .str s => decide (s = "")
  | .list xs => xs.isEmpty
  | .obj kvs => kvs.isEmpty

/-- The map `m` after the block for `key` has run on the value `v`: `v` is
stored under `key` unless it is empty. -/
def setUnlessEmpty (m : List (String × Value)) (key : String) (v : Value) :
    List (String × Value) :=
  if v.isEmpty then m else mapSet m key v

/-- A mapping "with every empty value left out". -/
def dropEmpty (kvs : List (String × Value)) : List (String × Value) :=
  kvs.filter (fun kv => !kv.2.isEmpty)

/-- The reference mapping of the create request, before empty values are
dropped from the top level: each key of the body with the place of the input it
is read from. -/
def createReference (opts : List (String × Value)) : List (String × Value) :=
  let o : Value := .obj opts
  let db0 := (o.field "db").first
  let volume0 := (o.field "volume").first
  let backup0 := (o.field "backup_strategy").first
  [ ("configuration_id", o.field "param_group_id"),
    ("flavor_ref", o.field "flavor"),
    ("password", db0.field "password"),
    ("port", db0.field "port"),
    ("disk_encryption_id", volume0.field "disk_encryption_id"),
    ("datastore", .obj (dropEmpty [("type", db0.field "type"), ("version", db0.field "version")])),
    ("volume", .obj (dropEmpty [("size", volume0.field "size"), ("type", volume0.field "type")])),
    ("backup_strategy", .obj (dropEmpty [("keep_days", backup0.field "keep_days"),
      ("start_time", backup0.field "start_time")])),
    ("name", o.field "name"),
    ("security_group_id", o.field "security_group_id"),
    ("subnet_id", o.field "subnet_id"),
    ("vpc_id", o.field "vpc_id") ]

/-- The keys a create request body may hold. -/
def createBodyKeys : List String :=
  ["availability_zone", "backup_strategy", "configuration_id", "datastore",
   "disk_encryption_id", "flavor_ref", "ha", "name", "password", "port", "region",
   "security_group_id", "subnet_id", "volume", "vpc_id"]

/-! ## A sample create request -/

/-- The user input of a single PostgreSQL instance without backup strategy,
parameter group or disk encryption, as `resourceRdsInstanceV3Create` hands it
to the builder (with `region` added by the handler). -/
def sampleCreateOpts : List (String × Value) :=
  [ ("availability_zone", .list [.str "eu-de-01"]),
    ("backup_strategy", .list []),
    ("db", .list [.obj [("password", .str "secret"), ("port", .int 0),
      ("type", .str "PostgreSQL"), ("version", .str "10")]]),
    ("flavor", .str "rds.pg.c2.medium"),
    ("ha_replication_mode", .str ""),
    ("name", .str "db1"),
    ("param_group_id", .str ""),
    ("region", .str "eu-de"),
    ("security_group_id", .str "sg-1"),
    ("subnet_id", .str "subnet-1"),
    ("volume", .list [.obj [("disk_encryption_id", .str ""), ("size", .int 40),
      ("type", .str "COMMON")]]),
    ("vpc_id", .str "vpc-1") ]

/-- The request body built from `sampleCreateOpts`. -/
def sampleCreateBody : Value :=
  .obj
    [ ("availability_zone", .str "eu-de-01"),
      ("datastore", .obj [("type", .str "PostgreSQL"), ("version", .str "10")]),
      ("flavor_ref", .str "rds.pg.c2.medium"),
      ("name", .str "db1"),
      ("password", .str "secret"),
      ("region", .str "eu-de"),
      ("security_group_id", .str "sg-1"),
      ("subnet_id", .str "subnet-1"),
      ("volume", .obj [("size", .int 40), ("type", .str "COMMON")]),
      ("vpc_id", .str "vpc-1") ]

/-- The input `sampleCreateOpts` with `ha_replication_mode` set to "async" (and
the flavor of a single instance left as it is). -/
def sampleReplicatedOpts : List (String × Value) :=
  mapSet sampleCreateOpts "ha_replication_mode" (.str "async")

/-- The request body built from `sampleReplicatedOpts`. -/
def sampleReplicatedBody : Value :=
  .obj
    [ ("availability_zone", .str "eu-de-01"),
      ("datastore", .obj [("type", .str "PostgreSQL"), ("version", .str "10")]),
      ("flavor_ref", .str "rds.pg.c2.medium"),
      ("ha", .obj [("mode", .str "ha"), ("replication_mode", .str "async")]),
      ("name", .str "db1"),
      ("password", .str "secret"),
      ("region", .str "eu-de"),
      ("security_group_id", .str "sg-1"),
      ("subnet_id", .str "subnet-1"),
      ("volume", .obj [("size", .int 40), ("type", .str "COMMON")]),
      ("vpc_id", .str "vpc-1") ]

/-- The instance found by list for a primary/standby instance whose node 1 is
the master, wrapped as `setRdsInstanceV3Properties` receives it. -/
def sampleHaResponse : Value :=
  .obj [("list", .obj
    [ ("flavor_ref", .str "rds.pg.c2.medium.ha"),
      ("nodes", .list
        [ .obj [("availability_zone", .str "eu-de-01"), ("id", .str "node-0"),
            ("role", .str "slave")],
          .obj [("availability_zone", .str "eu-de-02"), ("id", .str "node-1"),
            ("role", .str "master")] ]) ])]

/-- A networking client that finds the port of the private IP 192.168.0.5 and
the floating IP 80.158.0.10, and whose `floatingips.Update` fails. -/
def sampleNetwork : NetworkClient :=
  { listPorts := .ok [{ ID := "port-1", FixedIPs := [⟨"subnet-1", "192.168.0.5"⟩] }],
    listFloatingIPs := fun _ =>
      .ok [{ ID := "fip-1", FloatingIP := "80.158.0.10", PortID := "" }],
    updateFloatingIP := fun _ _ => some (.plain "Expected HTTP response code [200]") }

/-- An RDS v3 client whose list request finds the instance "rds-1". -/
def sampleRdsClient : ServiceClient :=
  { ServiceURL := fun path => "https://rds.example/v3/" ++ path,
    Get := fun _ => .ok (.obj [("instances", .list [.obj [("id", .str "rds-1")]])]) }

/-- An RDS v3 client whose list request fails with an error of which the text
is the sentence the handlers look for. -/
def sampleFailingRdsClient : ServiceClient :=
  { ServiceURL := fun path => "https://rds.example/v3/" ++ path,
    Get := fun _ => .error (.plain "Error finding the resource by list api") }

/-- The state of the instance "rds-1", with its private IP and its subnet. -/
def sampleInstanceData : RdsInstanceData :=
  { id := "rds-1",
    attrs := [("private_ips", .list [.str "192.168.0.5"]), ("subnet_id", .str "net-1")] }

/-- Two floating IPs of the same address, of which only the second is bound to
the port "port-2". -/
def sampleFloatingIPs : List FloatingIP :=
  [ { ID := "fip-a", FloatingIP := "80.158.0.10", PortID := "port-1" },
    { ID := "fip-b", FloatingIP := "80.158.0.10", PortID := "port-2" } ]

/-! ## Tags -/

/-- An `*ec2.Tag` whose `Key` and `Value` pointers are set. -/
structure Tag where
  Key : String
  Value : String
  deriving DecidableEq, Repr

/-- The order in which a `range` over a Go map visits the entries of the map:
Go leaves it open, so it is some rearrangement of the entries. -/
structure RangeOrder where
  visit : List (String × Value) → List (String × Value)
  perm : ∀ m, (visit m).Perm m

/-- The `range` that visits the entries in the order of the association list. -/
def RangeOrder.inOrder : RangeOrder := ⟨fun m => m, fun m => List.Perm.refl m⟩

/-- The `range` that visits the entries in the opposite order. -/
def RangeOrder.backwards : RangeOrder := ⟨List.reverse, fun m => List.reverse_perm m⟩

/-- Function `tagIgnored`: the only filter is the regular expression `^aws:`,
which matches the keys that begin with "aws:". -/
def tagIgnored (t : Tag) : Bool := "aws:".data.isPrefixOf t.Key.data

/-- The loop `for k, v := range m` of `tagsFromMap`, on the entries still to
visit and the `result` so far. -/
def tagsFromMap.loop : List (String × Value) → List Tag → Go (List Tag)
  | [], result => .ok result
  | (k, v) :: rest, result => do
    let s ← v.assertString
    let t : Tag := { Key := k, Value := s }
    if !tagIgnored t then tagsFromMap.loop rest (result ++ [t])
    else tagsFromMap.loop rest result

/-- Function `tagsFromMap`, with the order in which `range` visits the map. -/
def tagsFromMap (order : RangeOrder) (m : List (String × Value)) : Go (List Tag) :=
  tagsFromMap.loop (order.visit m) []

/-- Assignment `m[key] = v` on a `map[string]string`. -/
def strMapSet (m : List (String × String)) (key : String) (v : String) :
    List (String × String) :=
  match m with
  | [] => [(key, v)]
  | (k, w) :: rest => if k = key then (key, v) :: rest else (k, w) :: strMapSet rest key v

/-- Function `tagsToMap`. -/
def tagsToMap (ts : List Tag) : List (String × String) :=
  ts.foldl (fun result t => if !tagIgnored t then strMapSet result t.Key t.Value else result) []

/-- Comparison `old != s` of an `interface{}` value with a string. -/
def ifaceNeString (old : Value) (s : String) : Bool :=
  match old with
  | .str a => decide (a ≠ s)
  | _ => true

/-- The loop `for _, t := range oldTags` of `diffTags`, on the old tags still to
visit and the `remove` list so far. -/
def diffTags.removeLoop (create : List (String × Value)) : List Tag → List Tag → List Tag
  | [], remove => remove
  | t :: rest, remove =>
    match create.lookup t.Key with
    | some old =>
      if ifaceNeString old t.Value then diffTags.removeLoop create rest (remove ++ [t])
      else diffTags.removeLoop create rest remove
    | none => diffTags.removeLoop create rest (remove ++ [t])

/-- Function `diffTags`: the tags to create and the tags to remove. -/
def diffTags (order : RangeOrder) (oldTags newTags : List Tag) : Go (List Tag × List Tag) := do
  let create : List (String × Value) :=
    newTags.foldl (fun create t => mapSet create t.Key (.str t.Value)) []
  let remove := diffTags.removeLoop create oldTags []
  let created ← tagsFromMap order create
  pure (created, remove)

/-- A call of the EC2 API made by `setTags`, with the resource and the tags it
is made for. -/
inductive TagCall where
  | delete (resource : String) (tags : List Tag)
  | create (resource : String) (tags : List Tag)
  deriving DecidableEq, Repr

/-- The EC2 connection, as `setTags` uses it: the outcome of `DeleteTags` and
of `CreateTags` (`none` when the call returns no error), which may change from
one attempt to the next; the first argument counts the attempts from 0. -/
structure Ec2Conn where
  DeleteTags : Nat → String → List Tag → Option GoErr
  CreateTags : Nat → String → List Tag → Option GoErr

/-- The function literal passed to the first `resource.Retry` of `setTags`, as
a function of the outcome of the `DeleteTags` call it makes. -/
def setTags.removeRetryFunc (deleteTags : Option GoErr) : Option RetryError :=
  match deleteTags with
  | some err =>
    match err with
    | .aws code _ =>
      if strContains code ".NotFound" then some (.retryable err)
      else some (.nonRetryable err)
    | _ => some (.nonRetryable err)
  | none => none

/-- The function literal passed to the second `resource.Retry` of `setTags`, as
a function of the outcome of the `CreateTags` call it makes. -/
def setTags.createRetryFunc (createTags : Option GoErr) : Option RetryError :=
  match createTags with
  | some err =>
    match err with
    | .aws code _ =>
      if strContains code ".NotFound" then some (.retryable err)
      else some (.nonRetryable err)
    | _ => some (.nonRetryable err)
  | none => none

/-- Helper `resource.Retry(timeout, f)` of the plugin SDK: `f` is called again
as long as it returns a retryable error and the timeout has not passed.
`retries` is the number of further attempts that fit into the timeout and
`attempt` the number of the next attempt.  The result is the error returned,
`none` for `nil` (the error of the last attempt when the timeout passes), and
the number of attempts made so far. -/
def resourceRetry (f : Nat → Option RetryError) : Nat → Nat → Option GoErr × Nat
  | 0, attempt =>
    match f attempt with
    | none => (none, attempt + 1)
    | some (.nonRetryable err) => (some err, attempt + 1)
    | some (.retryable err) => (some err, attempt + 1)
  | retries + 1, attempt =>
    match f attempt with
    | none => (none, attempt + 1)
    | some (.nonRetryable err) => (some err, attempt + 1)
    | some (.retryable _) => resourceRetry f retries (attempt + 1)

/-- Function `setTags`.  `hasChange` is `d.HasChange("tags")`, `o` and `n` are
the two maps of `d.GetChange("tags")` and `id` is `d.Id()`.  The result is the
list of the EC2 calls made, in the order in which they are made, and the
returned error, `none` for `nil`. -/
def setTags (order : RangeOrder) (retries : Nat) (conn : Ec2Conn) (id : String)
    (hasChange : Bool) (o n : List (String × Value)) : List TagCall × Option Fault :=
  if hasChange then
    match tagsFromMap order o with
    | .error e => ([], some e)
    | .ok oldTags =>
      match tagsFromMap order n with
      | .error e => ([], some e)
      | .ok newTags =>
        match diffTags order oldTags newTags with
        | .error e => ([], some e)
        | .ok (create, remove) =>
          let removal : Option GoErr × Nat :=
            if remove.length > 0 then
              resourceRetry (fun attempt =>
                setTags.removeRetryFunc (conn.DeleteTags attempt id remove)) retries 0
            else (none, 0)
          let removeCalls := List.replicate removal.2 (TagCall.delete id remove)
          match removal.1 with
          | some err => (removeCalls, some (.err err.Error))
          | none =>
            let creation : Option GoErr × Nat :=
              if create.length > 0 then
                resourceRetry (fun attempt =>
                  setTags.createRetryFunc (conn.CreateTags attempt id create)) retries 0
              else (none, 0)
            let createCalls := List.replicate creation.2 (TagCall.create id create)
            match creation.1 with
            | some err => (removeCalls ++ createCalls, some (.err err.Error))
            | none => (removeCalls ++ createCalls, none)
  else ([], none)

/-- An EC2 connection whose `DeleteTags` fails first with a ".NotFound" code
and then with "UnauthorizedOperation", and whose `CreateTags` succeeds. -/
def sampleEc2Conn : Ec2Conn :=
  { DeleteTags := fun attempt _ _ =>
      if attempt = 0 then
        some (.aws "InvalidInstanceID.NotFound" "InvalidInstanceID.NotFound: not found")
      else some (.aws "UnauthorizedOperation" "UnauthorizedOperation: denied"),
    CreateTags := fun _ _ _ => none }

/-! ## Tag maps

What a list of tags means as a map from keys to values, and what deleting and
setting tags does to such a map. -/

/-- The value a list of tags gives a key: the one of the last tag with that
key. -/
def lastValue : List Tag → String → Option String
  | [], _ => none
  | t :: rest, k =>
    match lastValue rest k with
    | some v => some v
    | none => if t.Key = k then some t.Value else none

/-- The tag map after deleting every key that occurs in `remove`. -/
def deleteKeys (m : String → Option String) (remove : List Tag) : String → Option String :=
  fun k => if k ∈ remove.map (fun t => t.Key) then none else m k

/-- The tag map after setting every tag of `create`, one after the other. -/
def setAll (m : String → Option String) (create : List Tag) : String → Option String :=
  create.foldl (fun m t => fun k => if k = t.Key then some t.Value else m k) m

/-- The tags a map with string values stands for, in the order of its entries:
one tag for each entry whose key does not begin with "aws:". -/
def entryTags (m : List (String × Value)) : List Tag :=
  m.filterMap (fun e =>
    match e.2 with
    | .str s => if tagIgnored { Key := e.1, Value := s } then none
                else some { Key := e.1, Value := s }
    | _ => none)

end OTC

/-! # Properties -/

namespace OTC

/-! ## S3 bucket policy -/

/-- C1: in `resourceS3BucketPolicyPut` the retry callback asks for another
attempt exactly when the `PutBucketPolicy` call failed with an AWS error of code
"MalformedPolicy"; a call without error ends the retry without error, and any
other error (an AWS error with another code, an error of another type) is
handed back as non-retryable. -/
theorem retryFunc_classifies (outcome : Option GoErr) :
    ((∃ r, resourceS3BucketPolicyPut.retryFunc outcome = some r ∧ r.isRetryable = true) ↔
      ∃ text, outcome = some (.aws "MalformedPolicy" text)) ∧
    (resourceS3BucketPolicyPut.retryFunc outcome = none ↔ outcome = none) ∧
    (∀ err, outcome = some err → (∀ text, err ≠ .aws "MalformedPolicy" text) →
      resourceS3BucketPolicyPut.retryFunc outcome = some (.nonRetryable err)) := by
  refine ⟨?_, ?_, ?_⟩
  · constructor
    · rintro ⟨r, hr, hret⟩
      match outcome, hr with
      | some (.aws code text), hr =>
        by_cases hc : code = "MalformedPolicy"
        · exact ⟨text, by rw [hc]⟩
        · simp [resourceS3BucketPolicyPut.retryFunc, hc] at hr
          subst hr
          simp [RetryError.isRetryable] at hret
      | some (.default404 text), hr =>
        simp [resourceS3BucketPolicyPut.retryFunc] at hr
        subst hr
        simp [RetryError.isRetryable] at hret
      | some (.plain text), hr =>
        simp [resourceS3BucketPolicyPut.retryFunc] at hr
        subst hr
        simp [RetryError.isRetryable] at hret
      | none, hr => simp [resourceS3BucketPolicyPut.retryFunc] at hr
    · rintro ⟨text, rfl⟩
      exact ⟨.retryable (.aws "MalformedPolicy" text),
        by simp [resourceS3BucketPolicyPut.retryFunc], rfl⟩
  · cases outcome with
    | none => simp [resourceS3BucketPolicyPut.retryFunc]
    | some err =>
      cases err with
      | aws code text =>
        by_cases hc : code = "MalformedPolicy" <;>
          simp [resourceS3BucketPolicyPut.retryFunc, hc]
      | default404 text => simp [resourceS3BucketPolicyPut.retryFunc]
      | plain text => simp [resourceS3BucketPolicyPut.retryFunc]
  · rintro err rfl hne
    cases err with
    | aws code text =>
      have hc : code ≠ "MalformedPolicy" := fun h => hne text (by rw [h])
      simp [resourceS3BucketPolicyPut.retryFunc, hc]
    | default404 text => simp [resourceS3BucketPolicyPut.retryFunc]
    | plain text => simp [resourceS3BucketPolicyPut.retryFunc]

/-- C1, on an "AccessDenied" AWS error: the callback does not ask for a retry. -/
theorem retryFunc_classifies_witness :
    resourceS3BucketPolicyPut.retryFunc (some (.aws "AccessDenied" "AccessDenied: denied")) =
      some (.nonRetryable (.aws "AccessDenied" "AccessDenied: denied")) :=
  (retryFunc_classifies (some (.aws "AccessDenied" "AccessDenied: denied"))).2.2
    (.aws "AccessDenied" "AccessDenied: denied") rfl (by intro text h; simp at h)

/-- C8: `resourceS3BucketPolicyDelete` returns no error exactly when the
`DeleteBucketPolicy` call succeeds or fails with an AWS error of code
"NoSuchBucket"; every other failure of the call gives an error diagnostic. -/
theorem bucketPolicyDelete_no_error_iff (deleteBucketPolicy : String → Option GoErr)
    (d : S3BucketPolicyData) :
    resourceS3BucketPolicyDelete (.ok ()) deleteBucketPolicy d = none ↔
      (deleteBucketPolicy d.bucket = none ∨
        ∃ text, deleteBucketPolicy d.bucket = some (.aws "NoSuchBucket" text)) := by
  unfold resourceS3BucketPolicyDelete
  cases h : deleteBucketPolicy d.bucket with
  | none => simp [h]
  | some err =>
    cases err with
    | aws code text =>
      by_cases hc : code = "NoSuchBucket" <;> simp [h, hc]
    | default404 text => simp [h]
    | plain text => simp [h]

/-! ## WAF rules -/

/-- C5: in `resourceWafWhiteBlackIpRuleV1Read` and
`resourceWafWebTamperProtectionRuleV1Read`, a `Get` that fails with
`ErrDefault404` makes the handler set the ID to the empty string and return no
error; a `Get` that fails with any other error makes it return an error and
leave the state, the ID included, as it was. -/
theorem waf_read_get_failure
    (get1 : String → String → Except GoErr WhiteBlackIP) (d1 : WafWhiteBlackIpData)
    (get2 : String → String → Except GoErr WebTamper) (d2 : WafWebTamperData) :
    (∀ text, get1 d1.policy_id d1.id = .error (.default404 text) →
      resourceWafWhiteBlackIpRuleV1Read (.ok ()) get1 d1 = ({ d1 with id := "" }, none)) ∧
    (∀ err, get1 d1.policy_id d1.id = .error err → (∀ text, err ≠ .default404 text) →
      resourceWafWhiteBlackIpRuleV1Read (.ok ()) get1 d1 =
        (d1, some ("Error retrieving OpenTelekomCloud Waf WhiteBlackIP Rule: " ++ err.Error))) ∧
    (∀ text, get2 d2.policy_id d2.id = .error (.default404 text) →
      resourceWafWebTamperProtectionRuleV1Read (.ok ()) get2 d2 =
        ({ d2 with id := "" }, none)) ∧
    (∀ err, get2 d2.policy_id d2.id = .error err → (∀ text, err ≠ .default404 text) →
      resourceWafWebTamperProtectionRuleV1Read (.ok ()) get2 d2 =
        (d2, some ("Error retrieving OpenTelekomCloud Waf Web Tamper Protection Rule: "
          ++ err.Error))) := by
  refine ⟨?_, ?_, ?_, ?_⟩
  · intro text h
    simp [resourceWafWhiteBlackIpRuleV1Read, h]
  · intro err h hne
    cases err with
    | default404 text => exact absurd rfl (hne text)
    | aws code text => simp [resourceWafWhiteBlackIpRuleV1Read, h]
    | plain text => simp [resourceWafWhiteBlackIpRuleV1Read, h]
  · intro text h
    simp [resourceWafWebTamperProtectionRuleV1Read, h]
  · intro err h hne
    cases err with
    | default404 text => exact absurd rfl (hne text)
    | aws code text => simp [resourceWafWebTamperProtectionRuleV1Read, h]
    | plain text => simp [resourceWafWebTamperProtectionRuleV1Read, h]

/-- C5, on a white/black IP rule whose `Get` answers 404: the ID is cleared
and no error is returned. -/
theorem waf_read_get_failure_witness :
    resourceWafWhiteBlackIpRuleV1Read (.ok ())
        (fun _ _ => .error (.default404 "Resource not found"))
        { id := "rule-1", policy_id := "policy-1", addr := "192.168.0.1", white := 1 } =
      ({ id := "", policy_id := "policy-1", addr := "192.168.0.1", white := 1 }, none) :=
  (waf_read_get_failure (fun _ _ => .error (.default404 "Resource not found"))
    { id := "rule-1", policy_id := "policy-1", addr := "192.168.0.1", white := 1 }
    (fun _ _ => .error (.default404 "Resource not found"))
    { id := "rule-2", policy_id := "policy-1", hostname := "www.example.com",
      url := "/index.html" }).1 "Resource not found" rfl

/-- C6 fails as stated: when `Delete` answers 404 both WAF delete handlers
return an error and keep the resource ID. -/
theorem waf_delete_404_keeps_id :
    resourceWafWhiteBlackIpRuleV1Delete (.ok ())
        (fun _ _ => some (.default404 "Resource not found"))
        { id := "rule-1", policy_id := "policy-1", addr := "192.168.0.1", white := 1 } =
      ({ id := "rule-1", policy_id := "policy-1", addr := "192.168.0.1", white := 1 },
        some "Error deleting OpenTelekomCloud WAF WhiteBlackIP Rule: Resource not found") ∧
    resourceWafWebTamperProtectionRuleV1Delete (.ok ())
        (fun _ _ => some (.default404 "Resource not found"))
        { id := "rule-2", policy_id := "policy-1", hostname := "www.example.com",
          url := "/index.html" } =
      ({ id := "rule-2", policy_id := "policy-1", hostname := "www.example.com",
         url := "/index.html" },
        some ("Error deleting OpenTelekomCloud WAF Web Tamper Protection Rule: "
          ++ "Resource not found")) := by
  constructor <;> rfl

/-- C6 as amended: in `resourceWafWhiteBlackIpRuleV1Delete` and
`resourceWafWebTamperProtectionRuleV1Delete`, whenever the SDK `Delete` call
fails, with a 404 error or with any other error, the handler returns an error
and leaves the resource ID as it was; when the call succeeds the handler clears
the resource ID and returns no error. -/
theorem waf_delete_outcome
    (delete1 : String → String → Option GoErr) (d1 : WafWhiteBlackIpData)
    (delete2 : String → String → Option GoErr) (d2 : WafWebTamperData) :
    (∀ err, delete1 d1.policy_id d1.id = some err →
      resourceWafWhiteBlackIpRuleV1Delete (.ok ()) delete1 d1 =
        (d1, some ("Error deleting OpenTelekomCloud WAF WhiteBlackIP Rule: " ++ err.Error))) ∧
    (delete1 d1.policy_id d1.id = none →
      resourceWafWhiteBlackIpRuleV1Delete (.ok ()) delete1 d1 = ({ d1 with id := "" }, none)) ∧
    (∀ err, delete2 d2.policy_id d2.id = some err →
      resourceWafWebTamperProtectionRuleV1Delete (.ok ()) delete2 d2 =
        (d2, some ("Error deleting OpenTelekomCloud WAF Web Tamper Protection Rule: "
          ++ err.Error))) ∧
    (delete2 d2.policy_id d2.id = none →
      resourceWafWebTamperProtectionRuleV1Delete (.ok ()) delete2 d2 =
        ({ d2 with id := "" }, none)) := by
  refine ⟨?_, ?_, ?_, ?_⟩
  · intro err h
    simp [resourceWafWhiteBlackIpRuleV1Delete, h]
  · intro h
    simp [resourceWafWhiteBlackIpRuleV1Delete, h]
  · intro err h
    simp [resourceWafWebTamperProtectionRuleV1Delete, h]
  · intro h
    simp [resourceWafWebTamperProtectionRuleV1Delete, h]

/-- C6 as amended, on a web tamper protection rule whose `Delete` answers 500:
an error comes back and the ID stays. -/
theorem waf_delete_outcome_witness :
    resourceWafWebTamperProtectionRuleV1Delete (.ok ())
        (fun _ _ => some (.plain "Internal Server Error"))
        { id := "rule-2", policy_id := "policy-1", hostname := "www.example.com",
          url := "/index.html" } =
      ({ id := "rule-2", policy_id := "policy-1", hostname := "www.example.com",
         url := "/index.html" },
        some ("Error deleting OpenTelekomCloud WAF Web Tamper Protection Rule: "
          ++ GoErr.Error (.plain "Internal Server Error"))) :=
  (waf_delete_outcome (fun _ _ => none)
    { id := "rule-1", policy_id := "policy-1", addr := "192.168.0.1", white := 1 }
    (fun _ _ => some (.plain "Internal Server Error"))
    { id := "rule-2", policy_id := "policy-1", hostname := "www.example.com",
      url := "/index.html" }).2.2.1 (.plain "Internal Server Error") rfl

/-! ## RDS v3 datastore versions -/

/-- C9 fails on the code: when listing the datastore versions fails,
`getRdsV3VersionList` returns an error, and `dataSourceRdsVersionsV3Read` still
returns no diagnostic; it stores an empty version list and sets the ID. -/
theorem rdsVersionsRead_drops_list_error :
    @getRdsV3VersionList Unit (fun _ => .error (.plain "connection refused"))
        (fun _ => .ok []) id "MySQL" =
      .error "error listing RDSv3 versions: connection refused" ∧
    @dataSourceRdsVersionsV3Read Unit (.ok ())
        (fun _ => .error (.plain "connection refused")) (fun _ => .ok []) id (fun _ => none)
        { id := "", database_name := "MySQL", versions := [] } =
      ({ id := "MySQL_versions", database_name := "MySQL", versions := [] }, none) := by
  constructor <;> rfl

/-! ## Shared bandwidth -/

/-- A list with an element satisfying `p` splits at the first such element. -/
theorem exists_first_split {α : Type} (p : α → Prop) (l : List α)
    (h : ∃ x ∈ l, p x) :
    ∃ pre b post, l = pre ++ b :: post ∧ (∀ x ∈ pre, ¬ p x) ∧ p b := by
  induction l with
  | nil => simp at h
  | cons a rest ih =>
    by_cases ha : p a
    · exact ⟨[], a, rest, rfl, by simp, ha⟩
    · have hrest : ∃ x ∈ rest, p x := by
        obtain ⟨x, hx, hpx⟩ := h
        rcases List.mem_cons.1 hx with rfl | hx
        · exact absurd hpx ha
        · exact ⟨x, hx, hpx⟩
      obtain ⟨pre, b, post, hsplit, hpre, hb⟩ := ih hrest
      refine ⟨a :: pre, b, post, by simp [hsplit], ?_, hb⟩
      intro x hx
      rcases List.mem_cons.1 hx with rfl | hx
      · exact ha
      · exact hpre x hx

/-- Filtering by name keeps nothing exactly when no bandwidth has the name. -/
theorem filter_name_eq_nil (name : String) (allBWs : List BandWidth) :
    allBWs.filter (fun band => decide (name = band.Name)) = [] ↔
      ∀ b ∈ allBWs, b.Name ≠ name := by
  simp only [List.filter_eq_nil_iff, decide_eq_true_eq]
  exact ⟨fun h b hb e => h b hb e.symm, fun h b hb e => h b hb e.symm⟩

/-- The head of the bandwidths filtered by name is the first bandwidth with the
name in list order. -/
theorem filter_name_first (name : String) (pre post : List BandWidth) (b : BandWidth)
    (hpre : ∀ x ∈ pre, x.Name ≠ name) (hb : b.Name = name) :
    (pre ++ b :: post).filter (fun band => decide (name = band.Name)) =
      b :: post.filter (fun band => decide (name = band.Name)) := by
  have h1 : pre.filter (fun band => decide (name = band.Name)) = [] :=
    (filter_name_eq_nil name pre).2 hpre
  simp [List.filter_append, h1, List.filter_cons, hb]

/-- C10: `dataSourceBandWidthRead` with no size configured, on the list
`allBWs` returned by the API: the read succeeds exactly when some bandwidth has
the configured name; the bandwidth selected, whose ID becomes the data source
ID and whose fields are written to the state, is then the first such bandwidth
in list order; on an empty list the read fails with "no OpenTelekomCloud
bandwidth was found", and on a non-empty list without a name match it fails with
"no OpenTelekomCloud bandwidth was found by name: " followed by the name. -/
theorem bandWidthRead_by_name (list : String → Except GoErr (List BandWidth))
    (allBWs : List BandWidth) (d : BandWidthData)
    (hlist : list "WHOLE" = .ok allBWs) (hsize : d.size = 0) :
    ((dataSourceBandWidthRead (.ok ()) list d).2 = none ↔ ∃ b ∈ allBWs, b.Name = d.name) ∧
    (∀ pre b post, allBWs = pre ++ b :: post → (∀ x ∈ pre, x.Name ≠ d.name) →
      b.Name = d.name →
      dataSourceBandWidthRead (.ok ()) list d =
        ({ id := b.ID, name := b.Name, size := b.Size, share_type := b.ShareType,
           bandwidth_type := b.BandwidthType, charge_mode := b.ChargeMode,
           status := b.Status }, none)) ∧
    (allBWs = [] →
      dataSourceBandWidthRead (.ok ()) list d =
        (d, some "no OpenTelekomCloud bandwidth was found")) ∧
    (allBWs ≠ [] → (∀ b ∈ allBWs, b.Name ≠ d.name) →
      dataSourceBandWidthRead (.ok ()) list d =
        (d, some ("no OpenTelekomCloud bandwidth was found by name: " ++ d.name))) := by
  have hok : d.getOkSize = (0, false) := by
    simp [BandWidthData.getOkSize, hsize]
  have hsel : ∀ pre b post, allBWs = pre ++ b :: post → (∀ x ∈ pre, x.Name ≠ d.name) →
      b.Name = d.name →
      dataSourceBandWidthRead (.ok ()) list d =
        ({ id := b.ID, name := b.Name, size := b.Size, share_type := b.ShareType,
           bandwidth_type := b.BandwidthType, charge_mode := b.ChargeMode,
           status := b.Status }, none) := by
    intro pre b post hall hpre hb
    have hf := filter_name_first d.name pre post b hpre hb
    have hlen : ¬ (pre ++ b :: post).length = 0 := by simp
    simp only [dataSourceBandWidthRead, hlist, hall, hlen, if_false, hf, hok]
    simp
  have hnone : allBWs ≠ [] → (∀ b ∈ allBWs, b.Name ≠ d.name) →
      dataSourceBandWidthRead (.ok ()) list d =
        (d, some ("no OpenTelekomCloud bandwidth was found by name: " ++ d.name)) := by
    intro hne hno
    have hf := (filter_name_eq_nil d.name allBWs).2 hno
    have hlen : ¬ allBWs.length = 0 := by
      simpa [List.length_eq_zero] using hne
    simp only [dataSourceBandWidthRead, hlist, hlen, if_false, hf]
  have hempty : allBWs = [] →
      dataSourceBandWidthRead (.ok ()) list d =
        (d, some "no OpenTelekomCloud bandwidth was found") := by
    intro he
    simp [dataSourceBandWidthRead, hlist, he]
  refine ⟨?_, hsel, hempty, hnone⟩
  constructor
  · intro hres
    by_contra hcon
    have hno : ∀ b ∈ allBWs, b.Name ≠ d.name := fun b hb e => hcon ⟨b, hb, e⟩
    by_cases he : allBWs = []
    · rw [hempty he] at hres
      simp at hres
    · rw [hnone he hno] at hres
      simp at hres
  · rintro ⟨b, hb, hname⟩
    obtain ⟨pre, c, post, hall, hpre, hc⟩ :=
      exists_first_split (fun x : BandWidth => x.Name = d.name) allBWs ⟨b, hb, hname⟩
    rw [hsel pre c post hall hpre hc]

/-- C10, on two bandwidths named "bw" behind one named "other": the second
entry of the list, the first named "bw", is the one selected. -/
theorem bandWidthRead_by_name_witness :
    dataSourceBandWidthRead (.ok ())
        (fun _ => .ok
          [ { ID := "a", Name := "other", Size := 5, ShareType := "WHOLE",
              BandwidthType := "share", ChargeMode := "traffic", Status := "NORMAL" },
            { ID := "b", Name := "bw", Size := 10, ShareType := "WHOLE",
              BandwidthType := "share", ChargeMode := "traffic", Status := "NORMAL" },
            { ID := "c", Name := "bw", Size := 20, ShareType := "WHOLE",
              BandwidthType := "share", ChargeMode := "traffic", Status := "NORMAL" } ])
        { id := "", name := "bw", size := 0, share_type := "", bandwidth_type := "",
          charge_mode := "", status := "" } =
      ({ id := "b", name := "bw", size := 10, share_type := "WHOLE",
         bandwidth_type := "share", charge_mode := "traffic", status := "NORMAL" }, none) :=
  (bandWidthRead_by_name _ _
    { id := "", name := "bw", size := 0, share_type := "", bandwidth_type := "",
      charge_mode := "", status := "" } rfl rfl).2.1
    [ { ID := "a", Name := "other", Size := 5, ShareType := "WHOLE",
        BandwidthType := "share", ChargeMode := "traffic", Status := "NORMAL" } ]
    { ID := "b", Name := "bw", Size := 10, ShareType := "WHOLE",
      BandwidthType := "share", ChargeMode := "traffic", Status := "NORMAL" }
    [ { ID := "c", Name := "bw", Size := 20, ShareType := "WHOLE",
        BandwidthType := "share", ChargeMode := "traffic", Status := "NORMAL" } ]
    rfl (by decide) rfl

/-! ## RDS v3 instance: walking the configuration -/

/-- A one-element path without array index reads the entry of the map. -/
theorem navigateValue_key (kvs : List (String × Value)) (idx : List (String × Nat))
    (k : String) (v : Value) (hk : kvs.lookup k = some v) (hi : idx.lookup k = none) :
    navigateValue (.obj kvs) [k] idx = .ok v := by
  have hj : joinDots [k] = k := rfl
  simp [navigateValue, navigateValue.walk, hk, hj, hi]

/-- C2: for a configuration whose `flavor` is a string ending in ".ha" and
whose `availability_zone` is the list of strings `zs`,
`expandRdsInstanceV3CreateAvailabilityZone` succeeds exactly when `zs` has two
elements, then returning the first, a comma and the second; for every other
length it returns the error "must input two available zones for
primary/standby instance". -/
theorem expandAvailabilityZone_ha (kvs : List (String × Value)) (idx : List (String × Nat))
    (flavor : String) (zs : List String)
    (hflavor : kvs.lookup "flavor" = some (.str flavor))
    (hzones : kvs.lookup "availability_zone" = some (.list (zs.map .str)))
    (hidx : idx.lookup "availability_zone" = none ∧ idx.lookup "flavor" = none)
    (hha : hasSuffix flavor ".ha" = true) :
    ((∃ v, expandRdsInstanceV3CreateAvailabilityZone (.obj kvs) idx = .ok v) ↔
      zs.length = 2) ∧
    (∀ a b, zs = [a, b] →
      expandRdsInstanceV3CreateAvailabilityZone (.obj kvs) idx = .ok (.str (a ++ "," ++ b))) ∧
    (zs.length ≠ 2 →
      expandRdsInstanceV3CreateAvailabilityZone (.obj kvs) idx =
        .error (.err "must input two available zones for primary/standby instance")) := by
  have h1 := navigateValue_key kvs idx "availability_zone" _ hzones hidx.1
  have h2 := navigateValue_key kvs idx "flavor" _ hflavor hidx.2
  have hpair : ∀ a b, zs = [a, b] →
      expandRdsInstanceV3CreateAvailabilityZone (.obj kvs) idx =
        .ok (.str (a ++ "," ++ b)) := by
    intro a b hz
    subst hz
    simp only [expandRdsInstanceV3CreateAvailabilityZone, h1, h2]
    simp [bind, Except.bind, Value.assertString, hha, sliceIndex, pure, Except.pure]
  have hbad : zs.length ≠ 2 →
      expandRdsInstanceV3CreateAvailabilityZone (.obj kvs) idx =
        .error (.err "must input two available zones for primary/standby instance") := by
    intro hlen
    simp only [expandRdsInstanceV3CreateAvailabilityZone, h1, h2]
    simp [bind, Except.bind, Value.assertString, hha, hlen, throw, throwThe,
      MonadExceptOf.throw]
  refine ⟨⟨?_, ?_⟩, hpair, hbad⟩
  · rintro ⟨v, hv⟩
    by_contra hlen
    rw [hbad hlen] at hv
    cases hv
  · intro hlen
    match zs, hlen with
    | [a, b], _ => exact ⟨_, hpair a b rfl⟩

/-- C2, on flavor "rds.pg.c2.medium.ha" with zones "eu-de-01" and "eu-de-02":
the zones are joined by a comma. -/
theorem expandAvailabilityZone_ha_witness :
    expandRdsInstanceV3CreateAvailabilityZone
        (.obj [("availability_zone", .list [.str "eu-de-01", .str "eu-de-02"]),
               ("flavor", .str "rds.pg.c2.medium.ha")]) createArrayIndex =
      .ok (.str ("eu-de-01" ++ "," ++ "eu-de-02")) :=
  (expandAvailabilityZone_ha
    [("availability_zone", .list [.str "eu-de-01", .str "eu-de-02"]),
     ("flavor", .str "rds.pg.c2.medium.ha")] createArrayIndex "rds.pg.c2.medium.ha"
    ["eu-de-01", "eu-de-02"] rfl rfl ⟨by decide, by decide⟩ (by decide)).2.1
    "eu-de-01" "eu-de-02" rfl

/-- C3: for a configuration whose `flavor` is a string not ending in ".ha" and
whose `availability_zone` is the list of strings `zs`,
`expandRdsInstanceV3CreateAvailabilityZone` succeeds exactly when `zs` has one
element, then returning that element; for every other length it returns the
error "must input only one available zone for single instance". -/
theorem expandAvailabilityZone_single (kvs : List (String × Value))
    (idx : List (String × Nat)) (flavor : String) (zs : List String)
    (hflavor : kvs.lookup "flavor" = some (.str flavor))
    (hzones : kvs.lookup "availability_zone" = some (.list (zs.map .str)))
    (hidx : idx.lookup "availability_zone" = none ∧ idx.lookup "flavor" = none)
    (hha : hasSuffix flavor ".ha" = false) :
    ((∃ v, expandRdsInstanceV3CreateAvailabilityZone (.obj kvs) idx = .ok v) ↔
      zs.length = 1) ∧
    (∀ a, zs = [a] →
      expandRdsInstanceV3CreateAvailabilityZone (.obj kvs) idx = .ok (.str a)) ∧
    (zs.length ≠ 1 →
      expandRdsInstanceV3CreateAvailabilityZone (.obj kvs) idx =
        .error (.err "must input only one available zone for single instance")) := by
  have h1 := navigateValue_key kvs idx "availability_zone" _ hzones hidx.1
  have h2 := navigateValue_key kvs idx "flavor" _ hflavor hidx.2
  have hone : ∀ a, zs = [a] →
      expandRdsInstanceV3CreateAvailabilityZone (.obj kvs) idx = .ok (.str a) := by
    intro a hz
    subst hz
    simp only [expandRdsInstanceV3CreateAvailabilityZone, h1, h2]
    simp [bind, Except.bind, Value.assertString, hha, sliceIndex, pure, Except.pure]
  have hbad : zs.length ≠ 1 →
      expandRdsInstanceV3CreateAvailabilityZone (.obj kvs) idx =
        .error (.err "must input only one available zone for single instance") := by
    intro hlen
    simp only [expandRdsInstanceV3CreateAvailabilityZone, h1, h2]
    simp [bind, Except.bind, Value.assertString, hha, hlen, throw, throwThe,
      MonadExceptOf.throw]
  refine ⟨⟨?_, ?_⟩, hone, hbad⟩
  · rintro ⟨v, hv⟩
    by_contra hlen
    rw [hbad hlen] at hv
    cases hv
  · intro hlen
    match zs, hlen with
    | [a], _ => exact ⟨_, hone a rfl⟩

/-- C3, on flavor "rds.pg.c2.medium" with the two zones "eu-de-01" and
"eu-de-02": the single-instance error is returned. -/
theorem expandAvailabilityZone_single_witness :
    expandRdsInstanceV3CreateAvailabilityZone
        (.obj [("availability_zone", .list [.str "eu-de-01", .str "eu-de-02"]),
               ("flavor", .str "rds.pg.c2.medium")]) createArrayIndex =
      .error (.err "must input only one available zone for single instance") :=
  (expandAvailabilityZone_single
    [("availability_zone", .list [.str "eu-de-01", .str "eu-de-02"]),
     ("flavor", .str "rds.pg.c2.medium")] createArrayIndex "rds.pg.c2.medium"
    ["eu-de-01", "eu-de-02"] rfl rfl ⟨by decide, by decide⟩ (by decide)).2.2 (by decide)

/-! ## RDS v3 instance: finding the instance in the list -/

/-- The identity `id` matches an item exactly when the item holds the string
under "id". -/
theorem bingo_id (val : List (String × Value)) (id : String) :
    (val.lookup "id" = some (.str id) →
      findRdsInstanceV3ByList.bingo val [("id", .str id)] = .ok true) ∧
    (val.lookup "id" ≠ some (.str id) →
      findRdsInstanceV3ByList.bingo val [("id", .str id)] = .ok false) := by
  constructor
  · intro h
    simp [findRdsInstanceV3ByList.bingo, h, ifaceEq, bind, Except.bind, pure, Except.pure]
  · intro h
    cases hl : val.lookup "id" with
    | none =>
      simp [findRdsInstanceV3ByList.bingo, hl, ifaceEq, bind, Except.bind, pure, Except.pure]
    | some w =>
      cases w with
      | str s =>
        have hs : s ≠ id := by
          intro e
          exact h (by rw [hl, e])
        simp [findRdsInstanceV3ByList.bingo, hl, ifaceEq, bind, Except.bind, pure,
          Except.pure, hs]
      | null =>
        simp [findRdsInstanceV3ByList.bingo, hl, ifaceEq, bind, Except.bind, pure, Except.pure]
      | bool b =>
        simp [findRdsInstanceV3ByList.bingo, hl, ifaceEq, bind, Except.bind, pure, Except.pure]
      | int i =>
        simp [findRdsInstanceV3ByList.bingo, hl, ifaceEq, bind, Except.bind, pure, Except.pure]
      | list xs =>
        simp [findRdsInstanceV3ByList.bingo, hl, ifaceEq, bind, Except.bind, pure, Except.pure]
      | obj kvs =>
        simp [findRdsInstanceV3ByList.bingo, hl, ifaceEq, bind, Except.bind, pure, Except.pure]

/-- The loop over the items skips the items that do not hold the ID. -/
theorem findLoop_skip (id : String) (pre : List (List (String × Value))) (rest : List Value)
    (hpre : ∀ x ∈ pre, x.lookup "id" ≠ some (.str id)) :
    findRdsInstanceV3ByList.loop [("id", .str id)] (pre.map .obj ++ rest) =
      findRdsInstanceV3ByList.loop [("id", .str id)] rest := by
  induction pre with
  | nil => rfl
  | cons a pre ih =>
    have ha := (bingo_id a id).2 (hpre a (List.mem_cons_self _ _))
    have ih2 := ih (fun x hx => hpre x (List.mem_cons_of_mem _ hx))
    simp only [List.map_cons, List.cons_append, findRdsInstanceV3ByList.loop,
      Value.assertMap, bind, Except.bind, ha]
    simpa using ih2

/-- The text the list lookup fails with contains itself. -/
theorem strContains_self (text : String) : strContains text text = true := by
  simp [strContains, List.infix_refl]

/-- C7: on the instance list `items` returned by the list API and the resource
ID `d.id`, `findRdsInstanceV3ByList` returns the first item whose "id" equals
the resource ID; it fails with "Error finding the resource by list api" exactly
when no item has that id; and in that case `resourceRdsInstanceV3Read` sets the
resource ID to the empty string and returns no error. -/
theorem findRdsInstanceV3ByList_first (client : ServiceClient) (d : RdsInstanceData)
    (setProperties : Value → RdsInstanceData → RdsInstanceData × Option Fault)
    (body : List (String × Value)) (items : List (List (String × Value)))
    (hget : client.Get (client.ServiceURL "instances" ++ ("?id=" ++ d.id)) = .ok (.obj body))
    (hitems : body.lookup "instances" = some (.list (items.map .obj))) :
    (∀ pre it post, items = pre ++ it :: post →
      (∀ x ∈ pre, x.lookup "id" ≠ some (.str d.id)) → it.lookup "id" = some (.str d.id) →
      findRdsInstanceV3ByList client (client.ServiceURL "instances" ++ ("?id=" ++ d.id))
        [("id", .str d.id)] = .ok (.obj it)) ∧
    (findRdsInstanceV3ByList client (client.ServiceURL "instances" ++ ("?id=" ++ d.id))
        [("id", .str d.id)] = .error (.err "Error finding the resource by list api") ↔
      ∀ x ∈ items, x.lookup "id" ≠ some (.str d.id)) ∧
    ((∀ x ∈ items, x.lookup "id" ≠ some (.str d.id)) →
      resourceRdsInstanceV3Read (.ok client) setProperties d = ({ d with id := "" }, none)) := by
  have hfind : findRdsInstanceV3ByList client
      (client.ServiceURL "instances" ++ ("?id=" ++ d.id)) [("id", .str d.id)] =
      findRdsInstanceV3ByList.loop [("id", .str d.id)] (items.map .obj) := by
    have hnav := navigateValue_key body [] "instances" _ hitems rfl
    simp only [findRdsInstanceV3ByList, sendRdsInstanceV3ListRequest, hget, hnav,
      bind, Except.bind, Value.assertList]
  have hfirst : ∀ pre it post, items = pre ++ it :: post →
      (∀ x ∈ pre, x.lookup "id" ≠ some (.str d.id)) → it.lookup "id" = some (.str d.id) →
      findRdsInstanceV3ByList client (client.ServiceURL "instances" ++ ("?id=" ++ d.id))
        [("id", .str d.id)] = .ok (.obj it) := by
    intro pre it post hsplit hpre hit
    have hb := (bingo_id it d.id).1 hit
    rw [hfind, hsplit, List.map_append, findLoop_skip d.id pre _ hpre]
    simp only [List.map_cons, findRdsInstanceV3ByList.loop, Value.assertMap, bind,
      Except.bind, hb]
    simp [pure, Except.pure]
  have hmiss : (∀ x ∈ items, x.lookup "id" ≠ some (.str d.id)) →
      findRdsInstanceV3ByList client (client.ServiceURL "instances" ++ ("?id=" ++ d.id))
        [("id", .str d.id)] = .error (.err "Error finding the resource by list api") := by
    intro hno
    have hskip := findLoop_skip d.id items [] hno
    rw [List.append_nil] at hskip
    rw [hfind, hskip]
    rfl
  refine ⟨hfirst, ⟨?_, hmiss⟩, ?_⟩
  · intro herr x hx hid
    obtain ⟨pre, it, post, hsplit, hpre, hit⟩ :=
      exists_first_split (fun x : List (String × Value) => x.lookup "id" = some (.str d.id))
        items ⟨x, hx, hid⟩
    rw [hfirst pre it post hsplit hpre hit] at herr
    cases herr
  · intro hno
    have hfetch : fetchRdsInstanceV3ByList d client =
        .error (.err "Error finding the resource by list api") := hmiss hno
    simp only [resourceRdsInstanceV3Read, hfetch, strContains_self]
    simp

/-- C7, on a list of two instances "a" and "b" and the resource ID "b": the
second item is returned. -/
theorem findRdsInstanceV3ByList_first_witness :
    findRdsInstanceV3ByList
        { ServiceURL := fun path => "https://rds.example/v3/" ++ path,
          Get := fun _ => .ok (.obj [("instances",
            .list [.obj [("id", .str "a")], .obj [("id", .str "b"), ("name", .str "db")]])]) }
        ("https://rds.example/v3/" ++ "instances" ++ ("?id=" ++ "b")) [("id", .str "b")] =
      .ok (.obj [("id", .str "b"), ("name", .str "db")]) :=
  (findRdsInstanceV3ByList_first
    { ServiceURL := fun path => "https://rds.example/v3/" ++ path,
      Get := fun _ => .ok (.obj [("instances",
        .list [.obj [("id", .str "a")], .obj [("id", .str "b"), ("name", .str "db")]])]) }
    { id := "b", attrs := [] } (fun _ d => (d, none))
    [("instances", .list [.obj [("id", .str "a")], .obj [("id", .str "b"), ("name", .str "db")]])]
    [[("id", .str "a")], [("id", .str "b"), ("name", .str "db")]] rfl rfl).1
    [[("id", .str "a")]] [("id", .str "b"), ("name", .str "db")] [] rfl
    (by
      intro x hx
      rw [List.mem_singleton] at hx
      subst hx
      simp [List.lookup])
    rfl

/-! ## RDS v3 instance: the create request body -/

/-- The emptiness test never fails on an untyped value, and agrees with
`Value.isEmpty`. -/
theorem isEmptyValue_eq (v : Value) : isEmptyValue v = .ok v.isEmpty := by
  cases v with
  | null => rfl
  | bool b => rfl
  | int i => rfl
  | str s =>
    have h : (s.length = 0) ↔ s = "" := by
      constructor
      · intro hl
        have hd : s.data = [] := List.length_eq_zero.1 hl
        exact String.ext hd
      · rintro rfl
        rfl
    simp [isEmptyValue, Value.isEmpty, h]
  | list xs => cases xs <;> simp [isEmptyValue, Value.isEmpty]
  | obj kvs => cases kvs <;> simp [isEmptyValue, Value.isEmpty]

/-- What the repeated block leaves in the map when its source yields `v`. -/
theorem putUnlessEmpty_ok (m : List (String × Value)) (key : String) (v : Value) :
    putUnlessEmpty m key (.ok v) = .ok (setUnlessEmpty m key v) := by
  simp only [putUnlessEmpty, bind, Except.bind, isEmptyValue_eq, setUnlessEmpty]
  cases v.isEmpty <;> rfl

/-- The repeated block fails when its source fails. -/
theorem putUnlessEmpty_error (m : List (String × Value)) (key : String) (e : Fault) :
    putUnlessEmpty m key (.error e) = .error e := rfl

/-- A builder that goes on after the repeated block succeeds exactly when the
source of the block yields a value and the builder succeeds on the map the block
leaves. -/
theorem putUnlessEmpty_bind_ok {β : Type} (m : List (String × Value)) (key : String)
    (source : Go Value) (f : List (String × Value) → Go β) (b : β) :
    (putUnlessEmpty m key source >>= f) = .ok b ↔
      ∃ v, source = .ok v ∧ f (setUnlessEmpty m key v) = .ok b := by
  cases source with
  | error e =>
    rw [putUnlessEmpty_error]
    constructor
    · intro h
      cases h
    · rintro ⟨v, hv, _⟩
      cases hv
  | ok v =>
    rw [putUnlessEmpty_ok]
    constructor
    · intro h
      exact ⟨v, rfl, h⟩
    · rintro ⟨w, hw, h⟩
      cases hw
      exact h

/-- Reading a map that starts with the entry `(k1, w)`. -/
theorem lookup_cons_if (k k1 : String) (w : Value) (rest : List (String × Value)) :
    List.lookup k ((k1, w) :: rest) = if k = k1 then some w else rest.lookup k := by
  by_cases h : k = k1
  · subst h
    simp [List.lookup]
  · have hb : (k == k1) = false := by simpa using h
    simp [List.lookup, hb, h]

/-- Reading a map after an assignment. -/
theorem lookup_mapSet (m : List (String × Value)) (key k : String) (v : Value) :
    (mapSet m key v).lookup k = if k = key then some v else m.lookup k := by
  induction m with
  | nil =>
    by_cases h : k = key <;> simp [mapSet, lookup_cons_if, h]
  | cons kv rest ih =>
    obtain ⟨k1, w⟩ := kv
    by_cases h1 : k1 = key
    · subst h1
      by_cases h : k = k1 <;> simp [mapSet, lookup_cons_if, h]
    · by_cases h : k = key
      · subst h
        have h2 : ¬ k = k1 := fun e => h1 e.symm
        simp [mapSet, lookup_cons_if, h1, h2, ih]
      · by_cases h3 : k = k1 <;> simp [mapSet, lookup_cons_if, h1, h, h3, ih]

/-- Reading a map after the repeated block. -/
theorem lookup_setUnlessEmpty (m : List (String × Value)) (key k : String) (v : Value) :
    (setUnlessEmpty m key v).lookup k =
      if k = key then (if v.isEmpty then m.lookup k else some v) else m.lookup k := by
  unfold setUnlessEmpty
  by_cases he : v.isEmpty = true
  · by_cases h : k = key <;> simp [he, h]
  · by_cases h : k = key <;> simp [he, h, lookup_mapSet]

/-- Dropping the empty values of the empty mapping. -/
theorem dropEmpty_nil : dropEmpty [] = [] := rfl

/-- Reading a mapping from which the empty values were dropped. -/
theorem lookup_dropEmpty_cons (key k : String) (v : Value) (rest : List (String × Value)) :
    (dropEmpty ((key, v) :: rest)).lookup k =
      if k = key then (if v.isEmpty then (dropEmpty rest).lookup k else some v)
      else (dropEmpty rest).lookup k := by
  unfold dropEmpty
  by_cases he : v.isEmpty = true
  · by_cases h : k = key <;> simp [List.filter_cons, he, h]
  · by_cases h : k = key <;> simp [List.filter_cons, he, h, lookup_cons_if]

/-- A one-element path that resolves yields the entry of the map. -/
theorem navigateValue_key_ok (kvs : List (String × Value)) (idx : List (String × Nat))
    (k : String) (v : Value) (hi : idx.lookup k = none)
    (h : navigateValue (.obj kvs) [k] idx = .ok v) : v = (Value.obj kvs).field k := by
  have hj : joinDots [k] = k := rfl
  cases hl : kvs.lookup k with
  | none => simp [navigateValue, navigateValue.walk, hl] at h
  | some w =>
    simp [navigateValue, navigateValue.walk, hl, hj, hi] at h
    subst h
    simp [Value.field, hl]

/-- A two-element path whose first element carries the array index `0` yields,
when it resolves, the entry of the first element of the list. -/
theorem navigateValue_first_key_ok (kvs : List (String × Value)) (idx : List (String × Nat))
    (a b : String) (v : Value) (ha : idx.lookup a = some 0)
    (hab : idx.lookup (joinDots [a, b]) = none)
    (h : navigateValue (.obj kvs) [a, b] idx = .ok v) :
    v = (((Value.obj kvs).field a).first).field b := by
  have hj : joinDots [a] = a := rfl
  cases hl : kvs.lookup a with
  | none => simp [navigateValue, navigateValue.walk, hl] at h
  | some w =>
    cases w with
    | null =>
      simp [navigateValue, navigateValue.walk, hl, hj, ha] at h
      subst h
      simp [Value.field, Value.first, hl]
    | bool x => simp [navigateValue, navigateValue.walk, hl, hj, ha] at h
    | int x => simp [navigateValue, navigateValue.walk, hl, hj, ha] at h
    | str x => simp [navigateValue, navigateValue.walk, hl, hj, ha] at h
    | obj x => simp [navigateValue, navigateValue.walk, hl, hj, ha] at h
    | list d2 =>
      cases d2 with
      | nil =>
        simp [navigateValue, navigateValue.walk, hl, hj, ha] at h
        subst h
        simp [Value.field, Value.first, hl]
      | cons x rest =>
        cases x with
        | null =>
          simp [navigateValue, navigateValue.walk, hl, hj, ha] at h
          subst h
          simp [Value.field, Value.first, hl]
        | bool y => simp [navigateValue, navigateValue.walk, hl, hj, ha] at h
        | int y => simp [navigateValue, navigateValue.walk, hl, hj, ha] at h
        | str y => simp [navigateValue, navigateValue.walk, hl, hj, ha] at h
        | list y => simp [navigateValue, navigateValue.walk, hl, hj, ha] at h
        | obj d1 =>
          cases hb : d1.lookup b with
          | none => simp [navigateValue, navigateValue.walk, hl, hj, ha, hb] at h
          | some y =>
            simp [navigateValue, navigateValue.walk, hl, hj, ha, hb, hab] at h
            subst h
            simp [Value.field, Value.first, hl, hb]

/-- A builder of a nested map with the two keys `k1` and `k2`, when it
succeeds, yields the two values read with the empty ones left out. -/
theorem nested_pair_ok (k1 k2 : String) (hne : k1 ≠ k2) (s1 s2 : Go Value) (v : Value)
    (h : (putUnlessEmpty [] k1 s1 >>= fun req =>
          putUnlessEmpty req k2 s2 >>= fun req => pure (Value.obj req)) = .ok v) :
    ∃ v1 v2, s1 = .ok v1 ∧ s2 = .ok v2 ∧ v = .obj (dropEmpty [(k1, v1), (k2, v2)]) := by
  simp only [putUnlessEmpty_bind_ok] at h
  obtain ⟨v1, h1, v2, h2, h3⟩ := h
  refine ⟨v1, v2, h1, h2, ?_⟩
  simp only [pure, Except.pure, Except.ok.injEq] at h3
  rw [← h3]
  by_cases e1 : v1.isEmpty = true <;> by_cases e2 : v2.isEmpty = true <;>
    simp [setUnlessEmpty, dropEmpty, mapSet, e1, e2, hne]

/-- The backup strategy of a request that could be built is the one of the
first `backup_strategy` block. -/
theorem expandBackupStrategy_ok (opts : List (String × Value)) (v : Value)
    (h : expandRdsInstanceV3CreateBackupStrategy (.obj opts) createArrayIndex = .ok v) :
    v = .obj (dropEmpty
      [("keep_days", (((Value.obj opts).field "backup_strategy").first).field "keep_days"),
       ("start_time", (((Value.obj opts).field "backup_strategy").first).field "start_time")]) := by
  obtain ⟨v1, v2, h1, h2, hv⟩ := nested_pair_ok "keep_days" "start_time" (by decide) _ _ v h
  rw [hv, navigateValue_first_key_ok opts createArrayIndex _ _ v1 (by decide) (by decide) h1,
    navigateValue_first_key_ok opts createArrayIndex _ _ v2 (by decide) (by decide) h2]

/-- The datastore of a request that could be built is the one of the first
`db` block. -/
theorem expandDatastore_ok (opts : List (String × Value)) (v : Value)
    (h : expandRdsInstanceV3CreateDatastore (.obj opts) createArrayIndex = .ok v) :
    v = .obj (dropEmpty
      [("type", (((Value.obj opts).field "db").first).field "type"),
       ("version", (((Value.obj opts).field "db").first).field "version")]) := by
  obtain ⟨v1, v2, h1, h2, hv⟩ := nested_pair_ok "type" "version" (by decide) _ _ v h
  rw [hv, navigateValue_first_key_ok opts createArrayIndex _ _ v1 (by decide) (by decide) h1,
    navigateValue_first_key_ok opts createArrayIndex _ _ v2 (by decide) (by decide) h2]

/-- The volume of a request that could be built is the one of the first
`volume` block. -/
theorem expandVolume_ok (opts : List (String × Value)) (v : Value)
    (h : expandRdsInstanceV3CreateVolume (.obj opts) createArrayIndex = .ok v) :
    v = .obj (dropEmpty
      [("size", (((Value.obj opts).field "volume").first).field "size"),
       ("type", (((Value.obj opts).field "volume").first).field "type")]) := by
  obtain ⟨v1, v2, h1, h2, hv⟩ := nested_pair_ok "size" "type" (by decide) _ _ v h
  rw [hv, navigateValue_first_key_ok opts createArrayIndex _ _ v1 (by decide) (by decide) h1,
    navigateValue_first_key_ok opts createArrayIndex _ _ v2 (by decide) (by decide) h2]

/-- C4: whenever `buildRdsInstanceV3CreateParameters` succeeds on the input
map `opts` with the array index of the create handler, the request body is a
map that agrees, on every key of the reference mapping (configuration_id,
flavor_ref, password, port, disk_encryption_id, datastore, volume,
backup_strategy, name, security_group_id, subnet_id, vpc_id), with the
reference mapping from which the empty values are left out, and that has no key
outside `createBodyKeys`. -/
theorem buildCreateParameters_reference
    (expandRegion : Value → List (String × Nat) → Go Value)
    (opts : List (String × Value)) (body : Value)
    (h : buildRdsInstanceV3CreateParameters expandRegion opts createArrayIndex = .ok body) :
    ∃ params, body = .obj params ∧
      (∀ k ∈ (createReference opts).map Prod.fst,
        params.lookup k = (dropEmpty (createReference opts)).lookup k) ∧
      (∀ k v, params.lookup k = some v → k ∈ createBodyKeys) := by
  simp only [buildRdsInstanceV3CreateParameters, putUnlessEmpty_bind_ok] at h
  obtain ⟨az, -, bs, hbs, cfg, hcfg, ds, hds, dek, hdek, fl, hfl, ha, -, nm, hnm, pw, hpw,
    pt, hpt, rg, -, sg, hsg, sn, hsn, vol, hvol, vpc, hvpc, hbody⟩ := h
  simp only [pure, Except.pure, Except.ok.injEq] at hbody
  have ebs := expandBackupStrategy_ok opts bs hbs
  have eds := expandDatastore_ok opts ds hds
  have evol := expandVolume_ok opts vol hvol
  have ecfg := navigateValue_key_ok opts createArrayIndex _ cfg (by decide) hcfg
  have efl := navigateValue_key_ok opts createArrayIndex _ fl (by decide) hfl
  have enm := navigateValue_key_ok opts createArrayIndex _ nm (by decide) hnm
  have esg := navigateValue_key_ok opts createArrayIndex _ sg (by decide) hsg
  have esn := navigateValue_key_ok opts createArrayIndex _ sn (by decide) hsn
  have evpc := navigateValue_key_ok opts createArrayIndex _ vpc (by decide) hvpc
  have edek := navigateValue_first_key_ok opts createArrayIndex _ _ dek (by decide)
    (by decide) hdek
  have epw := navigateValue_first_key_ok opts createArrayIndex _ _ pw (by decide)
    (by decide) hpw
  have ept := navigateValue_first_key_ok opts createArrayIndex _ _ pt (by decide)
    (by decide) hpt
  subst ebs eds evol ecfg efl enm esg esn evpc edek epw ept
  refine ⟨_, hbody.symm, ?_, ?_⟩
  · intro k hk
    simp only [createReference, List.map_cons, List.map_nil, List.mem_cons,
      List.mem_singleton, List.not_mem_nil, or_false] at hk
    rcases hk with rfl | rfl | rfl | rfl | rfl | rfl | rfl | rfl | rfl | rfl | rfl | rfl <;>
      simp [createReference, lookup_setUnlessEmpty, lookup_dropEmpty_cons, dropEmpty_nil]
  · intro k v hv
    by_contra hk
    simp only [createBodyKeys, List.mem_cons, List.mem_singleton, List.not_mem_nil,
      or_false, not_or] at hk
    obtain ⟨k1, k2, k3, k4, k5, k6, k7, k8, k9, k10, k11, k12, k13, k14, k15⟩ := hk
    simp [lookup_setUnlessEmpty, k1, k2, k3, k4, k5, k6, k7, k8, k9, k10, k11, k12, k13,
      k14, k15] at hv

/-- C4, on `sampleCreateOpts` with the region read from the key `region`: the
builder yields `sampleCreateBody`, which agrees with the reference mapping. -/
theorem buildCreateParameters_reference_witness :
    buildRdsInstanceV3CreateParameters (fun d idx => navigateValue d ["region"] idx)
        sampleCreateOpts createArrayIndex = .ok sampleCreateBody ∧
    ∃ params, sampleCreateBody = .obj params ∧
      (∀ k ∈ (createReference sampleCreateOpts).map Prod.fst,
        params.lookup k = (dropEmpty (createReference sampleCreateOpts)).lookup k) ∧
      (∀ k v, params.lookup k = some v → k ∈ createBodyKeys) :=
  ⟨rfl, buildCreateParameters_reference (fun d idx => navigateValue d ["region"] idx)
    sampleCreateOpts sampleCreateBody rfl⟩

/-! ## Shared bandwidth: selection by size -/

/-- The loop by size passes over the bandwidths of another size. -/
theorem bySize_skip (v : Int) (result : BandWidth) (l1 l2 : List BandWidth)
    (h : ∀ x ∈ l1, x.Size ≠ v) :
    dataSourceBandWidthRead.bySize v result (l1 ++ l2) =
      dataSourceBandWidthRead.bySize v result l2 := by
  induction l1 with
  | nil => rfl
  | cons a rest ih =>
    have ha : ¬ v = a.Size := fun e => h a (List.mem_cons_self _ _) e.symm
    simp only [List.cons_append, dataSourceBandWidthRead.bySize, ha, if_false]
    exact ih (fun x hx => h x (List.mem_cons_of_mem _ hx))

/-- The loop by size finds nothing in a list without a bandwidth of that size. -/
theorem bySize_none (v : Int) (result : BandWidth) (l : List BandWidth)
    (h : ∀ x ∈ l, x.Size ≠ v) :
    dataSourceBandWidthRead.bySize v result l = (false, result) := by
  have hs := bySize_skip v result l [] h
  rw [List.append_nil] at hs
  rw [hs]
  rfl

/-- C11: `dataSourceBandWidthRead` with a non-zero size configured, on a list
`allBWs` holding at least one bandwidth of the configured name: the read
succeeds exactly when some bandwidth has both the configured name and the
configured size; the bandwidth selected is then the first such one in list
order; otherwise the read fails with "no OpenTelekomCloud bandwidth was found
by size: " followed by the size, and the state, the ID included, stays as it
was. -/
theorem bandWidthRead_by_size (list : String → Except GoErr (List BandWidth))
    (allBWs : List BandWidth) (d : BandWidthData)
    (hlist : list "WHOLE" = .ok allBWs) (hsize : d.size ≠ 0)
    (hname : ∃ b ∈ allBWs, b.Name = d.name) :
    ((dataSourceBandWidthRead (.ok ()) list d).2 = none ↔
      ∃ b ∈ allBWs, b.Name = d.name ∧ b.Size = d.size) ∧
    (∀ pre b post, allBWs = pre ++ b :: post →
      (∀ x ∈ pre, ¬ (x.Name = d.name ∧ x.Size = d.size)) →
      b.Name = d.name → b.Size = d.size →
      dataSourceBandWidthRead (.ok ()) list d =
        ({ id := b.ID, name := b.Name, size := b.Size, share_type := b.ShareType,
           bandwidth_type := b.BandwidthType, charge_mode := b.ChargeMode,
           status := b.Status }, none)) ∧
    ((∀ b ∈ allBWs, ¬ (b.Name = d.name ∧ b.Size = d.size)) →
      dataSourceBandWidthRead (.ok ()) list d =
        (d, some ("no OpenTelekomCloud bandwidth was found by size: " ++ toString d.size))) := by
  have hok : d.getOkSize = (d.size, true) := by
    simp [BandWidthData.getOkSize, hsize]
  have hlen : ¬ allBWs.length = 0 := by
    obtain ⟨b, hb, _⟩ := hname
    intro h0
    rw [List.length_eq_zero] at h0
    rw [h0] at hb
    cases hb
  have hfilter : allBWs.filter (fun band => decide (d.name = band.Name)) ≠ [] := by
    intro hnil
    obtain ⟨b, hb, hbn⟩ := hname
    exact (filter_name_eq_nil d.name allBWs).1 hnil b hb hbn
  have hsel : ∀ pre b post, allBWs = pre ++ b :: post →
      (∀ x ∈ pre, ¬ (x.Name = d.name ∧ x.Size = d.size)) →
      b.Name = d.name → b.Size = d.size →
      dataSourceBandWidthRead (.ok ()) list d =
        ({ id := b.ID, name := b.Name, size := b.Size, share_type := b.ShareType,
           bandwidth_type := b.BandwidthType, charge_mode := b.ChargeMode,
           status := b.Status }, none) := by
    intro pre b post hall hpre hbn hbs
    have hsplit : allBWs.filter (fun band => decide (d.name = band.Name)) =
        pre.filter (fun band => decide (d.name = band.Name)) ++
          b :: post.filter (fun band => decide (d.name = band.Name)) := by
      rw [hall, List.filter_append, List.filter_cons]
      simp [hbn]
    have hskip : ∀ x ∈ pre.filter (fun band => decide (d.name = band.Name)),
        x.Size ≠ d.size := by
      intro x hx hxs
      rw [List.mem_filter] at hx
      exact hpre x hx.1 ⟨(of_decide_eq_true hx.2).symm, hxs⟩
    cases hf : allBWs.filter (fun band => decide (d.name = band.Name)) with
    | nil => exact absurd hf hfilter
    | cons first rest =>
      have hby : dataSourceBandWidthRead.bySize d.size first (first :: rest) = (true, b) := by
        rw [← hf, hsplit, bySize_skip d.size first _ _ hskip]
        simp [dataSourceBandWidthRead.bySize, hbs]
      simp only [dataSourceBandWidthRead, hlist, hlen, if_false, hf, hok]
      simp [hby]
  have hfail : (∀ b ∈ allBWs, ¬ (b.Name = d.name ∧ b.Size = d.size)) →
      dataSourceBandWidthRead (.ok ()) list d =
        (d, some ("no OpenTelekomCloud bandwidth was found by size: " ++ toString d.size)) := by
    intro hno
    have hnone : ∀ x ∈ allBWs.filter (fun band => decide (d.name = band.Name)),
        x.Size ≠ d.size := by
      intro x hx hxs
      rw [List.mem_filter] at hx
      exact hno x hx.1 ⟨(of_decide_eq_true hx.2).symm, hxs⟩
    cases hf : allBWs.filter (fun band => decide (d.name = band.Name)) with
    | nil => exact absurd hf hfilter
    | cons first rest =>
      have hby : dataSourceBandWidthRead.bySize d.size first (first :: rest) =
          (false, first) := by
        rw [← hf]
        exact bySize_none d.size first _ hnone
      simp only [dataSourceBandWidthRead, hlist, hlen, if_false, hf, hok]
      simp [hby]
  refine ⟨⟨?_, ?_⟩, hsel, hfail⟩
  · intro hres
    by_contra hcon
    have hno : ∀ b ∈ allBWs, ¬ (b.Name = d.name ∧ b.Size = d.size) :=
      fun b hb e => hcon ⟨b, hb, e⟩
    rw [hfail hno] at hres
    simp at hres
  · rintro ⟨b, hb, hbn, hbs⟩
    obtain ⟨pre, c, post, hall, hpre, hc⟩ :=
      exists_first_split (fun x : BandWidth => x.Name = d.name ∧ x.Size = d.size) allBWs
        ⟨b, hb, hbn, hbs⟩
    rw [hsel pre c post hall hpre hc.1 hc.2]

/-- C11, on three bandwidths named "bw" of sizes 10, 20 and 20 with size 20
configured: the second one, the first of size 20, is selected. -/
theorem bandWidthRead_by_size_witness :
    dataSourceBandWidthRead (.ok ())
        (fun _ => .ok
          [ { ID := "a", Name := "bw", Size := 10, ShareType := "WHOLE",
              BandwidthType := "share", ChargeMode := "traffic", Status := "NORMAL" },
            { ID := "b", Name := "bw", Size := 20, ShareType := "WHOLE",
              BandwidthType := "share", ChargeMode := "traffic", Status := "NORMAL" },
            { ID := "c", Name := "bw", Size := 20, ShareType := "WHOLE",
              BandwidthType := "share", ChargeMode := "traffic", Status := "NORMAL" } ])
        { id := "", name := "bw", size := 20, share_type := "", bandwidth_type := "",
          charge_mode := "", status := "" } =
      ({ id := "b", name := "bw", size := 20, share_type := "WHOLE",
         bandwidth_type := "share", charge_mode := "traffic", status := "NORMAL" }, none) :=
  (bandWidthRead_by_size _ _
    { id := "", name := "bw", size := 20, share_type := "", bandwidth_type := "",
      charge_mode := "", status := "" } rfl (by decide)
    ⟨{ ID := "a", Name := "bw", Size := 10, ShareType := "WHOLE",
       BandwidthType := "share", ChargeMode := "traffic", Status := "NORMAL" },
      by simp, rfl⟩).2.1
    [ { ID := "a", Name := "bw", Size := 10, ShareType := "WHOLE",
        BandwidthType := "share", ChargeMode := "traffic", Status := "NORMAL" } ]
    { ID := "b", Name := "bw", Size := 20, ShareType := "WHOLE",
      BandwidthType := "share", ChargeMode := "traffic", Status := "NORMAL" }
    [ { ID := "c", Name := "bw", Size := 20, ShareType := "WHOLE",
        BandwidthType := "share", ChargeMode := "traffic", Status := "NORMAL" } ]
    rfl (by decide) rfl rfl

/-! ## Maps as association lists -/

/-- Reading an association list that starts with the entry `(k1, w)`. -/
theorem lookup_cons_eq {β : Type} (k k1 : String) (w : β) (rest : List (String × β)) :
    List.lookup k ((k1, w) :: rest) = if k = k1 then some w else rest.lookup k := by
  by_cases h : k = k1
  · subst h
    simp [List.lookup]
  · have hb : (k == k1) = false := by simpa using h
    simp [List.lookup, hb, h]

/-- In an association list with pairwise distinct keys, a key reads as `v`
exactly when the entry `(k, v)` is in the list. -/
theorem lookup_eq_some_iff_mem {β : Type} (l : List (String × β)) (k : String) (v : β)
    (hnd : (l.map Prod.fst).Nodup) : l.lookup k = some v ↔ (k, v) ∈ l := by
  induction l with
  | nil => simp
  | cons e rest ih =>
    obtain ⟨k1, w⟩ := e
    rw [List.map_cons, List.nodup_cons] at hnd
    rw [lookup_cons_eq, List.mem_cons]
    by_cases h : k = k1
    · subst h
      simp only [if_true]
      constructor
      · intro hw
        left
        rw [Option.some.injEq] at hw
        rw [hw]
      · rintro (heq | hmem)
        · rw [Prod.mk.injEq] at heq
          rw [heq.2]
        · exact absurd (List.mem_map_of_mem Prod.fst hmem) hnd.1
    · simp only [h, if_false]
      rw [ih hnd.2]
      constructor
      · intro hmem
        exact Or.inr hmem
      · rintro (heq | hmem)
        · rw [Prod.mk.injEq] at heq
          exact absurd heq.1 h
        · exact hmem

/-- An entry of a map after an assignment is the entry assigned or an entry of
the map before. -/
theorem mem_mapSet (m : List (String × Value)) (key : String) (v : Value)
    (e : String × Value) (he : e ∈ mapSet m key v) : e = (key, v) ∨ e ∈ m := by
  induction m with
  | nil =>
    simp only [mapSet, List.mem_singleton] at he
    exact Or.inl he
  | cons kv rest ih =>
    obtain ⟨k1, w⟩ := kv
    by_cases h1 : k1 = key
    · simp only [mapSet, h1, if_true, List.mem_cons] at he
      rcases he with he | he
      · exact Or.inl he
      · exact Or.inr (List.mem_cons_of_mem _ he)
    · simp only [mapSet, h1, if_false, List.mem_cons] at he
      rcases he with he | he
      · exact Or.inr (by rw [he]; exact List.mem_cons_self _ _)
      · rcases ih he with h | h
        · exact Or.inl h
        · exact Or.inr (List.mem_cons_of_mem _ h)

/-- An assignment keeps the keys of a map pairwise distinct. -/
theorem mapSet_keys_nodup (m : List (String × Value)) (key : String) (v : Value)
    (hnd : (m.map Prod.fst).Nodup) : ((mapSet m key v).map Prod.fst).Nodup := by
  induction m with
  | nil => simp [mapSet]
  | cons kv rest ih =>
    obtain ⟨k1, w⟩ := kv
    rw [List.map_cons, List.nodup_cons] at hnd
    by_cases h1 : k1 = key
    · subst h1
      simp only [mapSet, if_true, List.map_cons, List.nodup_cons]
      exact hnd
    · simp only [mapSet, h1, if_false, List.map_cons, List.nodup_cons]
      refine ⟨?_, ih hnd.2⟩
      intro hmem
      obtain ⟨e, he, hek⟩ := List.mem_map.1 hmem
      rcases mem_mapSet rest key v e he with h | h
      · rw [h] at hek
        exact h1 hek.symm
      · exact hnd.1 (List.mem_map.2 ⟨e, h, hek⟩)

/-! ## Tags -/

/-- The map `diffTags` fills from the new tags gives a key the value of its last
tag, and otherwise what the map held before. -/
theorem lookup_createMap (newTags : List Tag) (init : List (String × Value)) (k : String) :
    (newTags.foldl (fun create t => mapSet create t.Key (.str t.Value)) init).lookup k =
      match lastValue newTags k with
      | some v => some (.str v)
      | none => init.lookup k := by
  induction newTags generalizing init with
  | nil => rfl
  | cons t rest ih =>
    rw [List.foldl_cons, ih]
    cases hl : lastValue rest k with
    | some v => simp [lastValue, hl]
    | none =>
      by_cases hk : t.Key = k
      · simp [lastValue, hl, hk, lookup_mapSet]
      · have hk2 : ¬ k = t.Key := fun e => hk e.symm
        simp [lastValue, hl, hk, hk2, lookup_mapSet]

/-- The map `diffTags` fills from the new tags has pairwise distinct keys. -/
theorem createMap_keys_nodup (newTags : List Tag) (init : List (String × Value))
    (hnd : (init.map Prod.fst).Nodup) :
    ((newTags.foldl (fun create t => mapSet create t.Key (.str t.Value)) init).map
      Prod.fst).Nodup := by
  induction newTags generalizing init with
  | nil => exact hnd
  | cons t rest ih =>
    rw [List.foldl_cons]
    exact ih _ (mapSet_keys_nodup init t.Key _ hnd)

/-- The map `diffTags` fills from the new tags holds strings only. -/
theorem createMap_values_str (newTags : List Tag) (init : List (String × Value))
    (hinit : ∀ e ∈ init, ∃ s, e.2 = .str s) :
    ∀ e ∈ newTags.foldl (fun create t => mapSet create t.Key (.str t.Value)) init,
      ∃ s, e.2 = .str s := by
  induction newTags generalizing init with
  | nil => exact hinit
  | cons t rest ih =>
    rw [List.foldl_cons]
    apply ih
    intro e he
    rcases mem_mapSet init t.Key _ e he with h | h
    · exact ⟨t.Value, by rw [h]⟩
    · exact hinit e h

/-- On a map that holds strings only, the loop of `tagsFromMap` never fails: it
appends the tags of the entries to the result. -/
theorem tagsFromMap_loop_ok (l : List (String × Value)) (result : List Tag)
    (hstr : ∀ e ∈ l, ∃ s, e.2 = .str s) :
    tagsFromMap.loop l result = .ok (result ++ entryTags l) := by
  induction l generalizing result with
  | nil => simp [tagsFromMap.loop, entryTags]
  | cons e rest ih =>
    obtain ⟨k, v⟩ := e
    obtain ⟨s, hs⟩ := hstr (k, v) (List.mem_cons_self _ _)
    simp only at hs
    subst hs
    have hrest : ∀ e ∈ rest, ∃ s, e.2 = .str s :=
      fun e he => hstr e (List.mem_cons_of_mem _ he)
    by_cases hig : tagIgnored { Key := k, Value := s } = true
    · simp [tagsFromMap.loop, Value.assertString, bind, Except.bind, hig, ih _ hrest,
        entryTags, List.filterMap_cons]
    · simp [tagsFromMap.loop, Value.assertString, bind, Except.bind, hig, ih _ hrest,
        entryTags, List.filterMap_cons]

/-- The tags of a map are the entries with a string value whose key does not
begin with "aws:". -/
theorem mem_entryTags (l : List (String × Value)) (t : Tag) :
    t ∈ entryTags l ↔ (t.Key, Value.str t.Value) ∈ l ∧ tagIgnored t = false := by
  induction l with
  | nil => simp [entryTags]
  | cons e rest ih =>
    obtain ⟨k, v⟩ := e
    have hcons : entryTags ((k, v) :: rest) =
        (match v with
          | .str s => if tagIgnored { Key := k, Value := s } then []
                      else [{ Key := k, Value := s }]
          | _ => []) ++ entryTags rest := by
      cases v with
      | str s =>
        by_cases hig : tagIgnored { Key := k, Value := s } = true <;>
          simp [entryTags, List.filterMap_cons, hig]
      | null => simp [entryTags, List.filterMap_cons]
      | bool b => simp [entryTags, List.filterMap_cons]
      | int i => simp [entryTags, List.filterMap_cons]
      | list xs => simp [entryTags, List.filterMap_cons]
      | obj kvs => simp [entryTags, List.filterMap_cons]
    rw [hcons, List.mem_append, ih, List.mem_cons]
    obtain ⟨tk, tv⟩ := t
    cases v with
    | str s =>
      by_cases hig : tagIgnored { Key := k, Value := s } = true
      · simp only [hig, if_true, List.not_mem_nil, false_or]
        constructor
        · rintro ⟨hm, hi⟩
          exact ⟨Or.inr hm, hi⟩
        · rintro ⟨hm | hm, hi⟩
          · simp only [Prod.mk.injEq, Value.str.injEq] at hm
            obtain ⟨h1, h2⟩ := hm
            subst h1 h2
            rw [hig] at hi
            cases hi
          · exact ⟨hm, hi⟩
      · simp only [hig, if_false, List.mem_singleton, Bool.false_eq_true]
        constructor
        · rintro (ht | ⟨hm, hi⟩)
          · simp only [Tag.mk.injEq] at ht
            obtain ⟨h1, h2⟩ := ht
            subst h1 h2
            exact ⟨Or.inl rfl, by simpa using hig⟩
          · exact ⟨Or.inr hm, hi⟩
        · rintro ⟨hm | hm, hi⟩
          · simp only [Prod.mk.injEq, Value.str.injEq] at hm
            obtain ⟨h1, h2⟩ := hm
            subst h1 h2
            exact Or.inl rfl
          · exact Or.inr ⟨hm, hi⟩
    | null => simp
    | bool b => simp
    | int i => simp
    | list xs => simp
    | obj kvs => simp

/-- The keys of the tags of a map are among the keys of the map, in the same
order. -/
theorem entryTags_keys_sublist (l : List (String × Value)) :
    ((entryTags l).map (fun t => t.Key)).Sublist (l.map Prod.fst) := by
  induction l with
  | nil => simp [entryTags]
  | cons e rest ih =>
    obtain ⟨k, v⟩ := e
    cases v with
    | str s =>
      by_cases hig : tagIgnored { Key := k, Value := s } = true
      · have h : entryTags ((k, Value.str s) :: rest) = entryTags rest := by
          simp [entryTags, List.filterMap_cons, hig]
        rw [h, List.map_cons]
        exact List.Sublist.cons _ ih
      · have h : entryTags ((k, Value.str s) :: rest) =
            { Key := k, Value := s } :: entryTags rest := by
          simp [entryTags, List.filterMap_cons, hig]
        rw [h, List.map_cons, List.map_cons]
        exact List.Sublist.cons₂ _ ih
    | null =>
      have h : entryTags ((k, Value.null) :: rest) = entryTags rest := by
        simp [entryTags, List.filterMap_cons]
      rw [h, List.map_cons]
      exact List.Sublist.cons _ ih
    | bool b =>
      have h : entryTags ((k, Value.bool b) :: rest) = entryTags rest := by
        simp [entryTags, List.filterMap_cons]
      rw [h, List.map_cons]
      exact List.Sublist.cons _ ih
    | int i =>
      have h : entryTags ((k, Value.int i) :: rest) = entryTags rest := by
        simp [entryTags, List.filterMap_cons]
      rw [h, List.map_cons]
      exact List.Sublist.cons _ ih
    | list xs =>
      have h : entryTags ((k, Value.list xs) :: rest) = entryTags rest := by
        simp [entryTags, List.filterMap_cons]
      rw [h, List.map_cons]
      exact List.Sublist.cons _ ih
    | obj kvs =>
      have h : entryTags ((k, Value.obj kvs) :: rest) = entryTags rest := by
        simp [entryTags, List.filterMap_cons]
      rw [h, List.map_cons]
      exact List.Sublist.cons _ ih

/-- In a list of tags with pairwise distinct keys, a key has the value `v`
exactly when the tag `(k, v)` is in the list. -/
theorem lastValue_eq_some_iff_mem (ts : List Tag) (k v : String)
    (hnd : (ts.map (fun t => t.Key)).Nodup) :
    lastValue ts k = some v ↔ ({ Key := k, Value := v } : Tag) ∈ ts := by
  induction ts generalizing v with
  | nil => simp [lastValue]
  | cons t rest ih =>
    rw [List.map_cons, List.nodup_cons] at hnd
    rw [List.mem_cons]
    cases hl : lastValue rest k with
    | some w =>
      have hw : ({ Key := k, Value := w } : Tag) ∈ rest := (ih w hnd.2).1 hl
      have hlast : lastValue (t :: rest) k = some w := by simp [lastValue, hl]
      rw [hlast]
      constructor
      · intro hwv
        rw [Option.some.injEq] at hwv
        subst hwv
        exact Or.inr hw
      · rintro (ht | hm)
        · exfalso
          apply hnd.1
          have hk : t.Key = k := by rw [← ht]
          rw [hk]
          exact List.mem_map.2 ⟨_, hw, rfl⟩
        · have hv := (ih v hnd.2).2 hm
          rw [hl] at hv
          exact hv
    | none =>
      have hnot : ({ Key := k, Value := v } : Tag) ∉ rest := by
        intro hm
        have hv := (ih v hnd.2).2 hm
        rw [hl] at hv
        cases hv
      have hlast : lastValue (t :: rest) k = if t.Key = k then some t.Value else none := by
        simp [lastValue, hl]
      rw [hlast]
      constructor
      · intro h
        by_cases hk : t.Key = k
        · rw [if_pos hk, Option.some.injEq] at h
          left
          obtain ⟨tk, tv⟩ := t
          simp only at hk h
          rw [hk, h]
        · rw [if_neg hk] at h
          cases h
      · rintro (ht | hm)
        · rw [← ht]
          simp
        · exact absurd hm hnot

/-- Setting the tags of a list one after the other gives a key the value of
its last tag, and leaves the other keys as they were. -/
theorem setAll_apply (m : String → Option String) (ts : List Tag) (k : String) :
    setAll m ts k = match lastValue ts k with
      | some v => some v
      | none => m k := by
  unfold setAll
  induction ts generalizing m with
  | nil => rfl
  | cons t rest ih =>
    rw [List.foldl_cons, ih]
    cases hl : lastValue rest k with
    | some v => simp [lastValue, hl]
    | none =>
      by_cases hk : t.Key = k
      · simp [lastValue, hl, hk]
      · have hk2 : ¬ k = t.Key := fun e => hk e.symm
        simp [lastValue, hl, hk, hk2]

/-- The loop of `diffTags` over the old tags appends, in order, the old tags
whose key the map lacks or holds with another value. -/
theorem removeLoop_eq_filter (create : List (String × Value)) (oldTags remove : List Tag) :
    diffTags.removeLoop create oldTags remove =
      remove ++ oldTags.filter (fun t =>
        match create.lookup t.Key with
        | some old => ifaceNeString old t.Value
        | none => true) := by
  induction oldTags generalizing remove with
  | nil => simp [diffTags.removeLoop]
  | cons t rest ih =>
    cases hl : create.lookup t.Key with
    | none => simp [diffTags.removeLoop, hl, ih, List.filter_cons]
    | some old =>
      by_cases hne : ifaceNeString old t.Value = true
      · simp [diffTags.removeLoop, hl, ih, List.filter_cons, hne]
      · simp [diffTags.removeLoop, hl, ih, List.filter_cons, hne]

/-- Whatever the order of the `range`, the tags made from a map with pairwise
distinct keys give a key the string the map holds for it, unless the key begins
with "aws:". -/
theorem lastValue_entryTags (order : RangeOrder) (l : List (String × Value)) (k v : String)
    (hnd : (l.map Prod.fst).Nodup) :
    lastValue (entryTags (order.visit l)) k = some v ↔
      (k, Value.str v) ∈ l ∧ "aws:".data.isPrefixOf k.data = false := by
  have hperm := order.perm l
  have hnd2 : ((order.visit l).map Prod.fst).Nodup :=
    (List.Perm.nodup_iff (List.Perm.map Prod.fst hperm)).2 hnd
  have hnd3 : ((entryTags (order.visit l)).map (fun t => t.Key)).Nodup :=
    List.Nodup.sublist (entryTags_keys_sublist _) hnd2
  rw [lastValue_eq_some_iff_mem _ k v hnd3, mem_entryTags, List.Perm.mem_iff hperm]
  rfl

/-- The `remove` list and the `create` list of `diffTags`, in closed form:
`diffTags` never fails. -/
theorem diffTags_eq (order : RangeOrder) (oldTags newTags : List Tag) :
    diffTags order oldTags newTags =
      .ok (entryTags (order.visit
            (newTags.foldl (fun create t => mapSet create t.Key (.str t.Value)) [])),
          oldTags.filter (fun t => decide (lastValue newTags t.Key ≠ some t.Value))) := by
  have hstr : ∀ e ∈ order.visit
      (newTags.foldl (fun create t => mapSet create t.Key (.str t.Value)) []),
      ∃ s, e.2 = .str s := by
    intro e he
    rw [List.Perm.mem_iff (order.perm _)] at he
    exact createMap_values_str newTags [] (by simp) e he
  have hfilter : ∀ t : Tag,
      (match (newTags.foldl (fun create t => mapSet create t.Key (.str t.Value)) []).lookup
          t.Key with
        | some old => ifaceNeString old t.Value
        | none => true) = decide (lastValue newTags t.Key ≠ some t.Value) := by
    intro t
    rw [lookup_createMap]
    cases hl : lastValue newTags t.Key with
    | none => simp
    | some v =>
      by_cases hv : v = t.Value <;> simp [ifaceNeString, hv]
  simp only [diffTags, tagsFromMap, tagsFromMap_loop_ok _ [] hstr, removeLoop_eq_filter,
    hfilter, bind, Except.bind, pure, Except.pure, List.nil_append]

/-- A key has no value in a list of tags exactly when no tag has that key. -/
theorem lastValue_eq_none_iff (ts : List Tag) (k : String) :
    lastValue ts k = none ↔ k ∉ ts.map (fun t => t.Key) := by
  induction ts with
  | nil => simp [lastValue]
  | cons t rest ih =>
    cases hl : lastValue rest k with
    | some v =>
      have hin : k ∈ rest.map (fun t => t.Key) := by
        by_contra hno
        rw [ih.2 hno] at hl
        cases hl
      simp [lastValue, hl, hin]
    | none =>
      have hno := ih.1 hl
      by_cases hk : t.Key = k
      · simp [lastValue, hl, hk]
      · have hk2 : ¬ k = t.Key := fun e => hk e.symm
        simpa [lastValue, hl, hk, hk2] using hno

/-- The `create` list of `diffTags` gives a key the value of its last new tag,
unless the key begins with "aws:". -/
theorem lastValue_createList (order : RangeOrder) (newTags : List Tag) (k : String) :
    lastValue (entryTags (order.visit
        (newTags.foldl (fun create t => mapSet create t.Key (.str t.Value)) []))) k =
      if "aws:".data.isPrefixOf k.data then none else lastValue newTags k := by
  have hnd := createMap_keys_nodup newTags [] (by simp)
  apply Option.ext
  intro v
  simp only [Option.mem_def]
  rw [lastValue_entryTags order _ k v hnd, ← lookup_eq_some_iff_mem _ k _ hnd,
    lookup_createMap]
  cases hl : lastValue newTags k with
  | none => simp
  | some w =>
    by_cases hp : "aws:".data.isPrefixOf k.data = true
    · simp [hp]
    · simp [hp]

/-- C12: for all tag lists `oldTags` and `newTags` such that no key of
`newTags` begins with "aws:", and whatever the order in which Go ranges over
the map, `diffTags` returns lists `create` and `remove` such that deleting
from the old tag map every key that occurs in `remove` and then setting every
tag of `create` yields exactly the tag map of `newTags`.  The keys need not be
pairwise distinct: a repeated key counts with its last tag. -/
theorem diffTags_applied (order : RangeOrder) (oldTags newTags : List Tag)
    (haws : ∀ t ∈ newTags, tagIgnored t = false) :
    ∃ create remove, diffTags order oldTags newTags = .ok (create, remove) ∧
      setAll (deleteKeys (lastValue oldTags) remove) create = lastValue newTags := by
  refine ⟨_, _, diffTags_eq order oldTags newTags, ?_⟩
  funext k
  rw [setAll_apply, lastValue_createList]
  cases hl : lastValue newTags k with
  | some v =>
    have hk : k ∈ newTags.map (fun t => t.Key) := by
      by_contra hno
      rw [(lastValue_eq_none_iff newTags k).2 hno] at hl
      cases hl
    obtain ⟨t, ht, htk⟩ := List.mem_map.1 hk
    have hp : "aws:".data.isPrefixOf k.data = false := by
      have := haws t ht
      rw [← htk]
      exact this
    simp [hp]
  | none =>
    have hdel : deleteKeys (lastValue oldTags)
        (oldTags.filter (fun t => decide (lastValue newTags t.Key ≠ some t.Value))) k =
        none := by
      unfold deleteKeys
      by_cases hin : k ∈ (oldTags.filter
          (fun t => decide (lastValue newTags t.Key ≠ some t.Value))).map (fun t => t.Key)
      · rw [if_pos hin]
      · rw [if_neg hin]
        by_contra hsome
        have hk : k ∈ oldTags.map (fun t => t.Key) := by
          by_contra hno
          exact hsome ((lastValue_eq_none_iff oldTags k).2 hno)
        obtain ⟨t, ht, htk⟩ := List.mem_map.1 hk
        apply hin
        refine List.mem_map.2 ⟨t, ?_, htk⟩
        rw [List.mem_filter]
        refine ⟨ht, ?_⟩
        rw [htk, hl]
        simp
    by_cases hp : "aws:".data.isPrefixOf k.data = true
    · simp only [hp, if_true]
      exact hdel
    · simp only [hp, Bool.false_eq_true, if_false]
      exact hdel

/-- C12, on old tags a=1, b=2 and new tags a=1, b=3, c=4, ranging over the map
backwards: b=2 is removed, the three new tags are created, and applying both
gives the new tag map. -/
theorem diffTags_applied_witness :
    ∃ create remove,
      diffTags RangeOrder.backwards
          [{ Key := "a", Value := "1" }, { Key := "b", Value := "2" }]
          [{ Key := "a", Value := "1" }, { Key := "b", Value := "3" },
           { Key := "c", Value := "4" }] = .ok (create, remove) ∧
      setAll (deleteKeys
          (lastValue [{ Key := "a", Value := "1" }, { Key := "b", Value := "2" }]) remove)
          create =
        lastValue [{ Key := "a", Value := "1" }, { Key := "b", Value := "3" },
          { Key := "c", Value := "4" }] :=
  diffTags_applied RangeOrder.backwards
    [{ Key := "a", Value := "1" }, { Key := "b", Value := "2" }]
    [{ Key := "a", Value := "1" }, { Key := "b", Value := "3" }, { Key := "c", Value := "4" }]
    (by decide)

/-- C13: for all tag lists `oldTags` and `newTags`, the `remove` list that
`diffTags` returns is the sublist of `oldTags`, in the same order, of the tags
whose key does not occur in `newTags` (the key has no value there) or whose
value differs from the value `newTags` gives the key, the one of its last tag;
so an old tag to which `newTags` gives the same value is never removed. -/
theorem diffTags_remove (order : RangeOrder) (oldTags newTags : List Tag) :
    (∃ create, diffTags order oldTags newTags =
      .ok (create, oldTags.filter (fun t =>
        match lastValue newTags t.Key with
        | none => true
        | some v => decide (v ≠ t.Value)))) ∧
    (∀ k, lastValue newTags k = none ↔ k ∉ newTags.map (fun t => t.Key)) ∧
    (∀ t create remove, diffTags order oldTags newTags = .ok (create, remove) →
      lastValue newTags t.Key = some t.Value → t ∉ remove) := by
  have hpred : ∀ t : Tag, decide (lastValue newTags t.Key ≠ some t.Value) =
      (match lastValue newTags t.Key with
        | none => true
        | some v => decide (v ≠ t.Value)) := by
    intro t
    cases hl : lastValue newTags t.Key with
    | none => simp
    | some v => simp
  refine ⟨⟨entryTags (order.visit
      (newTags.foldl (fun create t => mapSet create t.Key (.str t.Value)) [])), ?_⟩,
    lastValue_eq_none_iff newTags, ?_⟩
  · rw [diffTags_eq]
    simp only [hpred]
  · intro t create remove hd hsame hmem
    rw [diffTags_eq] at hd
    simp only [Except.ok.injEq, Prod.mk.injEq] at hd
    rw [← hd.2, List.mem_filter] at hmem
    simp [hsame] at hmem

/-- C13, on old tags a=1, b=2, c=3 and new tags b=9, a=1, b=2: b counts with
its last value 2, so only c=3 is removed. -/
theorem diffTags_remove_witness :
    ({ Key := "b", Value := "2" } : Tag) ∉
      [({ Key := "c", Value := "3" } : Tag)] :=
  (diffTags_remove RangeOrder.inOrder
    [{ Key := "a", Value := "1" }, { Key := "b", Value := "2" }, { Key := "c", Value := "3" }]
    [{ Key := "b", Value := "9" }, { Key := "a", Value := "1" },
     { Key := "b", Value := "2" }]).2.2
    { Key := "b", Value := "2" }
    [{ Key := "b", Value := "2" }, { Key := "a", Value := "1" }]
    [{ Key := "c", Value := "3" }] rfl rfl

/-- Reading a `map[string]string` after an assignment. -/
theorem lookup_strMapSet (m : List (String × String)) (key k : String) (v : String) :
    (strMapSet m key v).lookup k = if k = key then some v else m.lookup k := by
  induction m with
  | nil =>
    by_cases h : k = key <;> simp [strMapSet, lookup_cons_eq, h]
  | cons kv rest ih =>
    obtain ⟨k1, w⟩ := kv
    by_cases h1 : k1 = key
    · subst h1
      by_cases h : k = k1 <;> simp [strMapSet, lookup_cons_eq, h]
    · by_cases h : k = key
      · subst h
        have h2 : ¬ k = k1 := fun e => h1 e.symm
        simp [strMapSet, lookup_cons_eq, h1, h2, ih]
      · by_cases h3 : k = k1 <;> simp [strMapSet, lookup_cons_eq, h1, h, h3, ih]

/-- The map `tagsToMap` builds gives a key the value of its last tag, unless
the key begins with "aws:". -/
theorem lookup_tagsToMap_from (ts : List Tag) (init : List (String × String)) (k : String) :
    (ts.foldl (fun result t =>
        if !tagIgnored t then strMapSet result t.Key t.Value else result) init).lookup k =
      match (if "aws:".data.isPrefixOf k.data then none else lastValue ts k) with
      | some v => some v
      | none => init.lookup k := by
  induction ts generalizing init with
  | nil =>
    by_cases hp : "aws:".data.isPrefixOf k.data = true <;> simp [lastValue, hp]
  | cons t rest ih =>
    rw [List.foldl_cons, ih]
    by_cases hp : "aws:".data.isPrefixOf k.data = true
    · simp only [hp, if_true]
      by_cases hig : tagIgnored t = true
      · simp [hig]
      · have hk : ¬ k = t.Key := by
          intro e
          apply hig
          rw [← hp, e]
          rfl
        simp [hig, lookup_strMapSet, hk]
    · simp only [hp, Bool.false_eq_true, if_false]
      cases hl : lastValue rest k with
      | some v => simp [lastValue, hl]
      | none =>
        by_cases hk : t.Key = k
        · have hig : tagIgnored t = false := by
            have : tagIgnored t = "aws:".data.isPrefixOf k.data := by
              rw [← hk]
              rfl
            rw [this]
            exact Bool.eq_false_iff.2 hp
          simp [lastValue, hl, hk, hig, lookup_strMapSet]
        · have hk2 : ¬ k = t.Key := fun e => hk e.symm
          by_cases hig : tagIgnored t = true <;>
            simp [lastValue, hl, hk, hk2, hig, lookup_strMapSet]

/-- C14: for every map `m` from string keys to string values (the entries
`ms`, with pairwise distinct keys) and whatever the order in which Go ranges
over it, `tagsFromMap` succeeds and `tagsToMap` of its result is `m` restricted
to the keys that do not begin with "aws:"; so it is `m` itself when no key
begins with "aws:". -/
theorem tagsToMap_tagsFromMap (order : RangeOrder) (ms : List (String × String))
    (hnd : (ms.map Prod.fst).Nodup) :
    ∃ ts, tagsFromMap order (ms.map (fun e => (e.1, Value.str e.2))) = .ok ts ∧
      (∀ k, (tagsToMap ts).lookup k =
        if "aws:".data.isPrefixOf k.data then none else ms.lookup k) ∧
      ((∀ k ∈ ms.map Prod.fst, "aws:".data.isPrefixOf k.data = false) →
        ∀ k, (tagsToMap ts).lookup k = ms.lookup k) := by
  have hkeys : (ms.map (fun e => (e.1, Value.str e.2))).map Prod.fst = ms.map Prod.fst := by
    rw [List.map_map]
    rfl
  have hnd2 : ((ms.map (fun e => (e.1, Value.str e.2))).map Prod.fst).Nodup := by
    rw [hkeys]
    exact hnd
  have hstr : ∀ e ∈ order.visit (ms.map (fun e => (e.1, Value.str e.2))),
      ∃ s, e.2 = .str s := by
    intro e he
    rw [List.Perm.mem_iff (order.perm _)] at he
    obtain ⟨x, _, hx⟩ := List.mem_map.1 he
    exact ⟨x.2, by rw [← hx]⟩
  have hres : ∀ k, (tagsToMap (entryTags
      (order.visit (ms.map (fun e => (e.1, Value.str e.2)))))).lookup k =
      if "aws:".data.isPrefixOf k.data then none else ms.lookup k := by
    intro k
    unfold tagsToMap
    rw [lookup_tagsToMap_from]
    by_cases hp : "aws:".data.isPrefixOf k.data = true
    · simp [hp]
    · simp only [hp, Bool.false_eq_true, if_false]
      have hsame : lastValue (entryTags
          (order.visit (ms.map (fun e => (e.1, Value.str e.2))))) k = ms.lookup k := by
        apply Option.ext
        intro v
        simp only [Option.mem_def]
        rw [lastValue_entryTags order _ k v hnd2, lookup_eq_some_iff_mem ms k v hnd]
        constructor
        · rintro ⟨hm, _⟩
          obtain ⟨x, hx, hxe⟩ := List.mem_map.1 hm
          simp only [Prod.mk.injEq, Value.str.injEq] at hxe
          have : x = (k, v) := Prod.ext hxe.1 hxe.2
          rw [← this]
          exact hx
        · intro hm
          exact ⟨List.mem_map.2 ⟨(k, v), hm, rfl⟩, Bool.eq_false_iff.2 hp⟩
      rw [hsame]
      cases ms.lookup k <;> rfl
  refine ⟨_, ?_, hres, ?_⟩
  · simp only [tagsFromMap, tagsFromMap_loop_ok _ [] hstr, List.nil_append]
  · intro hno k
    rw [hres k]
    by_cases hp : "aws:".data.isPrefixOf k.data = true
    · rw [if_pos hp]
      cases hl : ms.lookup k with
      | none => rfl
      | some v =>
        have hm := (lookup_eq_some_iff_mem ms k v hnd).1 hl
        have hk := hno k (List.mem_map.2 ⟨(k, v), hm, rfl⟩)
        rw [hk] at hp
        cases hp
    · rw [if_neg hp]

/-- C14, on the map with the entries env=prod and aws:stack=s1, ranging over it
backwards: the tags are made, and only env=prod comes back. -/
theorem tagsToMap_tagsFromMap_witness :
    ∃ ts, tagsFromMap RangeOrder.backwards
        ([("env", "prod"), ("aws:stack", "s1")].map (fun e => (e.1, Value.str e.2))) =
          .ok ts ∧
      (∀ k, (tagsToMap ts).lookup k =
        if "aws:".data.isPrefixOf k.data then none
        else [("env", "prod"), ("aws:stack", "s1")].lookup k) ∧
      ((∀ k ∈ [("env", "prod"), ("aws:stack", "s1")].map Prod.fst,
          "aws:".data.isPrefixOf k.data = false) →
        ∀ k, (tagsToMap ts).lookup k = [("env", "prod"), ("aws:stack", "s1")].lookup k) :=
  tagsToMap_tagsFromMap RangeOrder.backwards [("env", "prod"), ("aws:stack", "s1")]
    (by decide)

/-! ## RDS v3 instance: the `ha` entry of the create request -/

/-- A one-element path that resolves has found its key in the map. -/
theorem navigateValue_key_lookup (kvs : List (String × Value)) (idx : List (String × Nat))
    (k : String) (v : Value) (hi : idx.lookup k = none)
    (h : navigateValue (.obj kvs) [k] idx = .ok v) : kvs.lookup k = some v := by
  have hj : joinDots [k] = k := rfl
  cases hl : kvs.lookup k with
  | none => simp [navigateValue, navigateValue.walk, hl] at h
  | some w =>
    simp [navigateValue, navigateValue.walk, hl, hj, hi] at h
    rw [h]

/-- The `ha` map of a request that could be built, as a function of the value
of `ha_replication_mode`: empty exactly when that value is empty, and the pair
of "ha" and the replication mode when the value is a non-empty string. -/
theorem expandHa_ok (opts : List (String × Value)) (ha : Value)
    (h : expandRdsInstanceV3CreateHa (.obj opts) createArrayIndex = .ok ha) :
    ∃ v, opts.lookup "ha_replication_mode" = some v ∧ ha.isEmpty = v.isEmpty ∧
      ∀ s, v = .str s → s ≠ "" →
        ha = .obj [("mode", .str "ha"), ("replication_mode", .str s)] := by
  obtain ⟨v1, v2, h1, h2, hv⟩ :=
    nested_pair_ok "mode" "replication_mode" (by decide) _ _ ha h
  have hl := navigateValue_key_lookup opts createArrayIndex _ v2 (by decide) h2
  refine ⟨v2, hl, ?_, ?_⟩
  · simp only [expandRdsInstanceV3CreateHaMode, h2, bind, Except.bind] at h1
    subst hv
    cases v2 with
    | str s =>
      by_cases hs : s = ""
      · subst hs
        simp [pure, Except.pure] at h1
        subst h1
        simp [dropEmpty, Value.isEmpty]
      · simp [pure, Except.pure, hs] at h1
        subst h1
        simp [dropEmpty, Value.isEmpty, hs]
    | null =>
      simp [pure, Except.pure] at h1
      subst h1
      simp [dropEmpty, Value.isEmpty]
    | bool b =>
      simp [pure, Except.pure] at h1
      subst h1
      cases b <;> simp [dropEmpty, Value.isEmpty]
    | int i =>
      simp [pure, Except.pure] at h1
      subst h1
      by_cases hi : i = 0 <;> simp [dropEmpty, Value.isEmpty, hi]
    | list xs =>
      simp [pure, Except.pure] at h1
      subst h1
      cases xs <;> simp [dropEmpty, Value.isEmpty]
    | obj kvs =>
      simp [pure, Except.pure] at h1
      subst h1
      cases kvs <;> simp [dropEmpty, Value.isEmpty]
  · intro s hs hne
    subst hs
    simp only [expandRdsInstanceV3CreateHaMode, h2, bind, Except.bind] at h1
    simp [pure, Except.pure, hne] at h1
    subst h1
    rw [hv]
    simp [dropEmpty, Value.isEmpty, hne]

/-- C16: whenever `buildRdsInstanceV3CreateParameters` succeeds, the request
body holds the key "ha" exactly when the value of `ha_replication_mode` is not
empty; for the strings the schema gives that attribute this is: exactly when
`ha_replication_mode` is a non-empty string, and "ha" is then the map of mode
"ha" and replication_mode `ha_replication_mode`.  The entry is a function of
`ha_replication_mode` alone, so the flavor has no influence on it. -/
theorem buildCreateParameters_ha
    (expandRegion : Value → List (String × Nat) → Go Value)
    (opts : List (String × Value)) (body : Value)
    (h : buildRdsInstanceV3CreateParameters expandRegion opts createArrayIndex = .ok body) :
    ∃ params v, body = .obj params ∧ opts.lookup "ha_replication_mode" = some v ∧
      (params.lookup "ha" ≠ none ↔ v.isEmpty = false) ∧
      (∀ s, v = .str s →
        (params.lookup "ha" ≠ none ↔ s ≠ "") ∧
        params.lookup "ha" =
          if s = "" then none
          else some (.obj [("mode", .str "ha"), ("replication_mode", .str s)])) := by
  simp only [buildRdsInstanceV3CreateParameters, putUnlessEmpty_bind_ok] at h
  obtain ⟨az, -, bs, -, cfg, -, ds, -, dek, -, fl, -, ha, hha, nm, -, pw, -,
    pt, -, rg, -, sg, -, sn, -, vol, -, vpc, -, hbody⟩ := h
  simp only [pure, Except.pure, Except.ok.injEq] at hbody
  obtain ⟨v, hv, hempty, hstr⟩ := expandHa_ok opts ha hha
  have hlook : ∀ params, Value.obj params = body →
      params.lookup "ha" = if ha.isEmpty then none else some ha := by
    intro params hp
    rw [← hbody] at hp
    simp only [Value.obj.injEq] at hp
    rw [hp]
    simp [lookup_setUnlessEmpty]
  refine ⟨_, v, hbody.symm, hv, ?_, ?_⟩
  · rw [hlook _ hbody, hempty]
    cases v.isEmpty <;> simp
  · intro s hs
    subst hs
    rw [hlook _ hbody, hempty]
    by_cases hne : s = ""
    · simp [Value.isEmpty, hne]
    · have := hstr s rfl hne
      simp [Value.isEmpty, hne, this]

/-- C16, on `sampleReplicatedOpts`, whose flavor does not end in ".ha" while
`ha_replication_mode` is "async": the builder yields `sampleReplicatedBody`,
with the "ha" entry. -/
theorem buildCreateParameters_ha_witness :
    buildRdsInstanceV3CreateParameters (fun d idx => navigateValue d ["region"] idx)
        sampleReplicatedOpts createArrayIndex = .ok sampleReplicatedBody ∧
    ∃ params v, sampleReplicatedBody = .obj params ∧
      sampleReplicatedOpts.lookup "ha_replication_mode" = some v ∧
      (params.lookup "ha" ≠ none ↔ v.isEmpty = false) ∧
      (∀ s, v = .str s →
        (params.lookup "ha" ≠ none ↔ s ≠ "") ∧
        params.lookup "ha" =
          if s = "" then none
          else some (.obj [("mode", .str "ha"), ("replication_mode", .str s)])) :=
  ⟨rfl, buildCreateParameters_ha (fun d idx => navigateValue d ["region"] idx)
    sampleReplicatedOpts sampleReplicatedBody rfl⟩

/-! ## RDS v3 instance: availability zones read back -/

/-- A path into the node `j` of the instance found by list, when it resolves,
yields the entry `c` of that node. -/
theorem navigateValue_node_ok (d : Value) (j : Nat) (c : String) (v : Value)
    (hc : List.lookup (joinDots ["list", "nodes", c]) [("list.nodes", j)] = none)
    (h : navigateValue d ["list", "nodes", c] [("list.nodes", j)] = .ok v) :
    v = (((d.field "list").field "nodes").elem j).field c := by
  have h1 : List.lookup (joinDots ["list"]) [("list.nodes", j)] = none := rfl
  have h2 : List.lookup (joinDots ["list", "nodes"]) [("list.nodes", j)] = some j := rfl
  cases d with
  | null =>
    simp [navigateValue, navigateValue.walk] at h
    subst h
    rfl
  | bool b => simp [navigateValue, navigateValue.walk] at h
  | int i => simp [navigateValue, navigateValue.walk] at h
  | str s => simp [navigateValue, navigateValue.walk] at h
  | list xs => simp [navigateValue, navigateValue.walk] at h
  | obj kvs =>
    cases hl : kvs.lookup "list" with
    | none => simp [navigateValue, navigateValue.walk, hl] at h
    | some l =>
      cases l with
      | null =>
        simp [navigateValue, navigateValue.walk, hl, h1] at h
        subst h
        simp [Value.field, Value.elem, hl]
      | bool b => simp [navigateValue, navigateValue.walk, hl, h1] at h
      | int i => simp [navigateValue, navigateValue.walk, hl, h1] at h
      | str s => simp [navigateValue, navigateValue.walk, hl, h1] at h
      | list xs => simp [navigateValue, navigateValue.walk, hl, h1] at h
      | obj lkvs =>
        cases hn : lkvs.lookup "nodes" with
        | none => simp [navigateValue, navigateValue.walk, hl, h1, hn] at h
        | some ns =>
          cases ns with
          | null =>
            simp [navigateValue, navigateValue.walk, hl, h1, hn, h2] at h
            subst h
            simp [Value.field, Value.elem, hl, hn]
          | bool b => simp [navigateValue, navigateValue.walk, hl, h1, hn, h2] at h
          | int i => simp [navigateValue, navigateValue.walk, hl, h1, hn, h2] at h
          | str s => simp [navigateValue, navigateValue.walk, hl, h1, hn, h2] at h
          | obj o => simp [navigateValue, navigateValue.walk, hl, h1, hn, h2] at h
          | list d2 =>
            cases d2 with
            | nil =>
              simp [navigateValue, navigateValue.walk, hl, h1, hn, h2] at h
              subst h
              simp [Value.field, Value.elem, hl, hn]
            | cons x0 xs =>
              cases hx : (x0 :: xs)[j]? with
              | none => simp [navigateValue, navigateValue.walk, hl, h1, hn, h2, hx] at h
              | some x =>
                cases x with
                | null =>
                  simp [navigateValue, navigateValue.walk, hl, h1, hn, h2, hx] at h
                  subst h
                  simp [Value.field, Value.elem, hl, hn, hx]
                | bool b =>
                  simp [navigateValue, navigateValue.walk, hl, h1, hn, h2, hx] at h
                | int i =>
                  simp [navigateValue, navigateValue.walk, hl, h1, hn, h2, hx] at h
                | str s =>
                  simp [navigateValue, navigateValue.walk, hl, h1, hn, h2, hx] at h
                | list ys =>
                  simp [navigateValue, navigateValue.walk, hl, h1, hn, h2, hx] at h
                | obj nkvs =>
                  cases hf : nkvs.lookup c with
                  | none =>
                    simp [navigateValue, navigateValue.walk, hl, h1, hn, h2, hx, hf] at h
                  | some y =>
                    simp [navigateValue, navigateValue.walk, hl, h1, hn, h2, hx, hf, hc] at h
                    subst h
                    simp [Value.field, Value.elem, hl, hn, hx, hf]

/-- A two-element path without array index, when it resolves, yields the entry
of the entry. -/
theorem navigateValue_key_key_ok (d : Value) (a b : String) (v : Value)
    (h : navigateValue d [a, b] [] = .ok v) : v = (d.field a).field b := by
  cases d with
  | null =>
    simp [navigateValue, navigateValue.walk] at h
    subst h
    rfl
  | bool x => simp [navigateValue, navigateValue.walk] at h
  | int x => simp [navigateValue, navigateValue.walk] at h
  | str x => simp [navigateValue, navigateValue.walk] at h
  | list x => simp [navigateValue, navigateValue.walk] at h
  | obj kvs =>
    cases hl : kvs.lookup a with
    | none => simp [navigateValue, navigateValue.walk, hl] at h
    | some l =>
      cases l with
      | null =>
        simp [navigateValue, navigateValue.walk, hl] at h
        subst h
        simp [Value.field, hl]
      | bool x => simp [navigateValue, navigateValue.walk, hl] at h
      | int x => simp [navigateValue, navigateValue.walk, hl] at h
      | str x => simp [navigateValue, navigateValue.walk, hl] at h
      | list x => simp [navigateValue, navigateValue.walk, hl] at h
      | obj lkvs =>
        cases hf : lkvs.lookup b with
        | none => simp [navigateValue, navigateValue.walk, hl, hf] at h
        | some y =>
          simp [navigateValue, navigateValue.walk, hl, hf] at h
          subst h
          simp [Value.field, hl, hf]

/-- A wrapped call that yields a value is a call that yields that value. -/
theorem errorf_ok {α : Type} (label : String) (r : Go α) (a : α)
    (h : errorf label r = .ok a) : r = .ok a := by
  cases r with
  | ok b => exact h
  | error e =>
    cases e with
    | err text => simp [errorf] at h
    | panic what => simp [errorf] at h

/-- A type assertion to string that succeeds was made on that string. -/
theorem assertString_ok (v : Value) (s : String) (h : v.assertString = .ok s) :
    v = .str s := by
  cases v with
  | str x =>
    simp only [Value.assertString, Except.ok.injEq] at h
    rw [h]
  | null => simp [Value.assertString] at h
  | bool b => simp [Value.assertString] at h
  | int i => simp [Value.assertString] at h
  | list xs => simp [Value.assertString] at h
  | obj kvs => simp [Value.assertString] at h

/-- A Go call followed by more code succeeds exactly when the call yields a
value on which the code that follows succeeds. -/
theorem bind_eq_ok {α β : Type} (r : Go α) (f : α → Go β) (b : β) :
    (r >>= f) = .ok b ↔ ∃ a, r = .ok a ∧ f a = .ok b := by
  cases r with
  | error e =>
    constructor
    · intro h
      cases h
    · rintro ⟨a, ha, _⟩
      cases ha
  | ok a =>
    constructor
    · intro h
      exact ⟨a, rfl, h⟩
    · rintro ⟨w, hw, h⟩
      cases hw
      exact h

/-- What `flattenRdsInstanceV3AvailabilityZone` has read when it succeeds: the
flavor, the zone of node 0 and, for a flavor ending in ".ha", the zone and the
role of node 1. -/
theorem flattenAvailabilityZone_ok (d : Value) (zs : List String)
    (h : flattenRdsInstanceV3AvailabilityZone d = .ok zs) :
    ∃ flavor az0,
      (d.field "list").field "flavor_ref" = .str flavor ∧
      ((((d.field "list").field "nodes").elem 0).field "availability_zone") = .str az0 ∧
      (hasSuffix flavor ".ha" = false → zs = [az0]) ∧
      (hasSuffix flavor ".ha" = true → ∃ az1 role1,
        ((((d.field "list").field "nodes").elem 1).field "availability_zone") = .str az1 ∧
        ((((d.field "list").field "nodes").elem 1).field "role") = .str role1 ∧
        zs = if role1 = "master" then [az1, az0] else [az0, az1]) := by
  simp only [flattenRdsInstanceV3AvailabilityZone, bind_eq_ok] at h
  obtain ⟨v0, hv0, az0, haz0, vf, hvf, flavor, hflavor, hrest⟩ := h
  have e0 := navigateValue_node_ok d 0 "availability_zone" v0 (by decide) (errorf_ok _ _ _ hv0)
  have ef := navigateValue_key_key_ok d "list" "flavor_ref" vf (errorf_ok _ _ _ hvf)
  have s0 := assertString_ok v0 az0 haz0
  have sf := assertString_ok vf flavor hflavor
  refine ⟨flavor, az0, by rw [← ef, sf], by rw [← e0, s0], ?_, ?_⟩
  · intro hno
    simp only [hno, Bool.false_eq_true, if_false, pure, Except.pure, Except.ok.injEq] at hrest
    exact hrest.symm
  · intro hha
    simp only [hha, if_true, bind_eq_ok] at hrest
    obtain ⟨v1, hv1, az1, haz1, vr, hvr, role1, hrole1, hzs⟩ := hrest
    have e1 := navigateValue_node_ok d 1 "availability_zone" v1 (by decide)
      (errorf_ok _ _ _ hv1)
    have er := navigateValue_node_ok d 1 "role" vr (by decide) (errorf_ok _ _ _ hvr)
    have s1 := assertString_ok v1 az1 haz1
    have sr := assertString_ok vr role1 hrole1
    refine ⟨az1, role1, by rw [← e1, s1], by rw [← er, sr], ?_⟩
    by_cases hm : role1 = "master"
    · simp only [hm, if_true, pure, Except.pure, Except.ok.injEq] at hzs
      simp [hm, hzs.symm]
    · simp only [hm, if_false, pure, Except.pure, Except.ok.injEq] at hzs
      simp [hm, hzs.symm]

/-- C17: whenever `flattenRdsInstanceV3AvailabilityZone` succeeds on an API
response: if `flavor_ref` does not end in ".ha" the result is the one-element
list of the availability zone of node 0; if `flavor_ref` ends in ".ha" the
result has exactly two elements, and when exactly one of the nodes 0 and 1 has
the role "master", the first element is the availability zone of the master
node and the second is the one of the other node. -/
theorem flattenAvailabilityZone_result (d : Value) (zs : List String)
    (h : flattenRdsInstanceV3AvailabilityZone d = .ok zs) :
    ∃ flavor az0, (d.field "list").field "flavor_ref" = .str flavor ∧
      ((((d.field "list").field "nodes").elem 0).field "availability_zone") = .str az0 ∧
      (hasSuffix flavor ".ha" = false → zs = [az0]) ∧
      (hasSuffix flavor ".ha" = true → ∃ az1,
        ((((d.field "list").field "nodes").elem 1).field "availability_zone") = .str az1 ∧
        zs.length = 2 ∧
        (((((d.field "list").field "nodes").elem 0).field "role") = .str "master" →
          ((((d.field "list").field "nodes").elem 1).field "role") ≠ .str "master" →
          zs = [az0, az1]) ∧
        (((((d.field "list").field "nodes").elem 1).field "role") = .str "master" →
          ((((d.field "list").field "nodes").elem 0).field "role") ≠ .str "master" →
          zs = [az1, az0])) := by
  obtain ⟨flavor, az0, hf, h0, hsingle, hha⟩ := flattenAvailabilityZone_ok d zs h
  refine ⟨flavor, az0, hf, h0, hsingle, ?_⟩
  intro hsuffix
  obtain ⟨az1, role1, h1, hr, hzs⟩ := hha hsuffix
  refine ⟨az1, h1, ?_, ?_, ?_⟩
  · rw [hzs]
    by_cases hm : role1 = "master" <;> simp [hm]
  · intro _ hnot
    have hm : role1 ≠ "master" := by
      intro e
      apply hnot
      rw [hr, e]
    rw [hzs, if_neg hm]
  · intro hmaster _
    have hm : role1 = "master" := by
      rw [hr] at hmaster
      simp only [Value.str.injEq] at hmaster
      exact hmaster
    rw [hzs, if_pos hm]

/-- C17, on `sampleHaResponse`, whose node 1 is the master: the zone of node 1
comes first. -/
theorem flattenAvailabilityZone_result_witness :
    flattenRdsInstanceV3AvailabilityZone sampleHaResponse = .ok ["eu-de-02", "eu-de-01"] ∧
    ∃ flavor az0, (sampleHaResponse.field "list").field "flavor_ref" = .str flavor ∧
      ((((sampleHaResponse.field "list").field "nodes").elem 0).field "availability_zone") =
        .str az0 ∧
      (hasSuffix flavor ".ha" = false → ["eu-de-02", "eu-de-01"] = [az0]) ∧
      (hasSuffix flavor ".ha" = true → ∃ az1,
        ((((sampleHaResponse.field "list").field "nodes").elem 1).field
          "availability_zone") = .str az1 ∧
        ["eu-de-02", "eu-de-01"].length = 2 ∧
        (((((sampleHaResponse.field "list").field "nodes").elem 0).field "role") =
            .str "master" →
          ((((sampleHaResponse.field "list").field "nodes").elem 1).field "role") ≠
            .str "master" →
          ["eu-de-02", "eu-de-01"] = [az0, az1]) ∧
        (((((sampleHaResponse.field "list").field "nodes").elem 1).field "role") =
            .str "master" →
          ((((sampleHaResponse.field "list").field "nodes").elem 0).field "role") ≠
            .str "master" →
          ["eu-de-02", "eu-de-01"] = [az1, az0])) :=
  ⟨rfl, flattenAvailabilityZone_result sampleHaResponse ["eu-de-02", "eu-de-01"] rfl⟩

/-- On a configuration with a flavor ending in ".ha" and two zones, the
create side joins the zones with a comma; with another flavor and one zone it
returns the zone. -/
theorem expandAvailabilityZone_joined (kvs : List (String × Value))
    (idx : List (String × Nat)) (flavor : String) (zs : List String)
    (hflavor : kvs.lookup "flavor" = some (.str flavor))
    (hzones : kvs.lookup "availability_zone" = some (.list (zs.map .str)))
    (hidx : idx.lookup "availability_zone" = none ∧ idx.lookup "flavor" = none)
    (hlen : zs.length = if hasSuffix flavor ".ha" then 2 else 1) :
    expandRdsInstanceV3CreateAvailabilityZone (.obj kvs) idx =
      .ok (.str (",".intercalate zs)) := by
  have h1 := navigateValue_key kvs idx "availability_zone" _ hzones hidx.1
  have h2 := navigateValue_key kvs idx "flavor" _ hflavor hidx.2
  by_cases hha : hasSuffix flavor ".ha" = true
  · rw [if_pos hha] at hlen
    match zs, hlen with
    | [a, b], _ =>
      have hj : ",".intercalate [a, b] = a ++ "," ++ b := rfl
      simp only [expandRdsInstanceV3CreateAvailabilityZone, h1, h2, hj]
      simp [bind, Except.bind, Value.assertString, hha, sliceIndex, pure, Except.pure]
  · rw [if_neg hha] at hlen
    match zs, hlen with
    | [a], _ =>
      have hj : ",".intercalate [a] = a := rfl
      simp only [expandRdsInstanceV3CreateAvailabilityZone, h1, h2, hj]
      simp [bind, Except.bind, Value.assertString, hha, sliceIndex, pure, Except.pure]

/-- C18: read and create agree on availability zones: whenever
`flattenRdsInstanceV3AvailabilityZone` succeeds on an API response with the
result `zs`, `expandRdsInstanceV3CreateAvailabilityZone` succeeds on every
configuration whose `availability_zone` is `zs` as a list of strings and whose
`flavor` is the `flavor_ref` of the response, and returns the elements of `zs`
joined by ",". -/
theorem flatten_expand_agree (d : Value) (zs : List String) (kvs : List (String × Value))
    (h : flattenRdsInstanceV3AvailabilityZone d = .ok zs)
    (hzones : kvs.lookup "availability_zone" = some (.list (zs.map .str)))
    (hflavor : kvs.lookup "flavor" = some ((d.field "list").field "flavor_ref")) :
    expandRdsInstanceV3CreateAvailabilityZone (.obj kvs) createArrayIndex =
      .ok (.str (",".intercalate zs)) := by
  obtain ⟨flavor, az0, hf, -, hsingle, hha⟩ := flattenAvailabilityZone_ok d zs h
  rw [hf] at hflavor
  apply expandAvailabilityZone_joined kvs createArrayIndex flavor zs hflavor hzones
    ⟨by decide, by decide⟩
  by_cases hs : hasSuffix flavor ".ha" = true
  · obtain ⟨az1, role1, -, -, hzs⟩ := hha hs
    rw [if_pos hs, hzs]
    by_cases hm : role1 = "master" <;> simp [hm]
  · rw [if_neg hs, hsingle (Bool.eq_false_iff.2 hs)]
    rfl

/-- C18, on `sampleHaResponse` and the configuration made of its zones and its
flavor: the create side returns "eu-de-02,eu-de-01". -/
theorem flatten_expand_agree_witness :
    expandRdsInstanceV3CreateAvailabilityZone
        (.obj [("availability_zone", .list [.str "eu-de-02", .str "eu-de-01"]),
               ("flavor", .str "rds.pg.c2.medium.ha")]) createArrayIndex =
      .ok (.str (",".intercalate ["eu-de-02", "eu-de-01"])) :=
  flatten_expand_agree sampleHaResponse ["eu-de-02", "eu-de-01"]
    [("availability_zone", .list [.str "eu-de-02", .str "eu-de-01"]),
     ("flavor", .str "rds.pg.c2.medium.ha")] rfl rfl rfl

/-! ## Public IP of an RDS v3 instance -/

/-- C20: on a port list in which every port has at least one fixed IP,
`findPort` ends without a panic and returns the ID of the first port, in list
order, whose first fixed IP has the address `privateIP` and the subnet
`subnetID`, or the empty ID when there is no such port; the result is a
function of the IDs and of the first fixed IPs only, so no other fixed IP of a
port is considered. -/
theorem findPort_first (client : NetworkClient) (ports : List Port)
    (privateIP subnetID : String) (hlist : client.listPorts = .ok ports)
    (hfixed : ∀ p ∈ ports, p.FixedIPs ≠ []) :
    findPort client privateIP subnetID =
      .ok (((ports.find? (fun p =>
        match p.FixedIPs.head? with
        | some a => decide (a.IPAddress = privateIP ∧ a.SubnetID = subnetID)
        | none => false)).map (fun p => p.ID)).getD "") := by
  simp only [findPort, hlist]
  clear hlist
  induction ports with
  | nil => rfl
  | cons p rest ih =>
    have hrest : ∀ q ∈ rest, q.FixedIPs ≠ [] :=
      fun q hq => hfixed q (List.mem_cons_of_mem _ hq)
    have hp := hfixed p (List.mem_cons_self _ _)
    cases hf : p.FixedIPs with
    | nil => exact absurd hf hp
    | cons a more =>
      by_cases hm : a.IPAddress = privateIP ∧ a.SubnetID = subnetID
      · simp [findPort.loop, hf, hm, List.find?_cons]
      · have hd : decide (a.IPAddress = privateIP ∧ a.SubnetID = subnetID) = false := by
          simpa using hm
        simp only [findPort.loop, hf, List.getElem?_cons_zero, hm, if_false,
          List.find?_cons, List.head?_cons, hd]
        exact ih hrest

/-- C20, on two ports of which the second has the private IP as its first
fixed IP, the first only as its second: the ID of the second port is returned. -/
theorem findPort_first_witness :
    findPort
        { listPorts := .ok
            [ { ID := "port-1", FixedIPs := [⟨"subnet-1", "192.168.0.9"⟩,
                ⟨"subnet-1", "192.168.0.5"⟩] },
              { ID := "port-2", FixedIPs := [⟨"subnet-1", "192.168.0.5"⟩] } ],
          listFloatingIPs := fun _ => .ok [],
          updateFloatingIP := fun _ _ => none }
        "192.168.0.5" "subnet-1" = .ok "port-2" :=
  findPort_first
    { listPorts := .ok
        [ { ID := "port-1", FixedIPs := [⟨"subnet-1", "192.168.0.9"⟩,
            ⟨"subnet-1", "192.168.0.5"⟩] },
          { ID := "port-2", FixedIPs := [⟨"subnet-1", "192.168.0.5"⟩] } ],
      listFloatingIPs := fun _ => .ok [],
      updateFloatingIP := fun _ _ => none }
    [ { ID := "port-1", FixedIPs := [⟨"subnet-1", "192.168.0.9"⟩,
        ⟨"subnet-1", "192.168.0.5"⟩] },
      { ID := "port-2", FixedIPs := [⟨"subnet-1", "192.168.0.5"⟩] } ]
    "192.168.0.5" "subnet-1" rfl (by decide)

/-- C19 fails on the code: on the list `sampleFloatingIPs`, the address
80.158.0.10 and the port "port-2", the second floating IP satisfies both
conditions and `findFloatingIP` returns the ID of the first one, "fip-a", which
is bound to another port; no floating IP of the list with that ID is bound to
"port-2". -/
theorem findFloatingIP_returns_first :
    findFloatingIP
        { listPorts := .ok [], listFloatingIPs := fun _ => .ok sampleFloatingIPs,
          updateFloatingIP := fun _ _ => none }
        "80.158.0.10" "port-2" = .ok "fip-a" ∧
    (∀ ip ∈ sampleFloatingIPs, ip.ID = "fip-a" → ip.PortID ≠ "port-2") ∧
    (∃ ip ∈ sampleFloatingIPs, ip.FloatingIP = "80.158.0.10" ∧ ip.PortID = "port-2" ∧
      ip.ID = "fip-b") := by
  refine ⟨rfl, by decide, by decide⟩

/-- C15 fails on the code: with `public_ips` changed from no address to the
one address 80.158.0.10, `assignEipToInstance` fails on `sampleNetwork`, and
`resourceRdsInstanceV3Update` still returns what the final read returns, here no
error. -/
theorem update_drops_assign_error :
    assignEipToInstance sampleNetwork "80.158.0.10" "192.168.0.5" "subnet-1" =
      some (.err "Expected HTTP response code [200]") ∧
    (resourceRdsInstanceV3Update.publicIPs sampleNetwork (.ok (fun _ => .ok "subnet-1"))
      (.ok sampleRdsClient) (fun _ d => (d, none)) [] ["80.158.0.10"]
      sampleInstanceData).2 = none := by
  constructor
  · rfl
  · rfl

/-! ## Tags: the `create` list -/

/-- C24: for all tag lists `oldTags` and `newTags`, and whatever the order in
which Go ranges over the map, the `create` list that `diffTags` returns holds,
as a map, exactly the keys of `newTags` that do not begin with "aws:": each of
them once, with the value of its last tag in `newTags`.  The list is the same
for every `oldTags`, so a tag is in it even when `oldTags` already holds it
with the same value. -/
theorem diffTags_create (order : RangeOrder) (oldTags newTags : List Tag) :
    ∃ create remove, diffTags order oldTags newTags = .ok (create, remove) ∧
      (create.map (fun t => t.Key)).Nodup ∧
      (∀ k v, ({ Key := k, Value := v } : Tag) ∈ create ↔
        lastValue newTags k = some v ∧ "aws:".data.isPrefixOf k.data = false) ∧
      (∀ k, k ∈ create.map (fun t => t.Key) ↔
        k ∈ newTags.map (fun t => t.Key) ∧ "aws:".data.isPrefixOf k.data = false) ∧
      (∀ oldTags2, ∃ remove2, diffTags order oldTags2 newTags = .ok (create, remove2)) ∧
      (∀ t ∈ oldTags, lastValue newTags t.Key = some t.Value → tagIgnored t = false →
        t ∈ create) := by
  have hnd0 := createMap_keys_nodup newTags [] (by simp)
  have hnd : ((entryTags (order.visit (newTags.foldl
      (fun create t => mapSet create t.Key (.str t.Value)) []))).map
      (fun t => t.Key)).Nodup := by
    have hperm := order.perm (newTags.foldl
      (fun create t => mapSet create t.Key (.str t.Value)) [])
    exact List.Nodup.sublist (entryTags_keys_sublist _)
      ((List.Perm.nodup_iff (List.Perm.map Prod.fst hperm)).2 hnd0)
  have hmem : ∀ k v, ({ Key := k, Value := v } : Tag) ∈ entryTags (order.visit
      (newTags.foldl (fun create t => mapSet create t.Key (.str t.Value)) [])) ↔
      lastValue newTags k = some v ∧ "aws:".data.isPrefixOf k.data = false := by
    intro k v
    rw [← lastValue_eq_some_iff_mem _ k v hnd, lastValue_createList]
    by_cases hp : "aws:".data.isPrefixOf k.data = true
    · simp [hp]
    · simp [hp]
  refine ⟨_, _, diffTags_eq order oldTags newTags, hnd, hmem, ?_, ?_, ?_⟩
  · intro k
    constructor
    · intro hk
      obtain ⟨t, ht, htk⟩ := List.mem_map.1 hk
      obtain ⟨tk, tv⟩ := t
      simp only at htk
      subst htk
      have h := (hmem tk tv).1 ht
      refine ⟨?_, h.2⟩
      by_contra hno
      rw [(lastValue_eq_none_iff newTags tk).2 hno] at h
      exact absurd h.1 (by simp)
    · rintro ⟨hk, hp⟩
      cases hl : lastValue newTags k with
      | none => exact absurd hk ((lastValue_eq_none_iff newTags k).1 hl)
      | some v => exact List.mem_map.2 ⟨_, (hmem k v).2 ⟨hl, hp⟩, rfl⟩
  · intro oldTags2
    exact ⟨_, diffTags_eq order oldTags2 newTags⟩
  · intro t _ hsame hig
    obtain ⟨tk, tv⟩ := t
    exact (hmem tk tv).2 ⟨hsame, hig⟩

/-- C24, on the old tag a=1 and the new tags a=1, aws:x=2, b=3, b=4: the
`create` list holds a=1, although the old tags hold it already, and b once. -/
theorem diffTags_create_witness :
    ∃ create remove,
      diffTags RangeOrder.inOrder [{ Key := "a", Value := "1" }]
          [{ Key := "a", Value := "1" }, { Key := "aws:x", Value := "2" },
           { Key := "b", Value := "3" }, { Key := "b", Value := "4" }] =
        .ok (create, remove) ∧
      (create.map (fun t => t.Key)).Nodup ∧
      ({ Key := "a", Value := "1" } : Tag) ∈ create :=
  match diffTags_create RangeOrder.inOrder [{ Key := "a", Value := "1" }]
      [{ Key := "a", Value := "1" }, { Key := "aws:x", Value := "2" },
       { Key := "b", Value := "3" }, { Key := "b", Value := "4" }] with
  | ⟨create, remove, heq, hnd, _, _, _, hold⟩ =>
    ⟨create, remove, heq, hnd,
      hold { Key := "a", Value := "1" } (List.mem_singleton.2 rfl) rfl rfl⟩

/-! ## RDS v3 instance: unassigning the public IP on update -/

/-- The loop of `findFloatingIP` over a list that is not empty does not panic:
element 0 of the list exists. -/
theorem findFloatingIP_loop_no_panic (floatingIPs : List FloatingIP) (address portID : String)
    (hne : floatingIPs ≠ []) (rest : List FloatingIP) (what : String) :
    findFloatingIP.loop floatingIPs address portID rest ≠ .error (.panic what) := by
  induction rest with
  | nil => simp [findFloatingIP.loop]
  | cons ip rest ih =>
    cases floatingIPs with
    | nil => exact absurd rfl hne
    | cons first more =>
      simp only [findFloatingIP.loop]
      split
      · exact ih
      · split
        · exact ih
        · simp

/-- Function `findFloatingIP` does not panic. -/
theorem findFloatingIP_no_panic (client : NetworkClient) (address portID what : String) :
    findFloatingIP client address portID ≠ .error (.panic what) := by
  simp only [findFloatingIP]
  split
  · simp
  · rename_i floatingIPs _
    split
    · simp
    · rename_i hlen
      exact findFloatingIP_loop_no_panic floatingIPs address portID
        (fun h => hlen (by simp [h])) floatingIPs what

/-- Function `unassignEipFromInstance` does not panic. -/
theorem unassignEipFromInstance_no_panic (client : NetworkClient) (oldPublicIP what : String) :
    unassignEipFromInstance client oldPublicIP ≠ some (.panic what) := by
  simp only [unassignEipFromInstance]
  split
  · rename_i e he
    intro h
    exact findFloatingIP_no_panic client oldPublicIP "" what
      (by rw [he, Option.some.inj h])
  · cases client.updateFloatingIP _ none <;> simp

/-- C21: in `resourceRdsInstanceV3Update`, whenever `public_ips` has changed
(the old list differs from the new list) and the new list is empty, the old
list is not empty, so `oldIPs[0]` is within range, and the calls the handler
makes from there are exactly two: `unassignEipFromInstance` on that first
address of the old list, then the final read, of which it returns the result.
When the first floating IP that the networking API lists for that address has
the address, it is the floating IP that `unassignEipFromInstance` takes off
its port. -/
theorem update_unassign_in_range (nw : NetworkClient)
    (subnetClient : Except GoErr (String → Except GoErr String))
    (rdsV3Client : Except GoErr ServiceClient)
    (setProperties : Value → RdsInstanceData → RdsInstanceData × Option Fault)
    (oldIPs newIPs : List String) (d : RdsInstanceData)
    (hchange : oldIPs ≠ newIPs) (hnew : newIPs = []) :
    ∃ oldIP rest, oldIPs = oldIP :: rest ∧ oldIPs[0]? = some oldIP ∧
      resourceRdsInstanceV3Update.publicIPsTraced nw subnetClient rdsV3Client setProperties
          oldIPs newIPs d =
        ([UpdateCall.unassignEip oldIP, UpdateCall.read],
          resourceRdsInstanceV3Read rdsV3Client setProperties d) ∧
      resourceRdsInstanceV3Update.publicIPs nw subnetClient rdsV3Client setProperties
          oldIPs newIPs d =
        resourceRdsInstanceV3Read rdsV3Client setProperties d ∧
      (∀ first more,
        nw.listFloatingIPs { FloatingIP := oldIP, PortID := "" } = .ok (first :: more) →
        first.FloatingIP = oldIP →
        unassignEipFromInstance nw oldIP =
          (nw.updateFloatingIP first.ID none).map (fun err => Fault.err err.Error)) := by
  subst hnew
  cases oldIPs with
  | nil => exact absurd rfl hchange
  | cons oldIP rest =>
    have htrace :
        resourceRdsInstanceV3Update.publicIPsTraced nw subnetClient rdsV3Client setProperties
            (oldIP :: rest) [] d =
          ([UpdateCall.unassignEip oldIP, UpdateCall.read],
            resourceRdsInstanceV3Read rdsV3Client setProperties d) := by
      simp only [resourceRdsInstanceV3Update.publicIPsTraced, hchange, ne_eq,
        not_false_eq_true, if_true, List.length_nil, List.getElem?_cons_zero]
      split
      · rename_i what h
        exact absurd h (unassignEipFromInstance_no_panic nw oldIP what)
      · rfl
    refine ⟨oldIP, rest, rfl, List.getElem?_cons_zero, htrace, ?_, ?_⟩
    · simp only [resourceRdsInstanceV3Update.publicIPs, htrace]
    · intro first more hlist haddr
      have hopts : (if oldIP ≠ "" then ({ FloatingIP := oldIP, PortID := "" } : FloatingIPListOpts)
          else { FloatingIP := "", PortID := "" }) = { FloatingIP := oldIP, PortID := "" } := by
        by_cases h : oldIP = ""
        · simp [h]
        · simp [h]
      simp only [unassignEipFromInstance, findFloatingIP, hopts, hlist]
      simp [findFloatingIP.loop, haddr]

/-- C21, on `public_ips` changed from the one address 80.158.0.10 to none,
with the `sampleNetwork`, whose update of the floating IP fails: the handler
calls `unassignEipFromInstance` on 80.158.0.10, then the final read, and
returns what the read returns. -/
theorem update_unassign_in_range_witness :
    resourceRdsInstanceV3Update.publicIPsTraced sampleNetwork (.ok (fun _ => .ok "subnet-1"))
        (.ok sampleRdsClient) (fun _ d => (d, none)) ["80.158.0.10"] []
        sampleInstanceData =
      ([UpdateCall.unassignEip "80.158.0.10", UpdateCall.read],
        resourceRdsInstanceV3Read (.ok sampleRdsClient) (fun _ d => (d, none))
          sampleInstanceData) ∧
    unassignEipFromInstance sampleNetwork "80.158.0.10" =
      (sampleNetwork.updateFloatingIP "fip-1" none).map (fun err => Fault.err err.Error) := by
  obtain ⟨oldIP, rest, heq, _, htrace, _, hfip⟩ :=
    update_unassign_in_range sampleNetwork (.ok (fun _ => .ok "subnet-1"))
      (.ok sampleRdsClient) (fun _ d => (d, none)) ["80.158.0.10"] [] sampleInstanceData
      (by decide) rfl
  cases heq
  exact ⟨htrace, hfip { ID := "fip-1", FloatingIP := "80.158.0.10", PortID := "" } [] rfl rfl⟩

/-! ## RDS v3 instance: waiting for the deletion -/

/-- When the list request is answered by a body holding the instance list, the
lookup by list is the loop over that list. -/
theorem fetch_eq_loop (d : RdsInstanceData) (client : ServiceClient)
    (body : List (String × Value)) (items : List Value)
    (hget : client.Get (client.ServiceURL "instances" ++ ("?id=" ++ d.id)) = .ok (.obj body))
    (hitems : body.lookup "instances" = some (.list items)) :
    fetchRdsInstanceV3ByList d client =
      findRdsInstanceV3ByList.loop [("id", .str d.id)] items := by
  have hnav := navigateValue_key body [] "instances" _ hitems rfl
  simp only [fetchRdsInstanceV3ByList, findRdsInstanceV3ByList, sendRdsInstanceV3ListRequest,
    hget, hnav, bind, Except.bind, Value.assertList]

/-- The loop over a list that holds an instance of the ID sought does not fail
with a returned error: it finds an instance, or panics on an item that is not
a map. -/
theorem findLoop_present (id : String) (items : List Value)
    (h : ∃ kvs, Value.obj kvs ∈ items ∧ kvs.lookup "id" = some (.str id)) (text : String) :
    findRdsInstanceV3ByList.loop [("id", .str id)] items ≠ .error (.err text) := by
  induction items with
  | nil =>
    obtain ⟨kvs, hm, _⟩ := h
    cases hm
  | cons item rest ih =>
    cases item with
    | obj val =>
      by_cases hval : val.lookup "id" = some (.str id)
      · have hb := (bingo_id val id).1 hval
        simp [findRdsInstanceV3ByList.loop, Value.assertMap, bind, Except.bind, hb, pure,
          Except.pure]
      · have hb := (bingo_id val id).2 hval
        have hrest : ∃ kvs, Value.obj kvs ∈ rest ∧ kvs.lookup "id" = some (.str id) := by
          obtain ⟨kvs, hm, hk⟩ := h
          rcases List.mem_cons.1 hm with heq | hm
          · simp only [Value.obj.injEq] at heq
            rw [heq] at hk
            exact absurd hk hval
          · exact ⟨kvs, hm, hk⟩
        simp only [findRdsInstanceV3ByList.loop, Value.assertMap, bind, Except.bind, hb]
        simpa using ih hrest
    | null => simp [findRdsInstanceV3ByList.loop, Value.assertMap, bind, Except.bind]
    | bool b => simp [findRdsInstanceV3ByList.loop, Value.assertMap, bind, Except.bind]
    | int i => simp [findRdsInstanceV3ByList.loop, Value.assertMap, bind, Except.bind]
    | str s => simp [findRdsInstanceV3ByList.loop, Value.assertMap, bind, Except.bind]
    | list xs => simp [findRdsInstanceV3ByList.loop, Value.assertMap, bind, Except.bind]

/-- C22 fails as stated: when the list request itself fails with an error whose
text holds the sentence "Error finding the resource by list api", no list is
read, the lookup fails with the wrapped request error, and the status function
reports "Done" all the same. -/
theorem deleteStatus_done_without_list :
    sampleFailingRdsClient.Get
        (sampleFailingRdsClient.ServiceURL "instances" ++ ("?id=" ++ "rds-1")) =
      .error (.plain "Error finding the resource by list api") ∧
    fetchRdsInstanceV3ByList { id := "rds-1", attrs := [] } sampleFailingRdsClient =
      .error (.err ("Error running api(list) for resource(RdsInstanceV3), err="
        ++ "Error finding the resource by list api")) ∧
    resourceRdsInstanceV3Delete.statusFunc { id := "rds-1", attrs := [] }
        sampleFailingRdsClient = .ok (.bool true, "Done", none) := by
  have hin : strContains ("Error running api(list) for resource(RdsInstanceV3), err="
      ++ "Error finding the resource by list api")
      "Error finding the resource by list api" = true := by
    simp only [strContains, decide_eq_true_eq, String.data_append]
    exact List.infix_append' _ _ []
  have hf : fetchRdsInstanceV3ByList { id := "rds-1", attrs := [] } sampleFailingRdsClient =
      .error (.err ("Error running api(list) for resource(RdsInstanceV3), err="
        ++ "Error finding the resource by list api")) := rfl
  refine ⟨rfl, hf, ?_⟩
  simp only [resourceRdsInstanceV3Delete.statusFunc, hf, hin, if_true]

/-- C22 as amended: the status function polled by
`resourceRdsInstanceV3Delete` reports, for every result of looking the instance
up by list: "Done" when the lookup fails with an error whose message contains
"Error finding the resource by list api", "Pending" when the lookup finds the
instance, and the empty state for any other lookup error; whatever it returns,
the error is `nil`; whenever the list request succeeds and returns the instance
list, "Done" is reported only when the instance is absent from that list, and on
a list of instances exactly then; and when the list request itself fails,
"Done" is reported exactly when the text of the wrapped request error contains
that sentence, the empty state otherwise. -/
theorem deleteStatus_states (d : RdsInstanceData) (client : ServiceClient) :
    (∀ text, fetchRdsInstanceV3ByList d client = .error (.err text) →
      strContains text "Error finding the resource by list api" = true →
      resourceRdsInstanceV3Delete.statusFunc d client = .ok (.bool true, "Done", none)) ∧
    (∀ v, fetchRdsInstanceV3ByList d client = .ok v →
      resourceRdsInstanceV3Delete.statusFunc d client = .ok (.bool true, "Pending", none)) ∧
    (∀ text, fetchRdsInstanceV3ByList d client = .error (.err text) →
      strContains text "Error finding the resource by list api" = false →
      resourceRdsInstanceV3Delete.statusFunc d client = .ok (.null, "", none)) ∧
    (∀ res, resourceRdsInstanceV3Delete.statusFunc d client = .ok res → res.2.2 = none) ∧
    (∀ body items,
      client.Get (client.ServiceURL "instances" ++ ("?id=" ++ d.id)) = .ok (.obj body) →
      body.lookup "instances" = some (.list items) →
      (∃ kvs, Value.obj kvs ∈ items ∧ kvs.lookup "id" = some (.str d.id)) →
      ∀ res, resourceRdsInstanceV3Delete.statusFunc d client = .ok res →
        res.2.1 ≠ "Done") ∧
    (∀ body (instances : List (List (String × Value))),
      client.Get (client.ServiceURL "instances" ++ ("?id=" ++ d.id)) = .ok (.obj body) →
      body.lookup "instances" = some (.list (instances.map .obj)) →
      (resourceRdsInstanceV3Delete.statusFunc d client = .ok (.bool true, "Done", none) ↔
        ∀ x ∈ instances, x.lookup "id" ≠ some (.str d.id))) ∧
    (∀ err,
      client.Get (client.ServiceURL "instances" ++ ("?id=" ++ d.id)) = .error err →
      resourceRdsInstanceV3Delete.statusFunc d client =
        if strContains
            ("Error running api(list) for resource(RdsInstanceV3), err=" ++ err.Error)
            "Error finding the resource by list api"
        then .ok (.bool true, "Done", none)
        else .ok (.null, "", none)) := by
  have hpresent : ∀ body items,
      client.Get (client.ServiceURL "instances" ++ ("?id=" ++ d.id)) = .ok (.obj body) →
      body.lookup "instances" = some (.list items) →
      (∃ kvs, Value.obj kvs ∈ items ∧ kvs.lookup "id" = some (.str d.id)) →
      ∀ res, resourceRdsInstanceV3Delete.statusFunc d client = .ok res →
        res.2.1 ≠ "Done" := by
    intro body items hget hitems hin res hres
    have hloop := fetch_eq_loop d client body items hget hitems
    have hne := findLoop_present d.id items hin
    rw [← hloop] at hne
    unfold resourceRdsInstanceV3Delete.statusFunc at hres
    cases hf : fetchRdsInstanceV3ByList d client with
    | ok v =>
      simp only [hf, Except.ok.injEq] at hres
      rw [← hres]
      decide
    | error e =>
      cases e with
      | err text => exact absurd hf (hne text)
      | panic what => simp [hf] at hres
  refine ⟨?_, ?_, ?_, ?_, hpresent, ?_, ?_⟩
  · intro text hf hc
    simp [resourceRdsInstanceV3Delete.statusFunc, hf, hc]
  · intro v hf
    simp [resourceRdsInstanceV3Delete.statusFunc, hf]
  · intro text hf hc
    simp [resourceRdsInstanceV3Delete.statusFunc, hf, hc]
  · intro res hres
    unfold resourceRdsInstanceV3Delete.statusFunc at hres
    cases hf : fetchRdsInstanceV3ByList d client with
    | ok v =>
      simp only [hf, Except.ok.injEq] at hres
      rw [← hres]
    | error e =>
      cases e with
      | err text =>
        by_cases hc : strContains text "Error finding the resource by list api" = true
        · simp only [hf, hc, if_true, Except.ok.injEq] at hres
          rw [← hres]
        · simp only [hf, hc, Bool.false_eq_true, if_false, Except.ok.injEq] at hres
          rw [← hres]
      | panic what => simp [hf] at hres
  · intro body instances hget hitems
    have hloop := fetch_eq_loop d client body _ hget hitems
    constructor
    · intro hdone x hx hid
      have hin : ∃ kvs, Value.obj kvs ∈ instances.map Value.obj ∧
          kvs.lookup "id" = some (.str d.id) :=
        ⟨x, List.mem_map.2 ⟨x, hx, rfl⟩, hid⟩
      exact hpresent body _ hget hitems hin _ hdone rfl
    · intro hno
      have hskip := findLoop_skip d.id instances [] hno
      rw [List.append_nil] at hskip
      have hf : fetchRdsInstanceV3ByList d client =
          .error (.err "Error finding the resource by list api") := by
        rw [hloop, hskip]
        rfl
      simp [resourceRdsInstanceV3Delete.statusFunc, hf, strContains_self]
  · intro err hget
    have hf : fetchRdsInstanceV3ByList d client =
        .error (.err ("Error running api(list) for resource(RdsInstanceV3), err="
          ++ err.Error)) := by
      simp only [fetchRdsInstanceV3ByList, findRdsInstanceV3ByList,
        sendRdsInstanceV3ListRequest, hget, bind, Except.bind]
    simp only [resourceRdsInstanceV3Delete.statusFunc, hf]

/-- C22 as amended, on `sampleRdsClient`, whose list holds the instance "rds-1" only, and
the resource ID "rds-9": the state reported is "Done". -/
theorem deleteStatus_states_witness :
    resourceRdsInstanceV3Delete.statusFunc { id := "rds-9", attrs := [] } sampleRdsClient =
      .ok (.bool true, "Done", none) :=
  ((deleteStatus_states { id := "rds-9", attrs := [] } sampleRdsClient).2.2.2.2.2.1
    [("instances", .list [.obj [("id", .str "rds-1")]])] [[("id", .str "rds-1")]]
    rfl rfl).2
    (by
      intro x hx
      rw [List.mem_singleton] at hx
      subst hx
      simp [List.lookup])

/-! ## Tags: setting the tags -/

/-- The two retry callbacks of `setTags` ask for another attempt exactly on an
AWS error whose code contains ".NotFound". -/
theorem removeRetryFunc_retryable (outcome : Option GoErr) :
    (∃ r, setTags.removeRetryFunc outcome = some r ∧ r.isRetryable = true) ↔
      ∃ code text, outcome = some (.aws code text) ∧ strContains code ".NotFound" = true := by
  constructor
  · rintro ⟨r, hr, hret⟩
    match outcome, hr with
    | some (.aws code text), hr =>
      by_cases hc : strContains code ".NotFound" = true
      · exact ⟨code, text, rfl, hc⟩
      · simp [setTags.removeRetryFunc, hc] at hr
        subst hr
        simp [RetryError.isRetryable] at hret
    | some (.default404 text), hr =>
      simp [setTags.removeRetryFunc] at hr
      subst hr
      simp [RetryError.isRetryable] at hret
    | some (.plain text), hr =>
      simp [setTags.removeRetryFunc] at hr
      subst hr
      simp [RetryError.isRetryable] at hret
    | none, hr => simp [setTags.removeRetryFunc] at hr
  · rintro ⟨code, text, rfl, hc⟩
    exact ⟨.retryable (.aws code text), by simp [setTags.removeRetryFunc, hc], rfl⟩

/-- The two retry callbacks of `setTags` classify every outcome alike. -/
theorem createRetryFunc_eq (outcome : Option GoErr) :
    setTags.createRetryFunc outcome = setTags.removeRetryFunc outcome := by
  unfold setTags.createRetryFunc setTags.removeRetryFunc
  rfl

/-- An error that is not an AWS error with ".NotFound" in its code is handed
back as non-retryable by the retry callback. -/
theorem removeRetryFunc_nonRetryable (err : GoErr)
    (h : ∀ code text, err = .aws code text → strContains code ".NotFound" = false) :
    setTags.removeRetryFunc (some err) = some (.nonRetryable err) := by
  cases err with
  | aws code text =>
    have hc := h code text rfl
    simp [setTags.removeRetryFunc, hc]
  | default404 text => simp [setTags.removeRetryFunc]
  | plain text => simp [setTags.removeRetryFunc]

/-- The EC2 calls of `setTags` and its error when the tags could be computed:
the calls of the removal, then, when the removal did not fail, the calls of the
creation. -/
theorem setTags_eq (order : RangeOrder) (retries : Nat) (conn : Ec2Conn) (id : String)
    (o n : List (String × Value)) (oldTags newTags create remove : List Tag)
    (ho : tagsFromMap order o = .ok oldTags) (hn : tagsFromMap order n = .ok newTags)
    (hd : diffTags order oldTags newTags = .ok (create, remove)) :
    setTags order retries conn id true o n =
      match (if remove.length > 0 then
          resourceRetry (fun attempt =>
            setTags.removeRetryFunc (conn.DeleteTags attempt id remove)) retries 0
          else (none, 0)) with
      | (some err, calls) => (List.replicate calls (TagCall.delete id remove),
          some (.err err.Error))
      | (none, calls) =>
        match (if create.length > 0 then
            resourceRetry (fun attempt =>
              setTags.createRetryFunc (conn.CreateTags attempt id create)) retries 0
            else (none, 0)) with
        | (some err, made) =>
          (List.replicate calls (TagCall.delete id remove) ++
            List.replicate made (TagCall.create id create), some (.err err.Error))
        | (none, made) =>
          (List.replicate calls (TagCall.delete id remove) ++
            List.replicate made (TagCall.create id create), none) := by
  simp only [setTags, if_true, ho, hn, hd]
  rcases hr : (if remove.length > 0 then
      resourceRetry (fun attempt =>
        setTags.removeRetryFunc (conn.DeleteTags attempt id remove)) retries 0
      else (none, 0)) with ⟨rerr, rcalls⟩
  cases rerr with
  | some err => rfl
  | none =>
    simp only
    rcases hc : (if create.length > 0 then
        resourceRetry (fun attempt =>
          setTags.createRetryFunc (conn.CreateTags attempt id create)) retries 0
        else (none, 0)) with ⟨cerr, ccalls⟩
    cases cerr with
    | some err => rfl
    | none => rfl

/-- Every EC2 call of `setTags` that removes tags is made before every call
that creates tags. -/
theorem setTags_calls_split (order : RangeOrder) (retries : Nat) (conn : Ec2Conn)
    (id : String) (hasChange : Bool) (o n : List (String × Value)) :
    ∃ removeCalls createCalls,
      (setTags order retries conn id hasChange o n).1 = removeCalls ++ createCalls ∧
      (∀ c ∈ removeCalls, ∃ r ts, c = TagCall.delete r ts) ∧
      (∀ c ∈ createCalls, ∃ r ts, c = TagCall.create r ts) := by
  have hnil : ∃ removeCalls createCalls,
      ([] : List TagCall) = removeCalls ++ createCalls ∧
      (∀ c ∈ removeCalls, ∃ r ts, c = TagCall.delete r ts) ∧
      (∀ c ∈ createCalls, ∃ r ts, c = TagCall.create r ts) :=
    ⟨[], [], rfl, by simp, by simp⟩
  cases hasChange with
  | false => simpa [setTags] using hnil
  | true =>
    cases ho : tagsFromMap order o with
    | error e => simpa [setTags, ho] using hnil
    | ok oldTags =>
      cases hn : tagsFromMap order n with
      | error e => simpa [setTags, ho, hn] using hnil
      | ok newTags =>
        cases hd : diffTags order oldTags newTags with
        | error e => simpa [setTags, ho, hn, hd] using hnil
        | ok pair =>
          obtain ⟨create, remove⟩ := pair
          rw [setTags_eq order retries conn id o n oldTags newTags create remove ho hn hd]
          rcases (if remove.length > 0 then
              resourceRetry (fun attempt =>
                setTags.removeRetryFunc (conn.DeleteTags attempt id remove)) retries 0
              else (none, 0)) with ⟨rerr, rcalls⟩
          have hdel : ∀ c ∈ List.replicate rcalls (TagCall.delete id remove),
              ∃ r ts, c = TagCall.delete r ts := by
            intro c hc
            exact ⟨id, remove, (List.mem_replicate.1 hc).2⟩
          cases rerr with
          | some err =>
            exact ⟨_, [], (List.append_nil _).symm, hdel, by simp⟩
          | none =>
            simp only
            rcases (if create.length > 0 then
                resourceRetry (fun attempt =>
                  setTags.createRetryFunc (conn.CreateTags attempt id create)) retries 0
                else (none, 0)) with ⟨cerr, ccalls⟩
            have hcre : ∀ c ∈ List.replicate ccalls (TagCall.create id create),
                ∃ r ts, c = TagCall.create r ts := by
              intro c hc
              exact ⟨id, create, (List.mem_replicate.1 hc).2⟩
            cases cerr with
            | some err => exact ⟨_, _, rfl, hdel, hcre⟩
            | none => exact ⟨_, _, rfl, hdel, hcre⟩

/-- The attempts of `resourceRetry`: at least one is made and at most one more
than `retries`; every attempt before the last one ended with a retryable
error; and the result is what the last attempt ended with, a retryable error
only when no further attempt was left. -/
theorem resourceRetry_attempts (f : Nat → Option RetryError) (retries attempt : Nat) :
    attempt + 1 ≤ (resourceRetry f retries attempt).2 ∧
    (resourceRetry f retries attempt).2 ≤ attempt + retries + 1 ∧
    (∀ i, attempt ≤ i → i + 1 < (resourceRetry f retries attempt).2 →
      ∃ err, f i = some (.retryable err)) ∧
    (match (resourceRetry f retries attempt).1 with
      | none => f ((resourceRetry f retries attempt).2 - 1) = none
      | some err =>
        f ((resourceRetry f retries attempt).2 - 1) = some (.nonRetryable err) ∨
        (f ((resourceRetry f retries attempt).2 - 1) = some (.retryable err) ∧
          (resourceRetry f retries attempt).2 = attempt + retries + 1)) := by
  induction retries generalizing attempt with
  | zero =>
    match hf : f attempt with
    | none =>
      simp only [resourceRetry, hf]
      exact ⟨le_refl _, by omega, fun i h1 h2 => by omega, by simpa using hf⟩
    | some (.nonRetryable err) =>
      simp only [resourceRetry, hf]
      exact ⟨le_refl _, by omega, fun i h1 h2 => by omega, Or.inl (by simpa using hf)⟩
    | some (.retryable err) =>
      simp only [resourceRetry, hf]
      exact ⟨le_refl _, by omega, fun i h1 h2 => by omega,
        Or.inr ⟨by simpa using hf, trivial⟩⟩
  | succ retries ih =>
    match hf : f attempt with
    | none =>
      simp only [resourceRetry, hf]
      exact ⟨le_refl _, by omega, fun i h1 h2 => by omega, by simpa using hf⟩
    | some (.nonRetryable err) =>
      simp only [resourceRetry, hf]
      exact ⟨le_refl _, by omega, fun i h1 h2 => by omega, Or.inl (by simpa using hf)⟩
    | some (.retryable err) =>
      simp only [resourceRetry, hf]
      obtain ⟨h1, h2, h3, h4⟩ := ih (attempt + 1)
      refine ⟨by omega, by omega, ?_, ?_⟩
      · intro i hi hlt
        by_cases hia : i = attempt
        · subst hia
          exact ⟨err, hf⟩
        · exact h3 i (by omega) hlt
      · revert h4
        cases (resourceRetry f retries (attempt + 1)).1 with
        | none => exact fun h => h
        | some e =>
          rintro (h | ⟨h, hk⟩)
          · exact Or.inl h
          · exact Or.inr ⟨h, by omega⟩

/-- C23: in `setTags`, each of the two retry callbacks classifies the outcome
of its `DeleteTags` or `CreateTags` call as retryable exactly when it is an AWS
error whose code contains ".NotFound"; a call without error ends the retry and
every other error is non-retryable.  Each retry makes at least one attempt and
repeats it only after a retryable error.  Without a change of the tags no call
is made.  With a change, the calls made are exactly these, in this order: when
there are tags to remove, the `DeleteTags` attempts on them; and then, only
when the removal did not fail and there are tags to create, the `CreateTags`
attempts on them.  When the removal fails, its error is returned and no
`CreateTags` call is made; otherwise the outcome of the creation is returned. -/
theorem setTags_retry_and_order (order : RangeOrder) (retries : Nat) (conn : Ec2Conn)
    (id : String) (o n : List (String × Value)) :
    (∀ outcome,
      ((∃ r, setTags.removeRetryFunc outcome = some r ∧ r.isRetryable = true) ↔
        ∃ code text, outcome = some (.aws code text) ∧
          strContains code ".NotFound" = true) ∧
      ((∃ r, setTags.createRetryFunc outcome = some r ∧ r.isRetryable = true) ↔
        ∃ code text, outcome = some (.aws code text) ∧
          strContains code ".NotFound" = true) ∧
      (outcome = none →
        setTags.removeRetryFunc outcome = none ∧ setTags.createRetryFunc outcome = none) ∧
      (∀ err, outcome = some err →
        (∀ code text, err = .aws code text → strContains code ".NotFound" = false) →
        setTags.removeRetryFunc outcome = some (.nonRetryable err) ∧
        setTags.createRetryFunc outcome = some (.nonRetryable err))) ∧
    (∀ f : Nat → Option RetryError,
      1 ≤ (resourceRetry f retries 0).2 ∧ (resourceRetry f retries 0).2 ≤ retries + 1 ∧
      (∀ i, i + 1 < (resourceRetry f retries 0).2 → ∃ err, f i = some (.retryable err)) ∧
      (match (resourceRetry f retries 0).1 with
        | none => f ((resourceRetry f retries 0).2 - 1) = none
        | some err =>
          f ((resourceRetry f retries 0).2 - 1) = some (.nonRetryable err) ∨
          (f ((resourceRetry f retries 0).2 - 1) = some (.retryable err) ∧
            (resourceRetry f retries 0).2 = retries + 1))) ∧
    setTags order retries conn id false o n = ([], none) ∧
    (∀ oldTags newTags create remove,
      tagsFromMap order o = .ok oldTags → tagsFromMap order n = .ok newTags →
      diffTags order oldTags newTags = .ok (create, remove) →
      (remove = [] → create = [] →
        setTags order retries conn id true o n = ([], none)) ∧
      (∀ err, remove ≠ [] →
        (resourceRetry (fun attempt =>
          setTags.removeRetryFunc (conn.DeleteTags attempt id remove)) retries 0).1 =
            some err →
        setTags order retries conn id true o n =
          (List.replicate
              (resourceRetry (fun attempt =>
                setTags.removeRetryFunc (conn.DeleteTags attempt id remove)) retries 0).2
              (TagCall.delete id remove),
            some (.err err.Error))) ∧
      (remove ≠ [] →
        (resourceRetry (fun attempt =>
          setTags.removeRetryFunc (conn.DeleteTags attempt id remove)) retries 0).1 = none →
        create = [] →
        setTags order retries conn id true o n =
          (List.replicate
              (resourceRetry (fun attempt =>
                setTags.removeRetryFunc (conn.DeleteTags attempt id remove)) retries 0).2
              (TagCall.delete id remove),
            none)) ∧
      (remove ≠ [] →
        (resourceRetry (fun attempt =>
          setTags.removeRetryFunc (conn.DeleteTags attempt id remove)) retries 0).1 = none →
        create ≠ [] →
        setTags order retries conn id true o n =
          (List.replicate
              (resourceRetry (fun attempt =>
                setTags.removeRetryFunc (conn.DeleteTags attempt id remove)) retries 0).2
              (TagCall.delete id remove) ++
            List.replicate
              (resourceRetry (fun attempt =>
                setTags.createRetryFunc (conn.CreateTags attempt id create)) retries 0).2
              (TagCall.create id create),
            (resourceRetry (fun attempt =>
              setTags.createRetryFunc (conn.CreateTags attempt id create)) retries 0).1.map
                (fun err => Fault.err err.Error))) ∧
      (remove = [] → create ≠ [] →
        setTags order retries conn id true o n =
          (List.replicate
              (resourceRetry (fun attempt =>
                setTags.createRetryFunc (conn.CreateTags attempt id create)) retries 0).2
              (TagCall.create id create),
            (resourceRetry (fun attempt =>
              setTags.createRetryFunc (conn.CreateTags attempt id create)) retries 0).1.map
                (fun err => Fault.err err.Error)))) := by
  refine ⟨?_, ?_, ?_, ?_⟩
  · intro outcome
    refine ⟨removeRetryFunc_retryable outcome, ?_, ?_, ?_⟩
    · rw [createRetryFunc_eq]
      exact removeRetryFunc_retryable outcome
    · rintro rfl
      exact ⟨rfl, rfl⟩
    · rintro err rfl h
      rw [createRetryFunc_eq]
      exact ⟨removeRetryFunc_nonRetryable err h, removeRetryFunc_nonRetryable err h⟩
  · intro f
    obtain ⟨h1, h2, h3, h4⟩ := resourceRetry_attempts f retries 0
    refine ⟨by omega, by omega, fun i hi => h3 i (Nat.zero_le i) hi, ?_⟩
    revert h4
    cases (resourceRetry f retries 0).1 with
    | none => exact fun h => h
    | some e =>
      rintro (h | ⟨h, hk⟩)
      · exact Or.inl h
      · exact Or.inr ⟨h, by omega⟩
  · simp [setTags]
  · intro oldTags newTags create remove ho hn hd
    have heq := setTags_eq order retries conn id o n oldTags newTags create remove ho hn hd
    have hcreate : ∀ removeCalls : List TagCall, create ≠ [] →
        (match resourceRetry (fun attempt =>
            setTags.createRetryFunc (conn.CreateTags attempt id create)) retries 0 with
          | (some err, made) =>
            (removeCalls ++ List.replicate made (TagCall.create id create),
              some (Fault.err err.Error))
          | (none, made) =>
            (removeCalls ++ List.replicate made (TagCall.create id create), none)) =
        (removeCalls ++ List.replicate
            (resourceRetry (fun attempt =>
              setTags.createRetryFunc (conn.CreateTags attempt id create)) retries 0).2
            (TagCall.create id create),
          (resourceRetry (fun attempt =>
            setTags.createRetryFunc (conn.CreateTags attempt id create)) retries 0).1.map
              (fun err => Fault.err err.Error)) := by
      intro removeCalls _
      rcases resourceRetry (fun attempt =>
          setTags.createRetryFunc (conn.CreateTags attempt id create)) retries 0 with
        ⟨cerr, made⟩
      cases cerr <;> rfl
    refine ⟨?_, ?_, ?_, ?_, ?_⟩
    · rintro rfl rfl
      rw [heq]
      rfl
    · intro err hne hfail
      have hlen : remove.length > 0 := List.length_pos.2 hne
      rw [heq]
      simp only [hlen, if_true]
      rcases hr : resourceRetry (fun attempt =>
          setTags.removeRetryFunc (conn.DeleteTags attempt id remove)) retries 0 with
        ⟨rerr, rcalls⟩
      rw [hr] at hfail
      simp only at hfail
      subst hfail
      rfl
    · rintro hne hok rfl
      have hlen : remove.length > 0 := List.length_pos.2 hne
      rw [heq]
      simp only [hlen, if_true]
      rcases hr : resourceRetry (fun attempt =>
          setTags.removeRetryFunc (conn.DeleteTags attempt id remove)) retries 0 with
        ⟨rerr, rcalls⟩
      rw [hr] at hok
      simp only at hok
      subst hok
      simp
    · intro hne hok hcne
      have hlen : remove.length > 0 := List.length_pos.2 hne
      have hclen : create.length > 0 := List.length_pos.2 hcne
      rw [heq]
      simp only [hlen, hclen, if_true]
      rcases hr : resourceRetry (fun attempt =>
          setTags.removeRetryFunc (conn.DeleteTags attempt id remove)) retries 0 with
        ⟨rerr, rcalls⟩
      rw [hr] at hok
      simp only at hok
      subst hok
      exact hcreate _ hcne
    · rintro rfl hcne
      have hclen : create.length > 0 := List.length_pos.2 hcne
      rw [heq]
      simp only [List.length_nil, gt_iff_lt, lt_self_iff_false, if_false, hclen, if_true,
        List.replicate_zero]
      exact hcreate [] hcne

/-- C23, on tags changed from a=1 to b=2 with `sampleEc2Conn`: `DeleteTags` is
tried on a=1, tried again after the ".NotFound" error and fails; these two
calls are the only ones made, and the error of the second one is returned. -/
theorem setTags_retry_and_order_witness :
    setTags RangeOrder.inOrder 3 sampleEc2Conn "i-1" true [("a", .str "1")]
        [("b", .str "2")] =
      ([TagCall.delete "i-1" [{ Key := "a", Value := "1" }],
        TagCall.delete "i-1" [{ Key := "a", Value := "1" }]],
        some (.err "UnauthorizedOperation: denied")) :=
  ((setTags_retry_and_order RangeOrder.inOrder 3 sampleEc2Conn "i-1" [("a", .str "1")]
    [("b", .str "2")]).2.2.2
    [{ Key := "a", Value := "1" }] [{ Key := "b", Value := "2" }]
    [{ Key := "b", Value := "2" }] [{ Key := "a", Value := "1" }] rfl rfl rfl).2.1
    (.aws "UnauthorizedOperation" "UnauthorizedOperation: denied") (by decide) rfl

end OTC
